import Mathlib

/-!
# ArcDVI firmware: video timing autodetection (`firmware/video.c`)

A shallow embedding of `video_probe_mode` and the helpers it uses.  C `unsigned int`
and `uint32_t` values are natural numbers kept below `2^32`; every C operator that can
wrap is modelled by an explicit `% 2^32`.
-/

namespace ArcDVI

/-! ## 32-bit unsigned arithmetic -/

/-- C `a + b` on `unsigned int`. -/
def add32 (a b : Nat) : Nat := (a + b) % 4294967296

/-- C `a - b` on `unsigned int` (wraps below zero). -/
def sub32 (a b : Nat) : Nat := (a % 4294967296 + 4294967296 - b % 4294967296) % 4294967296

/-- C `a * b` on `unsigned int`. -/
def mul32 (a b : Nat) : Nat := (a * b) % 4294967296

/-- C `a << n` on `unsigned int`. -/
def shl32 (a n : Nat) : Nat := (a <<< n) % 4294967296

/-! ## `vidc_regs.h`, `vidc_regs.c` -/

def VIDC_H_CYC : Nat := 0x80
def VIDC_H_SYNC : Nat := 0x84
def VIDC_H_DISP_START : Nat := 0x8c
def VIDC_H_DISP_END : Nat := 0x90
def VIDC_V_CYC : Nat := 0xa0
def VIDC_V_SYNC : Nat := 0xa4
def VIDC_V_DISP_START : Nat := 0xac
def VIDC_V_DISP_END : Nat := 0xb0
def VIDC_CONTROL : Nat := 0xe0

/-- The function `vidc_reg`: the captured VIDC register at byte offset `r`, read as a
`uint32_t` from the word array `regs` (the macro `REG(x, r)` is `x[r/4]`); offsets from
`0x100` up read as zero. -/
def vidc_reg (regs : Nat → Nat) (r : Nat) : Nat :=
  if r < 0x100 then regs (r / 4) % 4294967296 else 0

/-- The inline function `vidc_bpp_to_hdsr_offset`. -/
def vidc_bpp_to_hdsr_offset (bpp_po2 : Nat) : Nat :=
  match bpp_po2 with
  | 0 => 19
  | 1 => 11
  | 2 => 7
  | 3 => 5
  | _ => 0

/-! ## `video.h`: output register offsets -/

def VIDO_REG_RES_X : Nat := 0
def VIDO_REG_HS_FP : Nat := 1
def VIDO_REG_HS_WIDTH : Nat := 2
def VIDO_REG_HS_BP : Nat := 3
def VIDO_REG_RES_Y : Nat := 4
def VIDO_REG_VS_FP : Nat := 5
def VIDO_REG_VS_WIDTH : Nat := 6
def VIDO_REG_VS_BP : Nat := 7
def VIDO_REG_SYNC : Nat := 8
def VIDO_REG_WPLM1 : Nat := 9
def VIDO_REG_CTRL : Nat := 10

/-! ## `video.c`: `video_probe_mode` -/

/-- The function `video_guess_hires`. -/
def video_guess_hires (x y bpp pclk : Nat) : Bool :=
  decide (pclk = 24) && decide (bpp = 2) && decide (x < y / 2)

/-- The table `pix_rates` of `video_probe_mode`. -/
def pix_rates : List Nat := [8, 12, 16, 24]

/-- The local variables of `video_probe_mode`: the decoded source registers
(`cr` .. `vder`, never reassigned) and the timing that ends up in the output
registers (`xres` .. `dy`, plus `bpp`, which the hires branch overwrites). -/
structure ProbeVars where
  cr : Nat
  bpp : Nat
  pix_rate : Nat
  hcr : Nat
  hsw : Nat
  hdsr : Nat
  hder : Nat
  vcr : Nat
  vsw : Nat
  vdsr : Nat
  vder : Nat
  xres : Nat
  yres : Nat
  xfp : Nat
  xsw : Nat
  xbp : Nat
  yfp : Nat
  ysw : Nat
  ybp : Nat
  wpl : Nat
  cx : Nat
  hires : Nat
  dx : Nat
  dy : Nat
deriving DecidableEq, Repr

/-- The declarations at the top of `video_probe_mode` (lines 193-218): the source
registers are read and decoded into the initial values of the locals. -/
def decode (regs : Nat → Nat) : ProbeVars :=
  let cr := vidc_reg regs VIDC_CONTROL
  let bpp := (cr >>> 2) &&& 3
  let pix_rate := pix_rates.getD (cr &&& 3) 0
  let hcr := add32 (mul32 (vidc_reg regs VIDC_H_CYC >>> 14) 2) 2
  let hsw := add32 (mul32 (vidc_reg regs VIDC_H_SYNC >>> 14) 2) 2
  let hdsr := add32 (mul32 (vidc_reg regs VIDC_H_DISP_START >>> 14) 2)
    (vidc_bpp_to_hdsr_offset bpp)
  let hder := add32 (mul32 (vidc_reg regs VIDC_H_DISP_END >>> 14) 2)
    (vidc_bpp_to_hdsr_offset bpp)
  let vcr := add32 (vidc_reg regs VIDC_V_CYC >>> 14) 1
  let vsw := add32 (vidc_reg regs VIDC_V_SYNC >>> 14) 1
  let vdsr := add32 (vidc_reg regs VIDC_V_DISP_START >>> 14) 1
  let vder := add32 (vidc_reg regs VIDC_V_DISP_END >>> 14) 1
  let xres := sub32 hder hdsr
  let yres := sub32 vder vdsr
  { cr := cr, bpp := bpp, pix_rate := pix_rate,
    hcr := hcr, hsw := hsw, hdsr := hdsr, hder := hder,
    vcr := vcr, vsw := vsw, vdsr := vdsr, vder := vder,
    xres := xres,
    yres := yres,
    xfp := sub32 hcr hder,
    xsw := hsw,
    xbp := sub32 hdsr hsw,
    yfp := sub32 vcr vder,
    ysw := vsw,
    ybp := sub32 vdsr vsw,
    wpl := sub32 (xres / (32 >>> bpp)) 1,
    cx := sub32 hdsr 6,
    hires := 0,
    dx := 0,
    dy := 0 }

/-- The totals that the "New mode" message of `video_probe_mode` prints:
`xres + xfp + xsw + xbp` and `yres + yfp + ysw + ybp`. -/
def printed_totals (l : ProbeVars) : Nat × Nat :=
  (add32 (add32 (add32 l.xres l.xfp) l.xsw) l.xbp,
   add32 (add32 (add32 l.yres l.yfp) l.ysw) l.ybp)

/-- The branch of the `if` / `else if` chain of `video_probe_mode` (lines 233-343)
that a set of decoded locals takes; `Unsupported` is the case in which no branch
is entered. -/
inductive ModeCategory where
  | HiresMono
  | DirectVga
  | YDoubled
  | XYDoubled
  | Unsupported
deriving DecidableEq, Repr

/-- The conditions of the `if` / `else if` chain, in the order of the source. -/
def classify (l : ProbeVars) : ModeCategory :=
  if video_guess_hires l.xres l.yres l.bpp l.pix_rate then .HiresMono
  else if l.xres ≥ 640 ∧ l.yres ≥ 480 then .DirectVga
  else if l.xres ≥ 640 ∧ l.yres < 480 then .YDoubled
  else if l.xres < 640 ∧ l.yres < 480 then .XYDoubled
  else .Unsupported

/-- The messages `video_probe_mode` prints while it retimes. -/
inductive Diag where
  | guessedHires
  | periodMismatch (hcr total_width78 : Nat)
  | cantLineDouble (pix_rate new_total_width min_width : Nat)
  | yDoubled (new_total_width xfp xsw xbp : Nat)
  | cantLineDouble24
  | xyDoubled (new_total_width xfp xsw xbp : Nat)
deriving DecidableEq, Repr

/-- The local `total_width78` of the hires branch: `hcr*4*78/96`. -/
def total_width78 (hcr : Nat) : Nat := mul32 (mul32 hcr 4) 78 / 96

/-- The test `total_width78*96/78/4 != hcr` of the hires branch (true when the
message is printed). -/
def period_mismatch (hcr : Nat) : Bool :=
  decide (mul32 (total_width78 hcr) 96 / 78 / 4 ≠ hcr)

/-- The body of the hires branch (lines 237-258). -/
def retime_hires (l : ProbeVars) : ProbeVars × List Diag :=
  let xres := mul32 l.xres 4
  let tw := total_width78 l.hcr
  let xfp := tw / 20
  let xsw := tw / 40
  let xbp := sub32 (sub32 (sub32 tw xres) xfp) xsw
  ({ l with xres := xres, xfp := xfp, xsw := xsw, xbp := xbp,
            hires := 1, bpp := 0, wpl := sub32 (xres / 32) 1, cx := 0x12c },
   if period_mismatch l.hcr then [Diag.guessedHires, Diag.periodMismatch l.hcr tw]
   else [Diag.guessedHires])

/-- The local `new_total_width` of both doubling branches: `hcr*24/pix_rate/2`. -/
def new_total_width (l : ProbeVars) : Nat := mul32 l.hcr 24 / l.pix_rate / 2

/-- The condition under which the Y-doubling branch refuses to double (line 293),
with `minimum_h_blanking = xres / 32`. -/
def cant_line_double (l : ProbeVars) : Bool :=
  decide (l.pix_rate = 24) || decide (new_total_width l < add32 l.xres (l.xres / 32))

/-- The body of the Y-doubling branch (lines 286-315). -/
def retime_ydouble (l : ProbeVars) : ProbeVars × List Diag :=
  let ntw := new_total_width l
  if cant_line_double l then
    (l, [Diag.cantLineDouble l.pix_rate ntw (add32 l.xres (l.xres / 32))])
  else
    let xfp := ntw / 20
    let xsw := ntw / 40
    let xbp := sub32 (sub32 (sub32 ntw l.xres) xfp) xsw
    ({ l with yres := mul32 l.yres 2, yfp := mul32 l.yfp 2, ysw := mul32 l.ysw 2,
              ybp := mul32 l.ybp 2, xfp := xfp, xsw := xsw, xbp := xbp, dy := 1 },
     [Diag.yDoubled ntw xfp xsw xbp])

/-- The body of the X-and-Y-doubling branch (lines 320-342). -/
def retime_xydouble (l : ProbeVars) : ProbeVars × List Diag :=
  let ntw := new_total_width l
  if l.pix_rate = 24 then
    (l, [Diag.cantLineDouble24])
  else
    let wpl := sub32 (l.xres / (32 >>> l.bpp)) 1
    let xres := mul32 l.xres 2
    let xfp := ntw / 20
    let xsw := ntw / 40
    let xbp := sub32 (sub32 (sub32 ntw xres) xfp) xsw
    ({ l with wpl := wpl, yres := mul32 l.yres 2, yfp := mul32 l.yfp 2,
              ysw := mul32 l.ysw 2, ybp := mul32 l.ybp 2,
              xres := xres, xfp := xfp, xsw := xsw, xbp := xbp, dx := 1, dy := 1 },
     [Diag.xyDoubled ntw xfp xsw xbp])

/-- The `if` / `else if` chain of `video_probe_mode` (lines 233-343): the locals as
they stand before the register writes, and the messages printed on the way. -/
def retime (l : ProbeVars) : ProbeVars × List Diag :=
  match classify l with
  | .HiresMono => retime_hires l
  | .DirectVga => (l, [])
  | .YDoubled => retime_ydouble l
  | .XYDoubled => retime_xydouble l
  | .Unsupported => (l, [])

/-- The ten stores to the output registers at the end of `video_probe_mode`
(lines 345-354), as (register, value) pairs in program order. -/
def output_writes (l : ProbeVars) : List (Nat × Nat) :=
  [ (VIDO_REG_RES_X, l.xres ||| (if l.dx ≠ 0 then 0x80000000 else 0)),
    (VIDO_REG_HS_FP, l.xfp),
    (VIDO_REG_HS_WIDTH, l.xsw),
    (VIDO_REG_HS_BP, l.xbp),
    (VIDO_REG_RES_Y, l.yres ||| (if l.dy ≠ 0 then 0x80000000 else 0)),
    (VIDO_REG_VS_FP, l.yfp),
    (VIDO_REG_VS_WIDTH, l.ysw),
    (VIDO_REG_VS_BP, l.ybp),
    (VIDO_REG_WPLM1, l.wpl),
    (VIDO_REG_CTRL, (l.cx ||| (if l.hires ≠ 0 then 0x80000000 else 0)) ||| shl32 l.bpp 28) ]

/-- The argument `pix_rate*1000000 / (hcr * vcr)` of the "New mode" message
(line 226), in 32-bit arithmetic.  The source divides without a test; `none` is a
division by zero.  The argument is evaluated after the decode and before the
if-chain. -/
def frame_rate (l : ProbeVars) : Option Nat :=
  if mul32 l.hcr l.vcr = 0 then none
  else some (mul32 l.pix_rate 1000000 / mul32 l.hcr l.vcr)

/-- The locals of `video_probe_mode` after the if-chain, for a snapshot of the source
registers: decode, evaluate the arguments of the "New mode" message, then retime.
A division by zero at line 226 is undefined behaviour; the embedding treats it as a
fault that ends the call there, so the chain is not reached and the result is
`none`. -/
def probe_timing (regs : Nat → Nat) : Option ProbeVars :=
  match frame_rate (decode regs) with
  | none => none
  | some _ => some (retime (decode regs)).1

/-- The messages `video_probe_mode` prints while retiming a snapshot; none when the
call stops at the division of line 226. -/
def probe_diags (regs : Nat → Nat) : List Diag :=
  match frame_rate (decode regs) with
  | none => []
  | some _ => (retime (decode regs)).2

/-- The register stores `video_probe_mode` makes for a snapshot, before it calls
`video_sync`: the ten stores of lines 345-354, or none when the call stops at the
division of line 226. -/
def probe_writes (regs : Nat → Nat) : List (Nat × Nat) :=
  match probe_timing regs with
  | none => []
  | some t => output_writes t

/-- A word array holding the nine source registers `video_probe_mode` reads. -/
def snapshot (h_cyc h_sync h_disp_start h_disp_end v_cyc v_sync v_disp_start v_disp_end
    control : Nat) : Nat → Nat := fun i =>
  if i = VIDC_H_CYC / 4 then h_cyc
  else if i = VIDC_H_SYNC / 4 then h_sync
  else if i = VIDC_H_DISP_START / 4 then h_disp_start
  else if i = VIDC_H_DISP_END / 4 then h_disp_end
  else if i = VIDC_V_CYC / 4 then v_cyc
  else if i = VIDC_V_SYNC / 4 then v_sync
  else if i = VIDC_V_DISP_START / 4 then v_disp_start
  else if i = VIDC_V_DISP_END / 4 then v_disp_end
  else if i = VIDC_CONTROL / 4 then control
  else 0

/-! ## Example snapshots

Each register holds its field at bit 14 and up, as the decoder expects. -/

/-- A 640x480 mode at 24MHz, 8bpp (800 x 525 total). -/
def snapVga : Nat → Nat :=
  snapshot (399 * 16384) (47 * 16384) (68 * 16384) (388 * 16384)
    (524 * 16384) (1 * 16384) (33 * 16384) (513 * 16384) 15

/-- A 640 x 1282 timing at 24MHz, 4bpp: wide enough for the VGA rule and tall
enough for the hires guess. -/
def snapTallHires : Nat → Nat :=
  snapshot (449 * 16384) (10 * 16384) (50 * 16384) (370 * 16384)
    (1400 * 16384) (2 * 16384) (20 * 16384) (1302 * 16384) 11

/-- A 160 x 400 timing at 24MHz, 4bpp, line period 800. -/
def snapHires400 : Nat → Nat :=
  snapshot (399 * 16384) (10 * 16384) (50 * 16384) (130 * 16384)
    (449 * 16384) (2 * 16384) (20 * 16384) (420 * 16384) 11

/-- The same 160 x 400 timing with line period 802, not a multiple of 4. -/
def snapHires400odd : Nat → Nat :=
  snapshot (400 * 16384) (10 * 16384) (50 * 16384) (130 * 16384)
    (449 * 16384) (2 * 16384) (20 * 16384) (420 * 16384) 11

/-- A 640 x 256 mode at 16MHz, 4bpp, line period 1024. -/
def snapMode12 : Nat → Nat :=
  snapshot (511 * 16384) (35 * 16384) (90 * 16384) (410 * 16384)
    (311 * 16384) (2 * 16384) (34 * 16384) (290 * 16384) 10

/-- A 320 x 200 mode at 16MHz, 8bpp, line period 1024. -/
def snap320x200at16 : Nat → Nat :=
  snapshot (511 * 16384) (35 * 16384) (100 * 16384) (260 * 16384)
    (311 * 16384) (2 * 16384) (40 * 16384) (240 * 16384) 14

/-- A 320 x 200 mode at 24MHz, 8bpp. -/
def snap320x200at24 : Nat → Nat :=
  snapshot (511 * 16384) (35 * 16384) (100 * 16384) (260 * 16384)
    (311 * 16384) (2 * 16384) (40 * 16384) (240 * 16384) 15

/-- A 600 x 250 mode at 16MHz, 4bpp, line period 800: half the line period at
24MHz is 600 pixels, fewer than the 1200 of the doubled line. -/
def snapWide16 : Nat → Nat :=
  snapshot (399 * 16384) (19 * 16384) (50 * 16384) (350 * 16384)
    (311 * 16384) (2 * 16384) (40 * 16384) (290 * 16384) 10

/-- A 320 x 480 mode at 16MHz, 4bpp. -/
def snapNarrowTall : Nat → Nat :=
  snapshot (255 * 16384) (19 * 16384) (50 * 16384) (210 * 16384)
    (549 * 16384) (2 * 16384) (40 * 16384) (520 * 16384) 10

/-- A 640 x 250 mode at 16MHz, 4bpp, line period 864: half the line period at
24MHz is 648 pixels, fewer than 640 + 640/32. -/
def snapYTight : Nat → Nat :=
  snapshot (431 * 16384) (19 * 16384) (50 * 16384) (370 * 16384)
    (311 * 16384) (2 * 16384) (40 * 16384) (290 * 16384) 10

/-- A 640 x 250 mode at 24MHz, 4bpp. -/
def snapY24 : Nat → Nat :=
  snapshot (447 * 16384) (19 * 16384) (50 * 16384) (370 * 16384)
    (311 * 16384) (2 * 16384) (40 * 16384) (290 * 16384) 11

/-- A snapshot whose line period decodes to `2^19` and whose frame period decodes to
`2^13`: the H_CYC field is `2^18 - 1`, the V_CYC field `2^13 - 1`. -/
def snapWrapPeriod : Nat → Nat :=
  snapshot (262143 * 16384) (10 * 16384) (50 * 16384) (370 * 16384)
    (8191 * 16384) (2 * 16384) (20 * 16384) (500 * 16384) 15

/-- Timing registers that are all zero, with 8bpp selected in the control register
(a VIDC that has not been programmed yet). -/
def snapBlank8bpp : Nat → Nat :=
  snapshot 0 0 0 0 0 0 0 0 12

/-- A 640 x 480 mode at 24MHz, 1bpp, whose display starts late in the line:
H_DISP_START field 1020, so `hdsr = 2059`. -/
def snapLateStart : Nat → Nat :=
  snapshot (1400 * 16384) (47 * 16384) (1020 * 16384) (1340 * 16384)
    (524 * 16384) (1 * 16384) (33 * 16384) (513 * 16384) 3

/-- A 16 x 480 timing at 24MHz, 1bpp: fewer pixels than one 32-bit word. -/
def snapSliver : Nat → Nat :=
  snapshot (399 * 16384) (47 * 16384) (68 * 16384) (76 * 16384)
    (524 * 16384) (1 * 16384) (33 * 16384) (513 * 16384) 3

/-- A 1280 x 480 timing at 24MHz, 8bpp: 320 words per line. -/
def snapWide8bpp : Nat → Nat :=
  snapshot (799 * 16384) (47 * 16384) (68 * 16384) (708 * 16384)
    (524 * 16384) (1 * 16384) (33 * 16384) (513 * 16384) 15

/-- A 640 x 250 mode at 16MHz, 4bpp, line period 880: half the line period at
24MHz is 660 pixels, which passes the blanking test (640 + 20). -/
def snapYSkimpy : Nat → Nat :=
  snapshot (439 * 16384) (19 * 16384) (50 * 16384) (370 * 16384)
    (311 * 16384) (2 * 16384) (40 * 16384) (290 * 16384) 10

/-! ## `video.c`: the control word -/

/-- The word stored to `VIDO_REG_CTRL` (line 354):
`cx | (hires ? 0x80000000 : 0) | (bpp << 28)`. -/
def ctrl_word (l : ProbeVars) : Nat :=
  (l.cx ||| (if l.hires ≠ 0 then 0x80000000 else 0)) ||| shl32 l.bpp 28

/-! ## The sync register: `video_sync`, `video_wait_flybk`, `vidc_config_poll`

`VIDO_REG_SYNC` is volatile and the hardware changes it between reads.  A behaviour
of the register is the sequence `sync` of the values that successive reads return;
every function below takes the index of its first read. -/

/-- The `i`-th read of `vr[VIDO_REG_SYNC]`, a `uint32_t`. -/
def sync_read (sync : Nat → Nat) (i : Nat) : Nat := sync i % 4294967296

/-- The test `(s & 1) == ((s >> 1) & 1)` of `video_sync`: request equals ack. -/
def sync_acked (s : Nat) : Bool := (s &&& 1) == ((s >>> 1) &&& 1)

/-- The two ways `video_sync` ends: the "Synchronised" return inside the loop, or
the "Timeout" message after it. -/
inductive SyncOutcome where
  | synchronised
  | timeout
deriving DecidableEq, Repr

/-- What one call of `video_sync` did: its register stores in program order, the
number of reads made by the polling loop, the last value read and how it ended. -/
structure SyncRun where
  writes : List (Nat × Nat)
  polls : Nat
  last : Nat
  outcome : SyncOutcome
deriving DecidableEq, Repr

/-- The loop `do { s = vr[VIDO_REG_SYNC]; if (...) return; } while (--t > 0)` of
`video_sync`: `t` is the counter on entry to the body, `k` the number of polling
reads already made, `n` the index of the first polling read.  The result is the
number of polling reads, the last value read and the outcome. -/
def sync_poll (sync : Nat → Nat) (n : Nat) : Nat → Nat → Nat × Nat × SyncOutcome
  | 0, k =>
    if sync_acked (sync_read sync (n + k)) then
      (k + 1, sync_read sync (n + k), .synchronised)
    else (k + 1, sync_read sync (n + k), .timeout)
  | t + 1, k =>
    if sync_acked (sync_read sync (n + k)) then
      (k + 1, sync_read sync (n + k), .synchronised)
    else if t > 0 then sync_poll sync n t (k + 1)
    else (k + 1, sync_read sync (n + k), .timeout)

/-- The function `video_sync`, whose first read of the sync register is read `n`:
read, store the value with bit 0 toggled, then poll with `t = 10000000`. -/
def video_sync (sync : Nat → Nat) (n : Nat) : SyncRun :=
  let s := sync_read sync n
  let r := sync_poll sync (n + 1) 10000000 0
  { writes := [(VIDO_REG_SYNC, s ^^^ 1)],
    polls := r.1,
    last := r.2.1,
    outcome := r.2.2 }

/-- One of the two loops of `video_wait_flybk`: read the sync register until the
flyback bit `s & 0x10` is set (`level = true`) or clear (`level = false`).  The
source loops without bound; `fuel` bounds the reads of the model, and `none` means
the loop is still spinning when the fuel is spent.  The result is the index of the
next read. -/
def wait_flybk (sync : Nat → Nat) (level : Bool) : Nat → Nat → Option Nat
  | 0, _ => none
  | fuel + 1, i =>
    if decide (sync_read sync i &&& 0x10 ≠ 0) = level then some (i + 1)
    else wait_flybk sync level fuel (i + 1)

/-- The function `video_wait_flybk`: wait for a 1, then for a 0. -/
def video_wait_flybk (sync : Nat → Nat) (fuel i : Nat) : Option Nat :=
  (wait_flybk sync true fuel i).bind (wait_flybk sync false fuel)

/-- What a call did to the registers: the stores in program order, whether the
call returned (it did not when a wait loop is still spinning after the fuel is spent,
or when it stopped at the division by zero of `video.c` line 226), the index of the
next read of the sync register, how many times `video_probe_mode` was entered, and
how its `video_sync` ended. -/
structure Run where
  writes : List (Nat × Nat)
  finished : Bool
  next : Nat
  probes : Nat
  commit : Option SyncOutcome
deriving DecidableEq, Repr

/-- The function `video_probe_mode` with its register traffic: wait for flyback,
decode the snapshot `regs` (nine reads through `vidc_reg`), print the "New mode"
message, retime, store the ten output registers, then `video_sync`.  When the
frame-rate argument of the message divides by zero the call ends there: no store has
been made and it does not return. -/
def video_probe_mode (regs : Nat → Nat) (sync : Nat → Nat) (fuel i : Nat) : Run :=
  match video_wait_flybk sync fuel i with
  | none => { writes := [], finished := false, next := i, probes := 1, commit := none }
  | some j =>
    match probe_timing regs with
    | none => { writes := [], finished := false, next := j, probes := 1, commit := none }
    | some t =>
      let r := video_sync sync j
      { writes := output_writes t ++ r.writes,
        finished := true,
        next := j + 1 + r.polls,
        probes := 1,
        commit := some r.outcome }

/-- The test `status != ack` of `vidc_config_poll`, with `status = !!(s & 8)` and
`ack = !!(s & 4)`. -/
def timing_changed (s : Nat) : Bool :=
  decide (s &&& 8 ≠ 0) != decide (s &&& 4 ≠ 0)

/-- The function `vidc_config_poll` of `main.c`, whose read of the sync register
is read `i`; `flag_autoprobe_mode` is the global of that name. -/
def vidc_config_poll (flag_autoprobe_mode : Nat) (regs : Nat → Nat) (sync : Nat → Nat)
    (fuel i : Nat) : Run :=
  let s := sync_read sync i
  if timing_changed s then
    if flag_autoprobe_mode ≠ 0 then
      let r := video_probe_mode regs sync fuel (i + 1)
      { r with writes := (VIDO_REG_SYNC, s ^^^ 4) :: r.writes }
    else
      { writes := [(VIDO_REG_SYNC, s ^^^ 4)], finished := true, next := i + 1,
        probes := 0, commit := none }
  else
    { writes := [], finished := true, next := i + 1, probes := 0, commit := none }

/-- A behaviour of the sync register given by its first reads, the last value
repeating for ever. -/
def sync_of_list (vals : List Nat) (dflt : Nat) : Nat → Nat := fun i => vals.getD i dflt

/-! ## `video.c`: `video_setmode` and `video_set_cursor_x` -/

/-- The locals of `video_setmode` that reach the output registers. -/
structure ModeVars where
  xres : Nat
  xfp : Nat
  xwidth : Nat
  xbp : Nat
  yres : Nat
  yfp : Nat
  ywidth : Nat
  ybp : Nat
  wpl : Nat
  cx : Nat
  bpp : Nat
  hires : Nat
  dx : Nat
  dy : Nat
deriving DecidableEq, Repr

/-- The `switch (mode)` of `video_setmode` (lines 63-141): the locals each case
assigns (`hires`, `dx`, `dy` start at 0), or `none` for the `default` case, which
prints "Unknown mode!" and returns.  Subtractions and `mode - 25`, `mode - 18` are
the unsigned operations of the source. -/
def setmode_vars (mode : Int) : Option ModeVars :=
  if mode = 23 then
    some { xres := 1152, xfp := 40, xwidth := 20,
           xbp := sub32 (sub32 (sub32 1274 1152) 40) 20,
           yres := 896, yfp := 4, ywidth := 3,
           ybp := sub32 (sub32 (sub32 950 896) 4) 3,
           wpl := sub32 36 1, cx := 0x12c, hires := 1, bpp := 0, dx := 0, dy := 0 }
  else if mode = 25 ∨ mode = 26 ∨ mode = 27 ∨ mode = 28 then
    let bpp := (mode - 25).toNat
    some { xres := 640, xfp := 34, xwidth := 96,
           xbp := sub32 (sub32 (sub32 800 640) 34) 96,
           yres := 480, yfp := 11, ywidth := 1,
           ybp := sub32 (sub32 (sub32 525 480) 11) 1,
           cx := 137, bpp := bpp, wpl := sub32 (640 / (32 >>> bpp)) 1,
           hires := 0, dx := 0, dy := 0 }
  else if mode = 21 ∨ mode = 20 ∨ mode = 19 ∨ mode = 18 then
    let bpp := (mode - 18).toNat
    some { xres := 640, xfp := 87, xwidth := 56,
           xbp := sub32 (sub32 (sub32 896 640) 87) 56,
           yres := 512, yfp := 1, ywidth := 3,
           ybp := sub32 (sub32 (sub32 534 512) 1) 3,
           bpp := bpp, wpl := sub32 (640 / (32 >>> bpp)) 1,
           cx := sub32 (add32 (mul32 0x52 2) 5) 6,
           hires := 0, dx := 0, dy := 0 }
  else if mode = 0 ∨ mode = 8 ∨ mode = 12 ∨ mode = 15 then
    let bpp := if mode = 0 then 0 else if mode = 8 then 1 else if mode = 12 then 2 else 3
    some { xres := 640, xfp := 40, xwidth := 20,
           xbp := sub32 (sub32 (sub32 768 640) 40) 20,
           yres := 512, yfp := 40, ywidth := 5,
           ybp := sub32 (sub32 (sub32 624 512) 40) 5,
           wpl := sub32 (640 / (32 >>> bpp)) 1,
           cx := sub32 (add32 (mul32 0x6d 2) 5) 6,
           bpp := bpp, hires := 0, dx := 0, dy := 1 }
  else if mode = 4 ∨ mode = 1 ∨ mode = 9 ∨ mode = 13 ∨ mode = 0xcc then
    let bpp := if mode = 4 then 0 else if mode = 1 then 1 else if mode = 9 then 2
      else if mode = 13 then 3 else 4
    some { xres := 640, xfp := 40, xwidth := 20,
           xbp := sub32 (sub32 (sub32 768 640) 40) 20,
           yres := 512, yfp := 40, ywidth := 5,
           ybp := sub32 (sub32 (sub32 624 512) 40) 5,
           wpl := sub32 (320 / (32 >>> bpp)) 1,
           cx := 0x68,
           bpp := bpp, hires := 0, dx := 1, dy := 1 }
  else none

/-- The mode numbers that have a `case` label in `video_setmode`. -/
def accepted_modes : List Int :=
  [23, 25, 26, 27, 28, 21, 20, 19, 18, 0, 8, 12, 15, 4, 1, 9, 13, 0xcc]

/-- The ten stores of `video_setmode` (lines 145-154), in program order. -/
def setmode_writes (v : ModeVars) : List (Nat × Nat) :=
  [ (VIDO_REG_RES_X, v.xres ||| (if v.dx ≠ 0 then 0x80000000 else 0)),
    (VIDO_REG_HS_FP, v.xfp),
    (VIDO_REG_HS_WIDTH, v.xwidth),
    (VIDO_REG_HS_BP, v.xbp),
    (VIDO_REG_RES_Y, v.yres ||| (if v.dy ≠ 0 then 0x80000000 else 0)),
    (VIDO_REG_VS_FP, v.yfp),
    (VIDO_REG_VS_WIDTH, v.ywidth),
    (VIDO_REG_VS_BP, v.ybp),
    (VIDO_REG_WPLM1, v.wpl),
    (VIDO_REG_CTRL, (v.cx ||| (if v.hires ≠ 0 then 0x80000000 else 0)) ||| shl32 v.bpp 28) ]

/-- The function `video_setmode`, whose `video_sync` starts at read `n` of the sync
register: an unknown mode returns before any store; a known one stores the ten
registers and calls `video_sync`. -/
def video_setmode (mode : Int) (sync : Nat → Nat) (n : Nat) : Run :=
  match setmode_vars mode with
  | none => { writes := [], finished := true, next := n, probes := 0, commit := none }
  | some v =>
    let r := video_sync sync n
    { writes := setmode_writes v ++ r.writes,
      finished := true,
      next := n + 1 + r.polls,
      probes := 0,
      commit := some r.outcome }

/-- The word `video_set_cursor_x` stores: `(c & ~0x7ff) | (offset & 0x7ff)`, where
`c` is the control register as read and `~0x7ff` is `0xfffff800` as a `uint32_t`. -/
def cursor_x_word (c offset : Nat) : Nat := (c &&& 0xfffff800) ||| (offset &&& 0x7ff)

/-- The function `video_set_cursor_x` on the output register file `vr` (the control
register reads back what was last stored in it): the register file after the call,
and the stores made. -/
def video_set_cursor_x (vr : Nat → Nat) (offset : Nat) : (Nat → Nat) × List (Nat × Nat) :=
  let w := cursor_x_word (vr VIDO_REG_CTRL % 4294967296) offset
  (fun r => if r = VIDO_REG_CTRL then w else vr r, [(VIDO_REG_CTRL, w)])

/-- A 640 x 256 mode at 16MHz, 4bpp, whose line period 1026 is not a multiple of 4. -/
def snapOddLine : Nat → Nat :=
  snapshot (512 * 16384) (35 * 16384) (90 * 16384) (410 * 16384)
    (311 * 16384) (2 * 16384) (34 * 16384) (290 * 16384) 10

/-- The 640x480 snapshot with other VIDC registers (palette and border words, which
`video_probe_mode` does not read) holding different values. -/
def snapVgaOtherPalette : Nat → Nat := fun i =>
  if i < 17 then 0xfff else snapVga i

/-! ## `libcfns.c`: `tolower`, `atoh`, `strncmp`, `strlen`

A C string is the list of its character codes; the terminating NUL is what is read
at the end of the list and anywhere past it, and a `char *` into the string is an
index.  Character codes are bytes; a code of 128 or more is neither a digit nor a
letter whether `char` is signed or not, so the embedding keeps them as naturals. -/

/-- The character `*(s + i)`. -/
def char_at (s : List Nat) (i : Nat) : Nat := s.getD i 0

/-- The function `tolower`: `c | 0x20`. -/
def tolower (c : Nat) : Nat := c ||| 0x20

/-- The loop condition of `atoh`:
`digit != 0 && ((digit >= '0' && digit <= '9') || (lowerd >= 'a' && lowerd <= 'f'))`. -/
def atoh_cond (digit : Nat) : Bool :=
  decide (digit ≠ 0) &&
    ((decide (0x30 ≤ digit) && decide (digit ≤ 0x39)) ||
      (decide (0x61 ≤ tolower digit) && decide (tolower digit ≤ 0x66)))

/-- The value `v` of one digit in the loop of `atoh`:
`(lowerd >= 'a') ? (lowerd - 'a' + 10) : (lowerd - '0')`. -/
def atoh_digit (digit : Nat) : Nat :=
  if 0x61 ≤ tolower digit then tolower digit - 0x61 + 10 else tolower digit - 0x30

/-- The `while` loop of `atoh` over the characters from `*c` on: the state is
`(r, c, ok)`, one character is consumed per iteration and `r` is a 32-bit `int`. -/
def atoh_loop : List Nat → Nat → Nat → Nat → Nat × Nat × Nat
  | [], r, c, ok => (r, c, ok)
  | digit :: rest, r, c, ok =>
    if atoh_cond digit then
      atoh_loop rest (shl32 r 4 ||| atoh_digit digit) (c + 1) 1
    else
      (r, c, ok)

/-- What `atoh` leaves behind: its return value (as a 32-bit word), the contents of
`*end` and of `*success`. -/
structure Atoh where
  ret : Nat
  endp : Nat
  success : Nat
deriving DecidableEq, Repr

/-- The function `atoh(c, end, success)` on the string `s`; `endp` is what `*end`
holds before the call (`*end` is stored only `if (ok)`). -/
def atoh (s : List Nat) (c endp : Nat) : Atoh :=
  let l := atoh_loop (s.drop c) 0 c 0
  { ret := l.1, endp := if l.2.2 ≠ 0 then l.2.1 else endp, success := l.2.2 }

/-- The function `strncmp(a, b, len)` of `libcfns.c` on `s + ai` and `t + bi`: 0 when the
first `len` characters agree and none of them is NUL, else 1. -/
def strncmp (s : List Nat) (ai : Nat) (t : List Nat) (bi : Nat) : Nat → Nat
  | 0 => 0
  | len + 1 =>
    if char_at s ai ≠ char_at t bi ∨ char_at s ai = 0 ∨ char_at t bi = 0 then 1
    else strncmp s (ai + 1) t (bi + 1) len

/-- The loop of `strlen` over the characters from `*s` on. -/
def strlen_loop : List Nat → Nat → Nat
  | [], len => len
  | ch :: rest, len => if ch ≠ 0 then strlen_loop rest (len + 1) else len

/-- The function `strlen`. -/
def strlen (s : List Nat) : Nat := strlen_loop s 0

/-- The character codes of a string literal. -/
def cstr (s : String) : List Nat := s.toList.map Char.toNat

/-! ## `video.c`: `video_set_x_timing`, `video_set_y_timing` -/

/-- The stores of `video_set_x_timing`, in program order. -/
def video_set_x_timing (xres fp sw bp wpl : Nat) : List (Nat × Nat) :=
  [(VIDO_REG_RES_X, xres), (VIDO_REG_HS_FP, fp), (VIDO_REG_HS_WIDTH, sw),
    (VIDO_REG_HS_BP, bp), (VIDO_REG_WPLM1, wpl)]

/-- The stores of `video_set_y_timing`, in program order. -/
def video_set_y_timing (yres fp sw bp : Nat) : List (Nat × Nat) :=
  [(VIDO_REG_RES_Y, yres), (VIDO_REG_VS_FP, fp), (VIDO_REG_VS_WIDTH, sw),
    (VIDO_REG_VS_BP, bp)]

/-! ## `commands.c`: the command handlers and `cmd_parse` -/

/-- The loop of `skipwhitespace` over the characters from `*str` on. -/
def skip_loop : List Nat → Nat → Nat
  | [], str => str
  | ch :: rest, str =>
    if ch ≠ 0 ∧ (ch = 0x20 ∨ ch = 0x09) then skip_loop rest (str + 1) else str

/-- The function `skipwhitespace`: the index of the first character at or after `str`
that is not a blank or a tab. -/
def skipwhitespace (s : List Nat) (str : Nat) : Nat := skip_loop (s.drop str) str

/-- The register stores of `cmd_vtx(args)` on the line `s`.  Each failed parse jumps
to `fail:`, which stands after the call of `video_set_x_timing`. -/
def cmd_vtx (s : List Nat) (args : Nat) : List (Nat × Nat) :=
  let a0 := atoh s args args
  if a0.success = 0 then []
  else
    let a1 := atoh s (skipwhitespace s a0.endp) (skipwhitespace s a0.endp)
    if a1.success = 0 then []
    else
      let a2 := atoh s (skipwhitespace s a1.endp) (skipwhitespace s a1.endp)
      if a2.success = 0 then []
      else
        let a3 := atoh s (skipwhitespace s a2.endp) (skipwhitespace s a2.endp)
        if a3.success = 0 then []
        else
          let a4 := atoh s (skipwhitespace s a3.endp) (skipwhitespace s a3.endp)
          if a4.success = 0 then []
          else video_set_x_timing a0.ret a1.ret a2.ret a3.ret a4.ret

/-- The register stores of `cmd_vty(args)` on the line `s`.  Each failed parse jumps
to `fail:`, which stands before the call of `video_set_y_timing`; `fp0`, `width0` and
`bp0` are what the locals `fp`, `width` and `bp` hold before they are assigned (they
have no initialiser; `yres` is assigned by the first statement). -/
def cmd_vty (s : List Nat) (args : Nat) (fp0 width0 bp0 : Nat) : List (Nat × Nat) :=
  let a0 := atoh s args args
  if a0.success = 0 then video_set_y_timing a0.ret fp0 width0 bp0
  else
    let a1 := atoh s (skipwhitespace s a0.endp) (skipwhitespace s a0.endp)
    if a1.success = 0 then video_set_y_timing a0.ret a1.ret width0 bp0
    else
      let a2 := atoh s (skipwhitespace s a1.endp) (skipwhitespace s a1.endp)
      if a2.success = 0 then video_set_y_timing a0.ret a1.ret a2.ret bp0
      else
        let a3 := atoh s (skipwhitespace s a2.endp) (skipwhitespace s a2.endp)
        if a3.success = 0 then video_set_y_timing a0.ret a1.ret a2.ret a3.ret
        else video_set_y_timing a0.ret a1.ret a2.ret a3.ret

/-- The conversion of the `unsigned int mode` of `cmd_setmode` to the `int` parameter
of `video_setmode`. -/
def to_int32 (w : Nat) : Int :=
  if w % 4294967296 < 2147483648 then (w % 4294967296 : Nat)
  else ((w % 4294967296 : Nat) : Int) - 4294967296

/-- The handler `cmd_setmode(args)` on the line `s`: the argument of its call of
`video_setmode`, or `none` when it returns after "Syntax error in arg" without the
call. -/
def cmd_setmode (s : List Nat) (args : Nat) : Option Int :=
  let a := atoh s args args
  if a.success = 0 then none else some (to_int32 a.ret)

/-- The handlers of the `commands` table. -/
inductive Handler where
  | cmd_help | cmd_rb | cmd_rw | cmd_wb | cmd_ww | cmd_vtx | cmd_vty | cmd_vt
  | cmd_vidc_dump | cmd_setmode | cmd_cursorctrl | cmd_sync | cmd_autoprobe | cmd_dump
deriving DecidableEq, Repr

/-- The table `commands[]`: format string and handler, in table order. -/
def commands : List (List Nat × Handler) :=
  [ (cstr "help", .cmd_help), (cstr "rb", .cmd_rb), (cstr "rw", .cmd_rw),
    (cstr "wb", .cmd_wb), (cstr "ww", .cmd_ww), (cstr "vtx", .cmd_vtx),
    (cstr "vty", .cmd_vty), (cstr "vt", .cmd_vt), (cstr "v", .cmd_vidc_dump),
    (cstr "m", .cmd_setmode), (cstr "cc", .cmd_cursorctrl), (cstr "sync", .cmd_sync),
    (cstr "a", .cmd_autoprobe), (cstr "dm", .cmd_dump) ]

/-- The `for` loop of `cmd_parse` over the rest of the table: the first entry whose
format is a prefix of the line at `cmd_start` gives the handler and the pointer it is
called with. -/
def cmd_lookup (s : List Nat) (cmd_start : Nat) : List (List Nat × Handler) →
    Option (Handler × Nat)
  | [] => none
  | (format, handler) :: rest =>
    if strncmp s cmd_start format 0 (strlen format) = 0 then
      some (handler, skipwhitespace s (cmd_start + strlen format))
    else cmd_lookup s cmd_start rest

/-- The function `cmd_parse(linebuffer, len)`: the handler it calls and the `args`
pointer it passes, or `none` for a blank line or an unknown command. -/
def cmd_parse (linebuffer : List Nat) (len : Nat) : Option (Handler × Nat) :=
  let cmd_start := skipwhitespace linebuffer 0
  if cmd_start = len then none
  else cmd_lookup linebuffer cmd_start commands

/-! ## `main.c`: `serial_poll` -/

/-- The static variables of `serial_poll`: `buf` (100 bytes), `len`, `line_done`. -/
structure LineEditor where
  buf : List Nat
  len : Nat
  line_done : Nat
deriving DecidableEq, Repr

/-- What one call of `serial_poll` did: the variables afterwards, the indices of `buf`
it stored to (in program order) and the arguments of its call of `cmd_parse`, if it
made one.  The characters echoed to the UART are left out. -/
structure PollStep where
  state : LineEditor
  stores : List Nat
  dispatched : Option (List Nat × Nat)
deriving DecidableEq, Repr

/-- The variables at reset: `len = 0`, `line_done = 0`, `buf` zeroed. -/
def serial_start : LineEditor :=
  { buf := List.replicate 100 0, len := 0, line_done := 0 }

/-- The `switch (c)` of `serial_poll` on a received character: the variables afterwards
and the indices of `buf` stored to. -/
def serial_switch (st : LineEditor) (c : Nat) : LineEditor × List Nat :=
  if c = 13 ∨ c = 10 then
    ({ st with buf := st.buf.set st.len 0, line_done := 1 }, [st.len])
  else if c = 8 then
    (if st.len > 0 then { st with len := st.len - 1 } else st, [])
  else if st.len < 100 - 1 then
    ({ st with buf := st.buf.set st.len c, len := st.len + 1 }, [st.len])
  else
    (st, [])

/-- The function `serial_poll`; `rx` is the character `uart_testgetch` returns, `none`
when it reports that none is ready.  `cmd_parse` receives `buf` and the value of
`len`, and the variables are reset after it returns. -/
def serial_poll (st : LineEditor) (rx : Option Nat) : PollStep :=
  match rx with
  | none => { state := st, stores := [], dispatched := none }
  | some c =>
    let sw := serial_switch st c
    if sw.1.line_done ≠ 0 then
      { state := { sw.1 with line_done := 0, len := 0 }, stores := sw.2,
        dispatched := some (sw.1.buf, sw.1.len) }
    else
      { state := sw.1, stores := sw.2, dispatched := none }

/-- The calls of `serial_poll` made by the main loop for a sequence of UART reads. -/
def serial_run : LineEditor → List (Option Nat) → List PollStep
  | _, [] => []
  | st, rx :: rest => serial_poll st rx :: serial_run (serial_poll st rx).state rest

/-- The handler `cmd_autoprobe` on the global: `flag_autoprobe_mode = !flag_autoprobe_mode`
(a `uint8_t`, initialised to 1 in `main.c`). -/
def cmd_autoprobe (flag_autoprobe_mode : Nat) : Nat :=
  if flag_autoprobe_mode ≠ 0 then 0 else 1

/-! ## Reference notions for the hex parser

These three definitions are not taken from the code: they say what a hex digit and
the base-16 value of a digit string are, for comparison with `atoh`. -/

/-- A hex digit in the sense of the specification: `0-9`, `a-f` or `A-F`. -/
def spec_is_hex_digit (c : Nat) : Prop :=
  (0x30 ≤ c ∧ c ≤ 0x39) ∨ (0x61 ≤ c ∧ c ≤ 0x66) ∨ (0x41 ≤ c ∧ c ≤ 0x46)

instance (c : Nat) : Decidable (spec_is_hex_digit c) := by
  unfold spec_is_hex_digit
  infer_instance

/-- The value of one hex digit in the sense of the specification. -/
def spec_hex_digit_value (c : Nat) : Nat :=
  if c ≤ 0x39 then c - 0x30 else if c ≤ 0x46 then c - 0x41 + 10 else c - 0x61 + 10

/-- The base-16 value of a digit string, most significant digit first. -/
def spec_hex_value (ds : List Nat) : Nat :=
  ds.foldl (fun acc d => 16 * acc + spec_hex_digit_value d) 0

/-! ## Snapshots on which the frame-rate division of `video_probe_mode` divides by zero

In each of them the H_CYC field is `2^18 - 1` and the V_CYC field `2^13 - 1`, so that
`hcr = 2^19`, `vcr = 2^13` and the 32-bit product `hcr * vcr` is 0. -/

/-- A 640 x 480 snapshot with `hcr = 2^19` and `vcr = 2^13 + 1`: the product wraps,
to `2^19`, and the divisor is not zero. -/
def snapWrapNonZero : Nat → Nat :=
  snapshot (262143 * 16384) (10 * 16384) (50 * 16384) (370 * 16384)
    (8192 * 16384) (2 * 16384) (20 * 16384) (500 * 16384) 15

/-! ## The output register file -/

/-- The output registers `vr[]` after a sequence of stores `vr[r] = v`, made in list
order on the register file `vr`. -/
def apply_writes (vr : Nat → Nat) : List (Nat × Nat) → Nat → Nat
  | [] => vr
  | w :: rest => apply_writes (fun r => if r = w.1 then w.2 else vr r) rest

/-! ## The register reads of a probe -/

/-- The source registers `video_probe_mode` reads through `vidc_reg` in its decode
(lines 193-203), in program order. -/
def probe_source_regs : List Nat :=
  [VIDC_CONTROL, VIDC_H_CYC, VIDC_H_SYNC, VIDC_H_DISP_START, VIDC_H_DISP_END, VIDC_V_CYC,
    VIDC_V_SYNC, VIDC_V_DISP_START, VIDC_V_DISP_END]

/-- The register reads of a call of `video_probe_mode` that got past its flyback wait
and whose first read of the sync register is read `i`: its reads of the sync register
(the reads `i` to `next - 1`) and the reads of the decode. -/
def probe_reads (i : Nat) (r : Run) : Nat := r.next - i + probe_source_regs.length

/-! ## Facts about the decoder -/

theorem vidc_reg_lt (regs : Nat → Nat) (r : Nat) : vidc_reg regs r < 4294967296 := by
  unfold vidc_reg
  split
  · exact Nat.mod_lt _ (by norm_num)
  · norm_num

theorem shr14_eq (a : Nat) : a >>> 14 = a / 16384 := by
  rw [Nat.shiftRight_eq_div_pow]

theorem shr2_eq (a : Nat) : a >>> 2 = a / 4 := by
  rw [Nat.shiftRight_eq_div_pow]

theorem and3_eq (a : Nat) : a &&& 3 = a % 4 := by
  have h := Nat.and_pow_two_sub_one_eq_mod a 2
  simpa using h

theorem offset_le (b : Nat) : vidc_bpp_to_hdsr_offset b ≤ 19 := by
  unfold vidc_bpp_to_hdsr_offset
  split <;> omega

theorem add32_lt (a b : Nat) : add32 a b < 4294967296 :=
  Nat.mod_lt _ (by norm_num)

theorem sub32_lt (a b : Nat) : sub32 a b < 4294967296 :=
  Nat.mod_lt _ (by norm_num)

theorem mul32_lt (a b : Nat) : mul32 a b < 4294967296 :=
  Nat.mod_lt _ (by norm_num)

/-- The 32-bit operators are the ring operations of the integers modulo `2^32`. -/
theorem add32_cast (a b : Nat) :
    ((add32 a b : Nat) : ZMod 4294967296) = (a : ZMod 4294967296) + (b : ZMod 4294967296) := by
  unfold add32
  rw [ZMod.natCast_mod, Nat.cast_add]

theorem sub32_cast (a b : Nat) :
    ((sub32 a b : Nat) : ZMod 4294967296) = (a : ZMod 4294967296) - (b : ZMod 4294967296) := by
  have hb : b % 4294967296 ≤ a % 4294967296 + 4294967296 := by
    have := Nat.mod_lt b (show 0 < 4294967296 by norm_num)
    omega
  unfold sub32
  rw [ZMod.natCast_mod, Nat.cast_sub hb, Nat.cast_add, ZMod.natCast_mod, ZMod.natCast_mod,
    ZMod.natCast_self, add_zero]

theorem eq_of_cast32 (a b : Nat) (ha : a < 4294967296) (hb : b < 4294967296)
    (h : (a : ZMod 4294967296) = (b : ZMod 4294967296)) : a = b := by
  have h2 := (ZMod.natCast_eq_natCast_iff' a b 4294967296).mp h
  rwa [Nat.mod_eq_of_lt ha, Nat.mod_eq_of_lt hb] at h2

/-- The four parts of a decoded line (or frame) add up to its period. -/
theorem partition32 (c e s w : Nat) (hc : c < 4294967296) :
    add32 (add32 (add32 (sub32 e s) (sub32 c e)) w) (sub32 s w) = c := by
  apply eq_of_cast32 _ _ (add32_lt _ _) hc
  rw [add32_cast, add32_cast, add32_cast, sub32_cast, sub32_cast, sub32_cast]
  ring

/-- The synthesised porches, sync width and `xres` add up to the new period. -/
theorem porch_sum32 (t x f w : Nat) (ht : t < 4294967296) :
    add32 (add32 (add32 f w) (sub32 (sub32 (sub32 t x) f) w)) x = t := by
  apply eq_of_cast32 _ _ (add32_lt _ _) ht
  rw [add32_cast, add32_cast, add32_cast, sub32_cast, sub32_cast, sub32_cast]
  ring

theorem hfield_exact (a o : Nat) (ha : a < 4294967296) (ho : o ≤ 19) :
    add32 (mul32 (a >>> 14) 2) o = (a >>> 14) * 2 + o ∧ (a >>> 14) * 2 + o < 1048576 := by
  simp only [add32, mul32, shr14_eq]
  omega

theorem vfield_exact (a : Nat) (ha : a < 4294967296) :
    add32 (a >>> 14) 1 = (a >>> 14) + 1 ∧ (a >>> 14) + 1 ≤ 262144 := by
  simp only [add32, shr14_eq]
  omega

theorem decode_hcr (regs : Nat → Nat) :
    (decode regs).hcr = (vidc_reg regs VIDC_H_CYC >>> 14) * 2 + 2 :=
  (hfield_exact _ 2 (vidc_reg_lt regs _) (by norm_num)).1

theorem decode_hsw (regs : Nat → Nat) :
    (decode regs).hsw = (vidc_reg regs VIDC_H_SYNC >>> 14) * 2 + 2 :=
  (hfield_exact _ 2 (vidc_reg_lt regs _) (by norm_num)).1

theorem decode_hdsr (regs : Nat → Nat) :
    (decode regs).hdsr = (vidc_reg regs VIDC_H_DISP_START >>> 14) * 2
      + vidc_bpp_to_hdsr_offset (decode regs).bpp :=
  (hfield_exact _ _ (vidc_reg_lt regs _) (offset_le _)).1

theorem decode_hder (regs : Nat → Nat) :
    (decode regs).hder = (vidc_reg regs VIDC_H_DISP_END >>> 14) * 2
      + vidc_bpp_to_hdsr_offset (decode regs).bpp :=
  (hfield_exact _ _ (vidc_reg_lt regs _) (offset_le _)).1

theorem decode_vcr (regs : Nat → Nat) :
    (decode regs).vcr = (vidc_reg regs VIDC_V_CYC >>> 14) + 1 :=
  (vfield_exact _ (vidc_reg_lt regs _)).1

theorem decode_vsw (regs : Nat → Nat) :
    (decode regs).vsw = (vidc_reg regs VIDC_V_SYNC >>> 14) + 1 :=
  (vfield_exact _ (vidc_reg_lt regs _)).1

theorem decode_vdsr (regs : Nat → Nat) :
    (decode regs).vdsr = (vidc_reg regs VIDC_V_DISP_START >>> 14) + 1 :=
  (vfield_exact _ (vidc_reg_lt regs _)).1

theorem decode_vder (regs : Nat → Nat) :
    (decode regs).vder = (vidc_reg regs VIDC_V_DISP_END >>> 14) + 1 :=
  (vfield_exact _ (vidc_reg_lt regs _)).1

/-- The decoded line period is even, at least 2 and at most `2^19`. -/
theorem decode_hcr_range (regs : Nat → Nat) :
    2 ≤ (decode regs).hcr ∧ (decode regs).hcr ≤ 524288 ∧ (decode regs).hcr % 2 = 0 := by
  have h := vidc_reg_lt regs VIDC_H_CYC
  rw [decode_hcr, shr14_eq]
  omega

theorem decode_vcr_lt (regs : Nat → Nat) : (decode regs).vcr < 4294967296 := by
  have h := (vfield_exact _ (vidc_reg_lt regs VIDC_V_CYC)).2
  rw [decode_vcr]
  omega

theorem decode_vsw_le (regs : Nat → Nat) : (decode regs).vsw ≤ 262144 := by
  rw [decode_vsw]
  exact (vfield_exact _ (vidc_reg_lt regs VIDC_V_SYNC)).2

/-- A decoded `xres` is a difference of two values below `2^20`, so it is either
small or, when the subtraction wrapped, close to `2^32`. -/
theorem decode_xres_range (regs : Nat → Nat) :
    (decode regs).xres < 1048576 ∨ 4293918720 < (decode regs).xres := by
  have h1 := (hfield_exact _ _ (vidc_reg_lt regs VIDC_H_DISP_START)
    (offset_le (decode regs).bpp)).2
  have h2 := (hfield_exact _ _ (vidc_reg_lt regs VIDC_H_DISP_END)
    (offset_le (decode regs).bpp)).2
  rw [← decode_hdsr] at h1
  rw [← decode_hder] at h2
  show sub32 (decode regs).hder (decode regs).hdsr < 1048576 ∨
    4293918720 < sub32 (decode regs).hder (decode regs).hdsr
  simp only [sub32]
  omega

theorem decode_yres_lt (regs : Nat → Nat) : (decode regs).yres < 4294967296 := by
  show sub32 (decode regs).vder (decode regs).vdsr < 4294967296
  simp only [sub32]
  omega

/-- The pixel-rate index `cr & 3` stays inside the table: the decoded rate is one of
its four entries, so the divisions by `pix_rate` never divide by zero. -/
theorem decode_pix_rate (regs : Nat → Nat) :
    (decode regs).pix_rate = 8 ∨ (decode regs).pix_rate = 12 ∨
      (decode regs).pix_rate = 16 ∨ (decode regs).pix_rate = 24 := by
  show pix_rates.getD (vidc_reg regs VIDC_CONTROL &&& 3) 0 = 8 ∨
    pix_rates.getD (vidc_reg regs VIDC_CONTROL &&& 3) 0 = 12 ∨
    pix_rates.getD (vidc_reg regs VIDC_CONTROL &&& 3) 0 = 16 ∨
    pix_rates.getD (vidc_reg regs VIDC_CONTROL &&& 3) 0 = 24
  rw [and3_eq]
  have h : vidc_reg regs VIDC_CONTROL % 4 < 4 := Nat.mod_lt _ (by norm_num)
  generalize vidc_reg regs VIDC_CONTROL % 4 = i at h
  interval_cases i <;> simp [pix_rates]

/-- The forms of `classify`, rule by rule. -/
theorem guess_hires_iff (x y bpp pclk : Nat) :
    video_guess_hires x y bpp pclk = true ↔ pclk = 24 ∧ bpp = 2 ∧ x < y / 2 := by
  simp [video_guess_hires, and_assoc]

theorem classify_hires_iff (l : ProbeVars) :
    classify l = .HiresMono ↔ l.pix_rate = 24 ∧ l.bpp = 2 ∧ l.xres < l.yres / 2 := by
  rw [← guess_hires_iff]
  unfold classify
  split_ifs <;> simp_all

theorem classify_direct_iff (l : ProbeVars) :
    classify l = .DirectVga ↔
      ¬ (l.pix_rate = 24 ∧ l.bpp = 2 ∧ l.xres < l.yres / 2) ∧ 640 ≤ l.xres ∧ 480 ≤ l.yres := by
  rw [← guess_hires_iff]
  unfold classify
  split_ifs <;> simp_all

theorem classify_ydouble_iff (l : ProbeVars) :
    classify l = .YDoubled ↔
      ¬ (l.pix_rate = 24 ∧ l.bpp = 2 ∧ l.xres < l.yres / 2) ∧ 640 ≤ l.xres ∧ l.yres < 480 := by
  rw [← guess_hires_iff]
  unfold classify
  split_ifs <;> simp_all

theorem classify_xydouble_iff (l : ProbeVars) :
    classify l = .XYDoubled ↔
      ¬ (l.pix_rate = 24 ∧ l.bpp = 2 ∧ l.xres < l.yres / 2) ∧ l.xres < 640 ∧ l.yres < 480 := by
  rw [← guess_hires_iff]
  unfold classify
  split_ifs <;> simp_all

theorem classify_unsupported_iff (l : ProbeVars) :
    classify l = .Unsupported ↔
      ¬ (l.pix_rate = 24 ∧ l.bpp = 2 ∧ l.xres < l.yres / 2) ∧ l.xres < 640 ∧ 480 ≤ l.yres := by
  rw [← guess_hires_iff]
  unfold classify
  split_ifs <;> simp_all

/-- With no flag set, the ten stores carry the raw values. -/
theorem output_writes_plain (l : ProbeVars) (hx : l.dx = 0) (hy : l.dy = 0) (hh : l.hires = 0) :
    output_writes l =
      [(0, l.xres), (1, l.xfp), (2, l.xsw), (3, l.xbp), (4, l.yres), (5, l.yfp),
       (6, l.ysw), (7, l.ybp), (9, l.wpl), (10, l.cx ||| shl32 l.bpp 28)] := by
  simp [output_writes, hx, hy, hh, VIDO_REG_RES_X, VIDO_REG_HS_FP, VIDO_REG_HS_WIDTH,
    VIDO_REG_HS_BP, VIDO_REG_RES_Y, VIDO_REG_VS_FP, VIDO_REG_VS_WIDTH, VIDO_REG_VS_BP,
    VIDO_REG_WPLM1, VIDO_REG_CTRL]

/-! ## The retiming chain, branch by branch -/

theorem retime_hiresMono (l : ProbeVars) (h : classify l = .HiresMono) :
    retime l = retime_hires l := by
  simp [retime, h]

theorem retime_directVga (l : ProbeVars) (h : classify l = .DirectVga) :
    retime l = (l, []) := by
  simp [retime, h]

theorem retime_yDoubled (l : ProbeVars) (h : classify l = .YDoubled) :
    retime l = retime_ydouble l := by
  simp [retime, h]

theorem retime_xyDoubled (l : ProbeVars) (h : classify l = .XYDoubled) :
    retime l = retime_xydouble l := by
  simp [retime, h]

theorem retime_unsupported (l : ProbeVars) (h : classify l = .Unsupported) :
    retime l = (l, []) := by
  simp [retime, h]

/-! ## The division of line 226 -/

/-- With a non-zero 32-bit divisor `hcr * vcr` the call gets past the division of
line 226 and holds, after the chain, the locals `retime` gives. -/
theorem probe_timing_some (regs : Nat → Nat)
    (hq : mul32 (decode regs).hcr (decode regs).vcr ≠ 0) :
    probe_timing regs = some (retime (decode regs)).1 := by
  simp [probe_timing, frame_rate, hq]

/-- With a zero divisor the chain is not reached. -/
theorem probe_timing_none (regs : Nat → Nat)
    (hq : mul32 (decode regs).hcr (decode regs).vcr = 0) :
    probe_timing regs = none := by
  simp [probe_timing, frame_rate, hq]

theorem probe_writes_some (regs : Nat → Nat)
    (hq : mul32 (decode regs).hcr (decode regs).vcr ≠ 0) :
    probe_writes regs = output_writes (retime (decode regs)).1 := by
  simp [probe_writes, probe_timing_some regs hq]

theorem probe_writes_none (regs : Nat → Nat)
    (hq : mul32 (decode regs).hcr (decode regs).vcr = 0) :
    probe_writes regs = [] := by
  simp [probe_writes, probe_timing_none regs hq]

theorem probe_diags_some (regs : Nat → Nat)
    (hq : mul32 (decode regs).hcr (decode regs).vcr ≠ 0) :
    probe_diags regs = (retime (decode regs)).2 := by
  simp [probe_diags, frame_rate, hq]

theorem probe_diags_none (regs : Nat → Nat)
    (hq : mul32 (decode regs).hcr (decode regs).vcr = 0) :
    probe_diags regs = [] := by
  simp [probe_diags, frame_rate, hq]

/-- A call of `video_probe_mode` on a snapshot with a zero divisor makes no store and
does not return, whatever the sync register does. -/
theorem video_probe_mode_faults (regs sync : Nat → Nat) (fuel i : Nat)
    (hq : mul32 (decode regs).hcr (decode regs).vcr = 0) :
    (video_probe_mode regs sync fuel i).finished = false ∧
    (video_probe_mode regs sync fuel i).writes = [] ∧
    (video_probe_mode regs sync fuel i).commit = none := by
  unfold video_probe_mode
  rw [probe_timing_none regs hq]
  cases video_wait_flybk sync fuel i <;> exact ⟨rfl, rfl, rfl⟩

/-- Pass-through: when the chain leaves the locals alone, the ten stores carry the
decoded values and no flag. -/
theorem passthrough_writes (regs : Nat → Nat) (h : (retime (decode regs)).1 = decode regs)
    (hq : mul32 (decode regs).hcr (decode regs).vcr ≠ 0) :
    probe_writes regs =
      [(0, (decode regs).xres), (1, (decode regs).xfp), (2, (decode regs).xsw),
       (3, (decode regs).xbp), (4, (decode regs).yres), (5, (decode regs).yfp),
       (6, (decode regs).ysw), (7, (decode regs).ybp), (9, (decode regs).wpl),
       (10, (decode regs).cx ||| shl32 (decode regs).bpp 28)] := by
  rw [probe_writes_some regs hq, h]
  exact output_writes_plain (decode regs) rfl rfl rfl

/-! ## The claims -/

/-- C1 (amended): for every source register snapshot whose decoded `xres >= 640` and
`yres >= 480`, which the hires guess does not claim and whose 32-bit frame-rate
divisor `hcr * vcr` is not zero (so that the call gets past the division of line 226),
`video_probe_mode` leaves every local as decoded (so the eight geometry values are
unchanged and `dx`, `dy`, `hires` stay 0), prints nothing more, and stores exactly the
decoded values, with no flag bit OR-ed in, to the output registers. -/
theorem direct_vga_identity (regs : Nat → Nat)
    (hx : 640 ≤ (decode regs).xres) (hy : 480 ≤ (decode regs).yres)
    (hn : classify (decode regs) ≠ .HiresMono)
    (hq : mul32 (decode regs).hcr (decode regs).vcr ≠ 0) :
    classify (decode regs) = .DirectVga ∧
    probe_timing regs = some (decode regs) ∧
    (decode regs).dx = 0 ∧ (decode regs).dy = 0 ∧
    (decode regs).hires = 0 ∧
    probe_diags regs = [] ∧
    probe_writes regs =
      [(0, (decode regs).xres), (1, (decode regs).xfp), (2, (decode regs).xsw),
       (3, (decode regs).xbp), (4, (decode regs).yres), (5, (decode regs).yfp),
       (6, (decode regs).ysw), (7, (decode regs).ybp), (9, (decode regs).wpl),
       (10, (decode regs).cx ||| shl32 (decode regs).bpp 28)] := by
  have hc : classify (decode regs) = .DirectVga := by
    rw [classify_direct_iff]
    exact ⟨fun h => hn ((classify_hires_iff _).mpr h), hx, hy⟩
  have ht : (retime (decode regs)).1 = decode regs := by
    simp [retime_directVga _ hc]
  refine ⟨hc, ?_, rfl, rfl, rfl, ?_, passthrough_writes regs ht hq⟩
  · rw [probe_timing_some regs hq, ht]
  · rw [probe_diags_some regs hq]
    simp [retime_directVga _ hc]

/-- C1, witness: the 640x480 mode at 24MHz, 8bpp. -/
theorem direct_vga_identity_witness :
    probe_timing snapVga = some (decode snapVga) ∧ (decode snapVga).xres = 640 ∧
    (decode snapVga).yres = 480 ∧
    mul32 (decode snapVga).hcr (decode snapVga).vcr = 420000 ∧
    probe_writes snapVga =
      [(0, 640), (1, 19), (2, 96), (3, 45), (4, 480), (5, 11), (6, 2), (7, 32),
       (9, 159), (10, 805306503)] :=
  ⟨(direct_vga_identity snapVga (by decide) (by decide) (by decide) (by decide)).2.1,
   by decide, by decide, by decide, by decide⟩

/-- C1, counterexample: a snapshot decoding to 640 x 1282 at 24MHz, 4bpp has
`xres >= 640` and `yres >= 480`, yet the hires rule, tested first, claims it
(640 < 1282/2): `xres` is written as 2560, the horizontal porches are resynthesised
and the hires flag is set.  Its frame-rate divisor is not zero. -/
theorem direct_vga_identity_counterexample :
    (decode snapTallHires).xres = 640 ∧ (decode snapTallHires).yres = 1282 ∧
    (decode snapTallHires).xfp = 153 ∧ (decode snapTallHires).xsw = 22 ∧
    (decode snapTallHires).xbp = 85 ∧
    mul32 (decode snapTallHires).hcr (decode snapTallHires).vcr ≠ 0 ∧
    (probe_timing snapTallHires).map ProbeVars.xres = some 2560 ∧
    (probe_timing snapTallHires).map ProbeVars.xfp = some 146 ∧
    (probe_timing snapTallHires).map ProbeVars.xsw = some 73 ∧
    (probe_timing snapTallHires).map ProbeVars.xbp = some 146 ∧
    (probe_timing snapTallHires).map ProbeVars.hires = some 1 ∧
    (probe_writes snapTallHires).lookup VIDO_REG_RES_X = some 2560 := by
  decide

/-- The hires rule of the chain: `video_guess_hires` holds, and the chain takes its
first branch, exactly when `pix_rate == 24 && bpp == 2 && xres < yres/2`, whatever the
other rules would say.  A call that gets past the division of line 226 then, and only
then, sets the hires flag and prints the "Guessed hires" message. -/
theorem hires_rule_first (regs : Nat → Nat) :
    (video_guess_hires (decode regs).xres (decode regs).yres (decode regs).bpp
        (decode regs).pix_rate = true ↔
      (decode regs).pix_rate = 24 ∧ (decode regs).bpp = 2 ∧
        (decode regs).xres < (decode regs).yres / 2) ∧
    (classify (decode regs) = .HiresMono ↔
      (decode regs).pix_rate = 24 ∧ (decode regs).bpp = 2 ∧
        (decode regs).xres < (decode regs).yres / 2) ∧
    ((retime (decode regs)).1.hires = 1 ↔
      (decode regs).pix_rate = 24 ∧ (decode regs).bpp = 2 ∧
        (decode regs).xres < (decode regs).yres / 2) ∧
    (Diag.guessedHires ∈ (retime (decode regs)).2 ↔
      (decode regs).pix_rate = 24 ∧ (decode regs).bpp = 2 ∧
        (decode regs).xres < (decode regs).yres / 2) ∧
    (mul32 (decode regs).hcr (decode regs).vcr ≠ 0 →
      probe_timing regs = some (retime (decode regs)).1 ∧
      probe_diags regs = (retime (decode regs)).2) := by
  refine ⟨guess_hires_iff _ _ _ _, classify_hires_iff _, ?_, ?_,
    fun hq => ⟨probe_timing_some regs hq, probe_diags_some regs hq⟩⟩
  · rw [← classify_hires_iff]
    constructor
    · intro h
      by_contra hc
      have hk : (retime (decode regs)).1.hires = 0 := by
        unfold retime
        cases hcl : classify (decode regs) with
        | HiresMono => exact absurd hcl hc
        | DirectVga => rfl
        | Unsupported => rfl
        | YDoubled =>
          show (retime_ydouble (decode regs)).1.hires = 0
          unfold retime_ydouble
          split <;> rfl
        | XYDoubled =>
          show (retime_xydouble (decode regs)).1.hires = 0
          unfold retime_xydouble
          split <;> rfl
      omega
    · intro h
      simp [retime_hiresMono _ h, retime_hires]
  · rw [← classify_hires_iff]
    constructor
    · intro h
      by_contra hc
      revert h
      unfold retime
      cases hcl : classify (decode regs) with
      | HiresMono => exact absurd hcl hc
      | DirectVga => simp
      | Unsupported => simp
      | YDoubled =>
        show Diag.guessedHires ∈ (retime_ydouble (decode regs)).2 → False
        unfold retime_ydouble
        split <;> simp
      | XYDoubled =>
        show Diag.guessedHires ∈ (retime_xydouble (decode regs)).2 → False
        unfold retime_xydouble
        split <;> simp
    · intro h
      simp only [retime_hiresMono _ h, retime_hires]
      split <;> simp

/-- Pass-through at 24MHz: for every snapshot that the hires guess does not claim,
with decoded `yres < 480` and `pix_rate == 24` (the Y-doubling and the XY-doubling
shape alike) and a non-zero divisor at line 226, `video_probe_mode` passes the decoded
timing through: every local stays as decoded (the eight geometry values, `wpl`, and
`dx = dy = hires = 0`) and the ten stores carry the decoded values. -/
theorem clock24_passthrough (regs : Nat → Nat)
    (hn : classify (decode regs) ≠ .HiresMono)
    (hy : (decode regs).yres < 480) (hp : (decode regs).pix_rate = 24)
    (hq : mul32 (decode regs).hcr (decode regs).vcr ≠ 0) :
    (classify (decode regs) = .YDoubled ∨ classify (decode regs) = .XYDoubled) ∧
    probe_timing regs = some (decode regs) ∧
    (decode regs).dx = 0 ∧ (decode regs).dy = 0 ∧
    (decode regs).hires = 0 ∧
    probe_writes regs =
      [(0, (decode regs).xres), (1, (decode regs).xfp), (2, (decode regs).xsw),
       (3, (decode regs).xbp), (4, (decode regs).yres), (5, (decode regs).yfp),
       (6, (decode regs).ysw), (7, (decode regs).ybp), (9, (decode regs).wpl),
       (10, (decode regs).cx ||| shl32 (decode regs).bpp 28)] := by
  have hh : ¬ ((decode regs).pix_rate = 24 ∧ (decode regs).bpp = 2 ∧
      (decode regs).xres < (decode regs).yres / 2) :=
    fun h => hn ((classify_hires_iff _).mpr h)
  have hcl : classify (decode regs) = .YDoubled ∨ classify (decode regs) = .XYDoubled := by
    rcases Nat.lt_or_ge (decode regs).xres 640 with hx | hx
    · exact Or.inr ((classify_xydouble_iff _).mpr ⟨hh, hx, hy⟩)
    · exact Or.inl ((classify_ydouble_iff _).mpr ⟨hh, hx, hy⟩)
  have ht : (retime (decode regs)).1 = decode regs := by
    rcases hcl with hc | hc
    · simp [retime_yDoubled _ hc, retime_ydouble, cant_line_double, hp]
    · simp [retime_xyDoubled _ hc, retime_xydouble, hp]
  refine ⟨hcl, ?_, rfl, rfl, rfl, passthrough_writes regs ht hq⟩
  rw [probe_timing_some regs hq, ht]

/-- Examples of the pass-through at 24MHz: 320 x 200 at 24MHz (XY-doubling shape) and
640 x 250 at 24MHz (Y-doubling shape) are both stored undoubled. -/
theorem clock24_passthrough_examples :
    ((decode snap320x200at24).xres = 320 ∧ (decode snap320x200at24).yres = 200 ∧
      (decode snap320x200at24).pix_rate = 24 ∧
      probe_timing snap320x200at24 = some (decode snap320x200at24)) ∧
    (classify (decode snapY24) = .YDoubled ∧
      probe_timing snapY24 = some (decode snapY24)) :=
  ⟨⟨by decide, by decide, by decide,
    (clock24_passthrough snap320x200at24 (by decide) (by decide) (by decide)
      (by decide)).2.1⟩,
   ⟨by decide,
    (clock24_passthrough snapY24 (by decide) (by decide) (by decide) (by decide)).2.1⟩⟩

/-- The chain of `video_probe_mode` puts every decoded timing in exactly one of
the five categories, each characterised by its rule with the hires guess taking
precedence; no branch is entered (Unsupported) exactly when the timing is not
HiresMono and `xres < 640` and `yres >= 480`, and then, in a call that gets past the
division of line 226, every local stays as decoded, `dx = dy = hires = 0`, and the ten
stores carry the decoded values. -/
theorem classify_partition (regs : Nat → Nat) :
    (∃! c : ModeCategory, classify (decode regs) = c) ∧
    (classify (decode regs) = .HiresMono ↔
      ((decode regs).pix_rate = 24 ∧ (decode regs).bpp = 2 ∧
        (decode regs).xres < (decode regs).yres / 2)) ∧
    (classify (decode regs) = .DirectVga ↔
      ¬ ((decode regs).pix_rate = 24 ∧ (decode regs).bpp = 2 ∧
        (decode regs).xres < (decode regs).yres / 2) ∧
      640 ≤ (decode regs).xres ∧ 480 ≤ (decode regs).yres) ∧
    (classify (decode regs) = .YDoubled ↔
      ¬ ((decode regs).pix_rate = 24 ∧ (decode regs).bpp = 2 ∧
        (decode regs).xres < (decode regs).yres / 2) ∧
      640 ≤ (decode regs).xres ∧ (decode regs).yres < 480) ∧
    (classify (decode regs) = .XYDoubled ↔
      ¬ ((decode regs).pix_rate = 24 ∧ (decode regs).bpp = 2 ∧
        (decode regs).xres < (decode regs).yres / 2) ∧
      (decode regs).xres < 640 ∧ (decode regs).yres < 480) ∧
    (classify (decode regs) = .Unsupported ↔
      ¬ ((decode regs).pix_rate = 24 ∧ (decode regs).bpp = 2 ∧
        (decode regs).xres < (decode regs).yres / 2) ∧
      (decode regs).xres < 640 ∧ 480 ≤ (decode regs).yres) ∧
    (classify (decode regs) = .Unsupported →
      mul32 (decode regs).hcr (decode regs).vcr ≠ 0 →
      probe_timing regs = some (decode regs) ∧
      (decode regs).dx = 0 ∧ (decode regs).dy = 0 ∧
      (decode regs).hires = 0 ∧
      probe_writes regs =
        [(0, (decode regs).xres), (1, (decode regs).xfp), (2, (decode regs).xsw),
         (3, (decode regs).xbp), (4, (decode regs).yres), (5, (decode regs).yfp),
         (6, (decode regs).ysw), (7, (decode regs).ybp), (9, (decode regs).wpl),
         (10, (decode regs).cx ||| shl32 (decode regs).bpp 28)]) := by
  refine ⟨⟨classify (decode regs), rfl, fun c hc => hc.symm⟩, classify_hires_iff _,
    classify_direct_iff _, classify_ydouble_iff _, classify_xydouble_iff _,
    classify_unsupported_iff _, ?_⟩
  intro hc hq
  have ht : (retime (decode regs)).1 = decode regs := by
    simp [retime_unsupported _ hc]
  refine ⟨?_, rfl, rfl, rfl, passthrough_writes regs ht hq⟩
  rw [probe_timing_some regs hq, ht]

/-- Examples of the five categories: a 320 x 480 timing at 16MHz enters no branch and
is stored as decoded. -/
theorem classify_partition_examples :
    classify (decode snapNarrowTall) = .Unsupported ∧
    (decode snapNarrowTall).xres = 320 ∧ (decode snapNarrowTall).yres = 480 ∧
    probe_timing snapNarrowTall = some (decode snapNarrowTall) ∧
    (classify (decode snapVga) = .DirectVga ∧ classify (decode snapMode12) = .YDoubled ∧
      classify (decode snap320x200at16) = .XYDoubled ∧
      classify (decode snapHires400) = .HiresMono) :=
  ⟨by decide, by decide, by decide,
   ((classify_partition snapNarrowTall).2.2.2.2.2.2 (by decide) (by decide)).1,
   by decide⟩

/-- C10: for every snapshot of the source registers the decoded timing partitions
its totals exactly in 32-bit arithmetic, `xres + xfp + xsw + xbp == hcr` and
`yres + yfp + ysw + ybp == vcr` (the totals the "New mode" message prints), where
`hcr`, `hsw`, `hdsr`, `hder` are `(reg >> 14)*2` plus 2 or the bpp offset, `vcr`,
`vsw`, `vdsr`, `vder` are `(reg >> 14) + 1` (none of these wraps), and the
resolutions and porches are the wrapping differences of the claim. -/
theorem decode_partitions_totals (regs : Nat → Nat) :
    add32 (add32 (add32 (decode regs).xres (decode regs).xfp) (decode regs).xsw)
        (decode regs).xbp = (decode regs).hcr ∧
    add32 (add32 (add32 (decode regs).yres (decode regs).yfp) (decode regs).ysw)
        (decode regs).ybp = (decode regs).vcr ∧
    printed_totals (decode regs) = ((decode regs).hcr, (decode regs).vcr) ∧
    (decode regs).hcr = (vidc_reg regs VIDC_H_CYC >>> 14) * 2 + 2 ∧
    (decode regs).hsw = (vidc_reg regs VIDC_H_SYNC >>> 14) * 2 + 2 ∧
    (decode regs).hdsr = (vidc_reg regs VIDC_H_DISP_START >>> 14) * 2
        + vidc_bpp_to_hdsr_offset (decode regs).bpp ∧
    (decode regs).hder = (vidc_reg regs VIDC_H_DISP_END >>> 14) * 2
        + vidc_bpp_to_hdsr_offset (decode regs).bpp ∧
    (decode regs).vcr = (vidc_reg regs VIDC_V_CYC >>> 14) + 1 ∧
    (decode regs).vsw = (vidc_reg regs VIDC_V_SYNC >>> 14) + 1 ∧
    (decode regs).vdsr = (vidc_reg regs VIDC_V_DISP_START >>> 14) + 1 ∧
    (decode regs).vder = (vidc_reg regs VIDC_V_DISP_END >>> 14) + 1 ∧
    (decode regs).xres = sub32 (decode regs).hder (decode regs).hdsr ∧
    (decode regs).yres = sub32 (decode regs).vder (decode regs).vdsr ∧
    (decode regs).xfp = sub32 (decode regs).hcr (decode regs).hder ∧
    (decode regs).xsw = (decode regs).hsw ∧
    (decode regs).xbp = sub32 (decode regs).hdsr (decode regs).hsw ∧
    (decode regs).yfp = sub32 (decode regs).vcr (decode regs).vder ∧
    (decode regs).ysw = (decode regs).vsw ∧
    (decode regs).ybp = sub32 (decode regs).vdsr (decode regs).vsw := by
  have hh : add32 (add32 (add32 (decode regs).xres (decode regs).xfp) (decode regs).xsw)
      (decode regs).xbp = (decode regs).hcr :=
    partition32 (decode regs).hcr (decode regs).hder (decode regs).hdsr (decode regs).hsw
      (by have := decode_hcr_range regs; omega)
  have hv : add32 (add32 (add32 (decode regs).yres (decode regs).yfp) (decode regs).ysw)
      (decode regs).ybp = (decode regs).vcr :=
    partition32 (decode regs).vcr (decode regs).vder (decode regs).vdsr (decode regs).vsw
      (decode_vcr_lt regs)
  refine ⟨hh, hv, ?_, decode_hcr regs, decode_hsw regs, decode_hdsr regs, decode_hder regs,
    decode_vcr regs, decode_vsw regs, decode_vdsr regs, decode_vder regs,
    rfl, rfl, rfl, rfl, rfl, rfl, rfl, rfl⟩
  unfold printed_totals
  rw [hh, hv]

theorem mul32_of_lt (a b : Nat) (h : a * b < 4294967296) : mul32 a b = a * b :=
  Nat.mod_eq_of_lt h

/-- For a decoded line period the hires period `hcr*4*78/96` does not wrap. -/
theorem total_width78_exact (regs : Nat → Nat) :
    total_width78 (decode regs).hcr = (decode regs).hcr * 4 * 78 / 96 ∧
    total_width78 (decode regs).hcr ≤ 1703936 := by
  have h := decode_hcr_range regs
  unfold total_width78
  rw [mul32_of_lt (decode regs).hcr 4 (by omega),
    mul32_of_lt ((decode regs).hcr * 4) 78 (by omega)]
  omega

/-- For a decoded line period and one of the four pixel rates, `hcr*24` does not
wrap. -/
theorem new_total_width_exact (regs : Nat → Nat) :
    new_total_width (decode regs) = (decode regs).hcr * 24 / (decode regs).pix_rate / 2 ∧
    new_total_width (decode regs) < 4294967296 := by
  have h := decode_hcr_range regs
  unfold new_total_width
  rw [mul32_of_lt (decode regs).hcr 24 (by omega)]
  refine ⟨rfl, ?_⟩
  calc (decode regs).hcr * 24 / (decode regs).pix_rate / 2
      ≤ (decode regs).hcr * 24 / (decode regs).pix_rate := Nat.div_le_self _ _
    _ ≤ (decode regs).hcr * 24 := Nat.div_le_self _ _
    _ < 4294967296 := by omega

theorem period_check_arith (hcr : Nat) :
    (hcr * 4 * 78 / 96 * 96 / 78 / 4 = hcr ↔ hcr % 4 = 0) ∧
    (hcr * 4 * 78 % 96 = 0 ↔ hcr % 4 = 0) := by
  have e : hcr * 4 * 78 / 96 = 13 * hcr / 4 := by omega
  rw [e]
  have hj : hcr % 4 < 4 := Nat.mod_lt _ (by norm_num)
  have hk := Nat.div_add_mod hcr 4
  generalize hcr / 4 = k at hk
  generalize hcr % 4 = j at hk hj
  subst hk
  interval_cases j
  · have e1 : 13 * (4 * k + 0) / 4 = 13 * k := by omega
    rw [e1]
    constructor <;> omega
  · have e1 : 13 * (4 * k + 1) / 4 = 13 * k + 3 := by omega
    rw [e1]
    constructor <;> omega
  · have e1 : 13 * (4 * k + 2) / 4 = 13 * k + 6 := by omega
    rw [e1]
    constructor <;> omega
  · have e1 : 13 * (4 * k + 3) / 4 = 13 * k + 9 := by omega
    rw [e1]
    constructor <;> omega

theorem decode_vcr_range (regs : Nat → Nat) :
    1 ≤ (decode regs).vcr ∧ (decode regs).vcr ≤ 262144 := by
  have h := (vfield_exact _ (vidc_reg_lt regs VIDC_V_CYC)).2
  rw [decode_vcr]
  omega

/-- A zero divisor at line 226 needs a line period that is a multiple of 4. -/
theorem zero_divisor_mod4 (regs : Nat → Nat)
    (h0 : mul32 (decode regs).hcr (decode regs).vcr = 0) : (decode regs).hcr % 4 = 0 := by
  have hr := decode_hcr_range regs
  have hv := decode_vcr_range regs
  by_contra hne
  obtain ⟨m, hm⟩ : ∃ m, (decode regs).hcr = 2 * m := ⟨(decode regs).hcr / 2, by omega⟩
  have hodd : m % 2 = 1 := by omega
  have hd : 4294967296 ∣ (decode regs).hcr * (decode regs).vcr := Nat.dvd_of_mod_eq_zero h0
  rw [hm] at hd
  have hd2 : 2 * 2147483648 ∣ 2 * (m * (decode regs).vcr) := by
    rw [← Nat.mul_assoc]
    exact hd
  have hd3 : 2147483648 ∣ m * (decode regs).vcr :=
    (Nat.mul_dvd_mul_iff_left (by norm_num)).1 hd2
  have hc : Nat.Coprime 2147483648 m := by
    have h2 : Nat.Coprime 2 m := (Nat.coprime_two_left).2 (Nat.odd_iff.2 hodd)
    have := Nat.Coprime.pow_left 31 h2
    simpa using this
  have hd4 : 2147483648 ∣ (decode regs).vcr := hc.dvd_of_dvd_mul_left hd3
  have := Nat.le_of_dvd (by omega) hd4
  omega

/-- C8: for every decoded `hcr`, the round-trip test of the hires branch,
`(hcr*4*78/96)*96/78/4 == hcr` in 32-bit arithmetic, passes if and only if
`hcr*4*78` is divisible by 96, equivalently `hcr` is a multiple of 4; and the hires
branch prints the period-mismatch message exactly when it fails. -/
theorem period_check_exact (regs : Nat → Nat) :
    (mul32 (mul32 (mul32 (decode regs).hcr 4) 78 / 96) 96 / 78 / 4 = (decode regs).hcr ↔
      (decode regs).hcr * 4 * 78 % 96 = 0) ∧
    ((decode regs).hcr * 4 * 78 % 96 = 0 ↔ (decode regs).hcr % 4 = 0) ∧
    (period_mismatch (decode regs).hcr = false ↔ (decode regs).hcr * 4 * 78 % 96 = 0) ∧
    (Diag.periodMismatch (decode regs).hcr (total_width78 (decode regs).hcr) ∈
        (retime_hires (decode regs)).2 ↔ ¬ ((decode regs).hcr * 4 * 78 % 96 = 0)) ∧
    ((retime_hires (decode regs)).2 = [Diag.guessedHires] ↔
      (decode regs).hcr * 4 * 78 % 96 = 0) ∧
    (Diag.periodMismatch (decode regs).hcr (total_width78 (decode regs).hcr) ∈
        probe_diags regs ↔
      classify (decode regs) = .HiresMono ∧ ¬ ((decode regs).hcr * 4 * 78 % 96 = 0)) := by
  have hr := decode_hcr_range regs
  have hw := total_width78_exact regs
  have ha := period_check_arith (decode regs).hcr
  have h1 : mul32 (mul32 (mul32 (decode regs).hcr 4) 78 / 96) 96 / 78 / 4 =
      (decode regs).hcr * 4 * 78 / 96 * 96 / 78 / 4 := by
    have e : mul32 (mul32 (decode regs).hcr 4) 78 / 96 = total_width78 (decode regs).hcr := rfl
    rw [e, mul32_of_lt _ 96 (by omega), hw.1]
  have h2 : period_mismatch (decode regs).hcr = false ↔
      (decode regs).hcr * 4 * 78 % 96 = 0 := by
    unfold period_mismatch
    rw [decide_eq_false_iff_not, not_not]
    show mul32 (mul32 (mul32 (decode regs).hcr 4) 78 / 96) 96 / 78 / 4 = (decode regs).hcr ↔ _
    rw [h1]
    exact ha.1.trans ha.2.symm
  have h3 : Diag.periodMismatch (decode regs).hcr (total_width78 (decode regs).hcr) ∈
      (retime_hires (decode regs)).2 ↔ ¬ ((decode regs).hcr * 4 * 78 % 96 = 0) := by
    rw [← h2]
    unfold retime_hires
    cases period_mismatch (decode regs).hcr <;> simp
  refine ⟨?_, ha.2, h2, h3, ?_, ?_⟩
  · rw [h1]
    exact ha.1.trans ha.2.symm
  · rw [← h2]
    unfold retime_hires
    cases period_mismatch (decode regs).hcr <;> simp
  · by_cases hq : mul32 (decode regs).hcr (decode regs).vcr = 0
    · have h4 : (decode regs).hcr * 4 * 78 % 96 = 0 := ha.2.mpr (zero_divisor_mod4 regs hq)
      rw [probe_diags_none regs hq]
      simp [h4]
    · rw [probe_diags_some regs hq, ← h3]
      unfold retime
      cases hcl : classify (decode regs) with
      | HiresMono => simp
      | DirectVga => simp
      | Unsupported => simp
      | YDoubled =>
        show Diag.periodMismatch _ _ ∈ (retime_ydouble (decode regs)).2 ↔ _
        unfold retime_ydouble
        split <;> simp
      | XYDoubled =>
        show Diag.periodMismatch _ _ ∈ (retime_xydouble (decode regs)).2 ↔ _
        unfold retime_xydouble
        split <;> simp

/-- The locals after the Y-doubling branch, when it doubles. -/
theorem probe_timing_ydouble (regs : Nat → Nat) (hc : classify (decode regs) = .YDoubled)
    (hf : cant_line_double (decode regs) = false) :
    (retime (decode regs)).1 =
      { decode regs with
        yres := mul32 (decode regs).yres 2, yfp := mul32 (decode regs).yfp 2,
        ysw := mul32 (decode regs).ysw 2, ybp := mul32 (decode regs).ybp 2,
        xfp := new_total_width (decode regs) / 20,
        xsw := new_total_width (decode regs) / 40,
        xbp := sub32 (sub32 (sub32 (new_total_width (decode regs)) (decode regs).xres)
          (new_total_width (decode regs) / 20)) (new_total_width (decode regs) / 40),
        dy := 1 } := by
  simp [retime_yDoubled _ hc, retime_ydouble, hf]

/-- The locals after the XY-doubling branch, when it doubles. -/
theorem probe_timing_xydouble (regs : Nat → Nat) (hc : classify (decode regs) = .XYDoubled)
    (hp : (decode regs).pix_rate ≠ 24) :
    (retime (decode regs)).1 =
      { decode regs with
        wpl := sub32 ((decode regs).xres / (32 >>> (decode regs).bpp)) 1,
        yres := mul32 (decode regs).yres 2, yfp := mul32 (decode regs).yfp 2,
        ysw := mul32 (decode regs).ysw 2, ybp := mul32 (decode regs).ybp 2,
        xres := mul32 (decode regs).xres 2,
        xfp := new_total_width (decode regs) / 20,
        xsw := new_total_width (decode regs) / 40,
        xbp := sub32 (sub32 (sub32 (new_total_width (decode regs))
          (mul32 (decode regs).xres 2))
          (new_total_width (decode regs) / 20)) (new_total_width (decode regs) / 40),
        dx := 1, dy := 1 } := by
  simp [retime_xyDoubled _ hc, retime_xydouble, hp]

/-- The locals after the hires branch. -/
theorem probe_timing_hires (regs : Nat → Nat) (hc : classify (decode regs) = .HiresMono) :
    (retime (decode regs)).1 =
      { decode regs with
        xres := mul32 (decode regs).xres 4,
        xfp := total_width78 (decode regs).hcr / 20,
        xsw := total_width78 (decode regs).hcr / 40,
        xbp := sub32 (sub32 (sub32 (total_width78 (decode regs).hcr)
          (mul32 (decode regs).xres 4))
          (total_width78 (decode regs).hcr / 20)) (total_width78 (decode regs).hcr / 40),
        hires := 1, bpp := 0,
        wpl := sub32 (mul32 (decode regs).xres 4 / 32) 1, cx := 0x12c } := by
  simp [retime_hiresMono _ hc, retime_hires]

theorem double_yres (regs : Nat → Nat) (hy : (decode regs).yres < 480) :
    mul32 (decode regs).yres 2 = 2 * (decode regs).yres := by
  rw [mul32_of_lt _ 2 (by omega)]
  omega

theorem double_ysw (regs : Nat → Nat) :
    mul32 (decode regs).ysw 2 = 2 * (decode regs).ysw := by
  have h : (decode regs).ysw ≤ 262144 := decode_vsw_le regs
  rw [mul32_of_lt _ 2 (by omega)]
  omega

theorem double_xres (regs : Nat → Nat) (hx : (decode regs).xres < 640) :
    mul32 (decode regs).xres 2 = 2 * (decode regs).xres := by
  rw [mul32_of_lt _ 2 (by omega)]
  omega

/-- The Y-doubling branch: for every snapshot classified YDoubled that passes the
feasibility check (`pix_rate != 24` and `new_total_width >= xres + xres/32`) and has
a non-zero divisor at line 226, `video_probe_mode` writes
`yres`, `yfp`, `ysw`, `ybp` each doubled (32-bit), leaves `xres` and `wpl` as decoded,
sets `dy = 1` and keeps `dx = 0`, and the written horizontal values satisfy
`xfp + xsw + xbp + xres == new_total_width` in 32-bit arithmetic, where
`new_total_width = hcr*24/pix_rate/2` (no wrap), `xfp = new_total_width/20` and
`xsw = new_total_width/40`. -/
theorem ydoubled_timing (regs : Nat → Nat) (hc : classify (decode regs) = .YDoubled)
    (hp : (decode regs).pix_rate ≠ 24)
    (hw : ¬ new_total_width (decode regs) <
      add32 (decode regs).xres ((decode regs).xres / 32))
    (hq : mul32 (decode regs).hcr (decode regs).vcr ≠ 0) :
    probe_timing regs = some (retime (decode regs)).1 ∧
    ((retime (decode regs)).1).yres = 2 * (decode regs).yres ∧
    ((retime (decode regs)).1).yfp = (decode regs).yfp * 2 % 4294967296 ∧
    ((retime (decode regs)).1).ysw = 2 * (decode regs).ysw ∧
    ((retime (decode regs)).1).ybp = (decode regs).ybp * 2 % 4294967296 ∧
    ((retime (decode regs)).1).xres = (decode regs).xres ∧
    ((retime (decode regs)).1).wpl = (decode regs).wpl ∧
    ((retime (decode regs)).1).dy = 1 ∧ ((retime (decode regs)).1).dx = 0 ∧
    ((retime (decode regs)).1).hires = 0 ∧
    ((decode regs).pix_rate = 8 ∨ (decode regs).pix_rate = 12 ∨
      (decode regs).pix_rate = 16) ∧
    new_total_width (decode regs) =
      (decode regs).hcr * 24 / (decode regs).pix_rate / 2 ∧
    ((retime (decode regs)).1).xfp = new_total_width (decode regs) / 20 ∧
    ((retime (decode regs)).1).xsw = new_total_width (decode regs) / 40 ∧
    ((retime (decode regs)).1).xbp =
      sub32 (sub32 (sub32 (new_total_width (decode regs)) (decode regs).xres)
        (new_total_width (decode regs) / 20)) (new_total_width (decode regs) / 40) ∧
    add32 (add32 (add32 ((retime (decode regs)).1).xfp ((retime (decode regs)).1).xsw)
      ((retime (decode regs)).1).xbp) ((retime (decode regs)).1).xres = new_total_width (decode regs) ∧
    probe_writes regs =
      [(0, (decode regs).xres), (1, new_total_width (decode regs) / 20),
       (2, new_total_width (decode regs) / 40), (3, ((retime (decode regs)).1).xbp),
       (4, (2 * (decode regs).yres) ||| 0x80000000),
       (5, (decode regs).yfp * 2 % 4294967296), (6, 2 * (decode regs).ysw),
       (7, (decode regs).ybp * 2 % 4294967296), (9, (decode regs).wpl),
       (10, (decode regs).cx ||| shl32 (decode regs).bpp 28)] := by
  have hf : cant_line_double (decode regs) = false := by
    simp [cant_line_double, hp, hw]
  have hy : (decode regs).yres < 480 := ((classify_ydouble_iff _).mp hc).2.2
  have ht := probe_timing_ydouble regs hc hf
  have hn := new_total_width_exact regs
  have e1 := double_yres regs hy
  have e2 := double_ysw regs
  have hr : (decode regs).pix_rate = 8 ∨ (decode regs).pix_rate = 12 ∨
      (decode regs).pix_rate = 16 := by
    rcases decode_pix_rate regs with h | h | h | h
    · exact Or.inl h
    · exact Or.inr (Or.inl h)
    · exact Or.inr (Or.inr h)
    · exact absurd h hp
  refine ⟨probe_timing_some regs hq, ?_, ?_, ?_, ?_, ?_, ?_, ?_, ?_, ?_, hr, hn.1, ?_, ?_, ?_, ?_, ?_⟩
  · rw [ht]; exact e1
  · rw [ht]; rfl
  · rw [ht]; exact e2
  · rw [ht]; rfl
  · rw [ht]
  · rw [ht]
  · rw [ht]
  · rw [ht]; rfl
  · rw [ht]; rfl
  · rw [ht]
  · rw [ht]
  · rw [ht]
  · rw [ht]
    exact porch_sum32 _ _ _ _ hn.2
  · have d1 : (decode regs).dx = 0 := rfl
    have d2 : (decode regs).hires = 0 := rfl
    rw [probe_writes_some regs hq, ht]
    simp only [mul32] at e1 e2
    simp [output_writes, mul32, e1, e2, d1, d2, VIDO_REG_RES_X, VIDO_REG_HS_FP,
      VIDO_REG_HS_WIDTH, VIDO_REG_HS_BP, VIDO_REG_RES_Y, VIDO_REG_VS_FP, VIDO_REG_VS_WIDTH,
      VIDO_REG_VS_BP, VIDO_REG_WPLM1, VIDO_REG_CTRL]

/-- Example of the Y-doubling branch: the 640 x 256 mode at 16MHz (line period 1024)
becomes 640 x 512 in a 768-pixel line: porches 38 + 19 + 71. -/
theorem ydoubled_timing_example :
    (decode snapMode12).xres = 640 ∧ (decode snapMode12).yres = 256 ∧
    new_total_width (decode snapMode12) = 768 ∧
    (probe_timing snapMode12).map ProbeVars.yres = some 512 ∧
    (probe_timing snapMode12).map ProbeVars.xfp = some 38 ∧
    (probe_timing snapMode12).map ProbeVars.xsw = some 19 ∧
    (probe_timing snapMode12).map ProbeVars.xbp = some 71 ∧
    probe_timing snapMode12 = some (retime (decode snapMode12)).1 :=
  ⟨by decide, by decide, by decide, by decide, by decide, by decide, by decide,
   (ydoubled_timing snapMode12 (by decide) (by decide) (by decide) (by decide)).1⟩

/-- The XY-doubling branch: for every snapshot classified XYDoubled with
`pix_rate != 24` and a non-zero divisor at line 226, `video_probe_mode` writes `xres` doubled, `yres`, `yfp`, `ysw`, `ybp` doubled
(32-bit), `wpl = xres/(32 >> bpp) - 1` from the decoded `xres`, `xfp =
new_total_width/20`, `xsw = new_total_width/40`, `xbp = new_total_width - 2*xres -
xfp - xsw` (32-bit) and `dx = dy = 1`, where `new_total_width = hcr*24/pix_rate/2`. -/
theorem xydoubled_timing (regs : Nat → Nat) (hc : classify (decode regs) = .XYDoubled)
    (hp : (decode regs).pix_rate ≠ 24)
    (hq : mul32 (decode regs).hcr (decode regs).vcr ≠ 0) :
    probe_timing regs = some (retime (decode regs)).1 ∧
    ((retime (decode regs)).1).xres = 2 * (decode regs).xres ∧
    ((retime (decode regs)).1).yres = 2 * (decode regs).yres ∧
    ((retime (decode regs)).1).yfp = (decode regs).yfp * 2 % 4294967296 ∧
    ((retime (decode regs)).1).ysw = 2 * (decode regs).ysw ∧
    ((retime (decode regs)).1).ybp = (decode regs).ybp * 2 % 4294967296 ∧
    ((retime (decode regs)).1).wpl = sub32 ((decode regs).xres / (32 >>> (decode regs).bpp)) 1 ∧
    ((decode regs).pix_rate = 8 ∨ (decode regs).pix_rate = 12 ∨
      (decode regs).pix_rate = 16) ∧
    new_total_width (decode regs) =
      (decode regs).hcr * 24 / (decode regs).pix_rate / 2 ∧
    ((retime (decode regs)).1).xfp = new_total_width (decode regs) / 20 ∧
    ((retime (decode regs)).1).xsw = new_total_width (decode regs) / 40 ∧
    ((retime (decode regs)).1).xbp =
      sub32 (sub32 (sub32 (new_total_width (decode regs)) (2 * (decode regs).xres))
        (new_total_width (decode regs) / 20)) (new_total_width (decode regs) / 40) ∧
    ((retime (decode regs)).1).dx = 1 ∧ ((retime (decode regs)).1).dy = 1 ∧
    ((retime (decode regs)).1).hires = 0 ∧
    probe_writes regs =
      [(0, (2 * (decode regs).xres) ||| 0x80000000),
       (1, new_total_width (decode regs) / 20),
       (2, new_total_width (decode regs) / 40), (3, ((retime (decode regs)).1).xbp),
       (4, (2 * (decode regs).yres) ||| 0x80000000),
       (5, (decode regs).yfp * 2 % 4294967296), (6, 2 * (decode regs).ysw),
       (7, (decode regs).ybp * 2 % 4294967296),
       (9, sub32 ((decode regs).xres / (32 >>> (decode regs).bpp)) 1),
       (10, (decode regs).cx ||| shl32 (decode regs).bpp 28)] := by
  have hx : (decode regs).xres < 640 := ((classify_xydouble_iff _).mp hc).2.1
  have hy : (decode regs).yres < 480 := ((classify_xydouble_iff _).mp hc).2.2
  have ht := probe_timing_xydouble regs hc hp
  have hn := new_total_width_exact regs
  have e1 := double_yres regs hy
  have e2 := double_ysw regs
  have e3 := double_xres regs hx
  have hr : (decode regs).pix_rate = 8 ∨ (decode regs).pix_rate = 12 ∨
      (decode regs).pix_rate = 16 := by
    rcases decode_pix_rate regs with h | h | h | h
    · exact Or.inl h
    · exact Or.inr (Or.inl h)
    · exact Or.inr (Or.inr h)
    · exact absurd h hp
  refine ⟨probe_timing_some regs hq, ?_, ?_, ?_, ?_, ?_, ?_, hr, hn.1, ?_, ?_, ?_, ?_, ?_, ?_, ?_⟩
  · rw [ht]; exact e3
  · rw [ht]; exact e1
  · rw [ht]; rfl
  · rw [ht]; exact e2
  · rw [ht]; rfl
  · rw [ht]
  · rw [ht]
  · rw [ht]
  · rw [ht, ← e3]
  · rw [ht]
  · rw [ht]
  · rw [ht]; rfl
  · have d2 : (decode regs).hires = 0 := rfl
    rw [probe_writes_some regs hq, ht]
    simp only [mul32] at e1 e2 e3
    simp [output_writes, mul32, e1, e2, e3, d2, VIDO_REG_RES_X, VIDO_REG_HS_FP,
      VIDO_REG_HS_WIDTH, VIDO_REG_HS_BP, VIDO_REG_RES_Y, VIDO_REG_VS_FP, VIDO_REG_VS_WIDTH,
      VIDO_REG_VS_BP, VIDO_REG_WPLM1, VIDO_REG_CTRL]

/-- Example of the XY-doubling branch: 320 x 200 at 16MHz (line period 1024, 8bpp) is
written as 640 x 400 with both doubling flags, `wpl = 320/4 - 1` and porches
38 + 19 + 71 in a 768-pixel line. -/
theorem xydoubled_timing_example :
    (decode snap320x200at16).xres = 320 ∧ (decode snap320x200at16).yres = 200 ∧
    (decode snap320x200at16).pix_rate = 16 ∧
    (probe_timing snap320x200at16).map ProbeVars.xres = some 640 ∧
    (probe_timing snap320x200at16).map ProbeVars.yres = some 400 ∧
    (probe_timing snap320x200at16).map ProbeVars.wpl = some 79 ∧
    (probe_timing snap320x200at16).map ProbeVars.xfp = some 38 ∧
    (probe_timing snap320x200at16).map ProbeVars.xsw = some 19 ∧
    (probe_timing snap320x200at16).map ProbeVars.xbp = some 71 ∧
    (probe_timing snap320x200at16).map ProbeVars.dx = some 1 ∧
    (probe_timing snap320x200at16).map ProbeVars.dy = some 1 ∧
    (probe_timing snap320x200at16).map ProbeVars.hires = some 0 ∧
    probe_timing snap320x200at16 = some (retime (decode snap320x200at16)).1 :=
  ⟨by decide, by decide, by decide, by decide, by decide, by decide, by decide, by decide,
   by decide, by decide, by decide, by decide,
   (xydoubled_timing snap320x200at16 (by decide) (by decide) (by decide)).1⟩

/-- The hires branch: for every snapshot classified HiresMono with a non-zero divisor
at line 226, `video_probe_mode` writes
`xres = 4*xres`, and with `period = hcr*4*78/96` (no wrap), `xfp = period/20`,
`xsw = period/40`, `xbp = period - 4*xres - xfp - xsw` (32-bit), the four vertical
values as decoded, `bpp = 0`, `wpl = (4*xres)/32 - 1`, `hires = 1`, `dx = dy = 0` and
`cx = 0x12c`; the outcome of the period check is not consulted. -/
theorem hires_timing (regs : Nat → Nat) (hc : classify (decode regs) = .HiresMono)
    (hq : mul32 (decode regs).hcr (decode regs).vcr ≠ 0) :
    probe_timing regs = some (retime (decode regs)).1 ∧
    ((retime (decode regs)).1).xres = 4 * (decode regs).xres ∧
    total_width78 (decode regs).hcr = (decode regs).hcr * 4 * 78 / 96 ∧
    ((retime (decode regs)).1).xfp = (decode regs).hcr * 4 * 78 / 96 / 20 ∧
    ((retime (decode regs)).1).xsw = (decode regs).hcr * 4 * 78 / 96 / 40 ∧
    ((retime (decode regs)).1).xbp =
      sub32 (sub32 (sub32 ((decode regs).hcr * 4 * 78 / 96) (4 * (decode regs).xres))
        ((decode regs).hcr * 4 * 78 / 96 / 20)) ((decode regs).hcr * 4 * 78 / 96 / 40) ∧
    ((retime (decode regs)).1).yres = (decode regs).yres ∧
    ((retime (decode regs)).1).yfp = (decode regs).yfp ∧
    ((retime (decode regs)).1).ysw = (decode regs).ysw ∧
    ((retime (decode regs)).1).ybp = (decode regs).ybp ∧
    ((retime (decode regs)).1).bpp = 0 ∧
    ((retime (decode regs)).1).wpl = sub32 (4 * (decode regs).xres / 32) 1 ∧
    ((retime (decode regs)).1).hires = 1 ∧
    ((retime (decode regs)).1).dx = 0 ∧ ((retime (decode regs)).1).dy = 0 ∧
    ((retime (decode regs)).1).cx = 0x12c ∧
    probe_writes regs =
      [(0, 4 * (decode regs).xres), (1, (decode regs).hcr * 4 * 78 / 96 / 20),
       (2, (decode regs).hcr * 4 * 78 / 96 / 40), (3, ((retime (decode regs)).1).xbp),
       (4, (decode regs).yres), (5, (decode regs).yfp), (6, (decode regs).ysw),
       (7, (decode regs).ybp), (9, sub32 (4 * (decode regs).xres / 32) 1),
       (10, 0x8000012c)] := by
  have hh := (classify_hires_iff _).mp hc
  have hyl := decode_yres_lt regs
  have hxr := decode_xres_range regs
  have ht := probe_timing_hires regs hc
  have hw := (total_width78_exact regs).1
  have e3 : mul32 (decode regs).xres 4 = 4 * (decode regs).xres := by
    rw [mul32_of_lt _ 4 (by omega)]
    omega
  rw [e3, hw] at ht
  refine ⟨probe_timing_some regs hq, ?_, hw, ?_, ?_, ?_, ?_, ?_, ?_, ?_, ?_, ?_, ?_, ?_, ?_, ?_, ?_⟩
  · rw [ht]
  · rw [ht]
  · rw [ht]
  · rw [ht]
  · rw [ht]
  · rw [ht]
  · rw [ht]
  · rw [ht]
  · rw [ht]
  · rw [ht]
  · rw [ht]
  · rw [ht]; rfl
  · rw [ht]; rfl
  · rw [ht]
  · have d1 : (decode regs).dx = 0 := rfl
    have d2 : (decode regs).dy = 0 := rfl
    rw [probe_writes_some regs hq, ht]
    simp [output_writes, shl32, d1, d2, VIDO_REG_RES_X, VIDO_REG_HS_FP,
      VIDO_REG_HS_WIDTH, VIDO_REG_HS_BP, VIDO_REG_RES_Y, VIDO_REG_VS_FP, VIDO_REG_VS_WIDTH,
      VIDO_REG_VS_BP, VIDO_REG_WPLM1, VIDO_REG_CTRL]

/-- Examples of the hires branch: the 160 x 400 timing is written as 640 x 400 with
`hires = 1` both with line period 800 (the period check passes: 2600 pixels) and with
line period 802 (the check fails: 2606 pixels, and the message is printed). -/
theorem hires_timing_examples :
    (period_mismatch (decode snapHires400).hcr = false ∧
      (probe_timing snapHires400).map ProbeVars.xres = some 640 ∧
      (probe_timing snapHires400).map ProbeVars.xfp = some 130 ∧
      (probe_timing snapHires400).map ProbeVars.xsw = some 65 ∧
      (probe_timing snapHires400).map ProbeVars.xbp = some 1765 ∧
      probe_timing snapHires400 = some (retime (decode snapHires400)).1) ∧
    (period_mismatch (decode snapHires400odd).hcr = true ∧
      probe_diags snapHires400odd = [Diag.guessedHires, Diag.periodMismatch 802 2606] ∧
      (probe_timing snapHires400odd).map ProbeVars.xres = some 640 ∧
      (probe_timing snapHires400odd).map ProbeVars.xfp = some 130 ∧
      (probe_timing snapHires400odd).map ProbeVars.xsw = some 65 ∧
      (probe_timing snapHires400odd).map ProbeVars.xbp = some 1771 ∧
      probe_timing snapHires400odd = some (retime (decode snapHires400odd)).1) :=
  ⟨⟨by decide, by decide, by decide, by decide, by decide,
    (hires_timing snapHires400 (by decide) (by decide)).1⟩,
   ⟨by decide, by decide, by decide, by decide, by decide, by decide,
    (hires_timing snapHires400odd (by decide) (by decide)).1⟩⟩

/-- C6 (amended): the blanking-budget downgrade applies to the Y-doubling branch
only.  In a call that gets past the division of line 226 (the 32-bit divisor
`hcr * vcr` is not zero), a snapshot classified YDoubled whose `new_total_width` is
below `xres + xres/32` is passed through as decoded; a snapshot classified XYDoubled
is passed through exactly when `pix_rate == 24`, and otherwise doubled in both
directions whatever its blanking budget. -/
theorem blanking_check_ydouble_only (regs : Nat → Nat)
    (hq : mul32 (decode regs).hcr (decode regs).vcr ≠ 0) :
    (classify (decode regs) = .YDoubled →
      new_total_width (decode regs) < add32 (decode regs).xres ((decode regs).xres / 32) →
      probe_timing regs = some (decode regs) ∧
      (decode regs).dx = 0 ∧ (decode regs).dy = 0) ∧
    (classify (decode regs) = .XYDoubled →
      (probe_timing regs = some (decode regs) ↔ (decode regs).pix_rate = 24) ∧
      ((∃ t, probe_timing regs = some t ∧ t.dx = 1 ∧ t.dy = 1 ∧
          t.xres = 2 * (decode regs).xres) ↔
        (decode regs).pix_rate ≠ 24)) := by
  have hs := probe_timing_some regs hq
  constructor
  · intro hc hw
    have ht : (retime (decode regs)).1 = decode regs := by
      simp [retime_yDoubled _ hc, retime_ydouble, cant_line_double, hw]
    exact ⟨by rw [hs, ht], rfl, rfl⟩
  · intro hc
    have d1 : (decode regs).dx = 0 := rfl
    by_cases hp : (decode regs).pix_rate = 24
    · have ht : (retime (decode regs)).1 = decode regs := by
        simp [retime_xyDoubled _ hc, retime_xydouble, hp]
      refine ⟨⟨fun _ => hp, fun _ => by rw [hs, ht]⟩, ⟨fun h => ?_, fun h => absurd hp h⟩⟩
      obtain ⟨t, h1, h2, _⟩ := h
      rw [hs, ht] at h1
      have e : decode regs = t := Option.some.inj h1
      rw [← e, d1] at h2
      exact absurd h2 (by decide)
    · have ht := probe_timing_xydouble regs hc hp
      have e3 := double_xres regs ((classify_xydouble_iff _).mp hc).2.1
      have hdx : (retime (decode regs)).1.dx = 1 := by rw [ht]
      have hdy : (retime (decode regs)).1.dy = 1 := by rw [ht]
      have hxr : (retime (decode regs)).1.xres = 2 * (decode regs).xres := by
        rw [ht]; exact e3
      refine ⟨⟨fun h => ?_, fun h => absurd h hp⟩,
        ⟨fun _ => hp, fun _ => ⟨_, hs, hdx, hdy, hxr⟩⟩⟩
      rw [hs] at h
      have e : (retime (decode regs)).1 = decode regs := Option.some.inj h
      rw [e, d1] at hdx
      exact absurd hdx (by decide)

/-- C6, witness: 640 x 250 at 16MHz with a 648-pixel half line (less than 640 + 20)
is passed through; 320 x 200 at 24MHz is passed through; 600 x 250 at 16MHz is
doubled. -/
theorem blanking_check_ydouble_only_witness :
    (classify (decode snapYTight) = .YDoubled ∧ new_total_width (decode snapYTight) = 648 ∧
      mul32 (decode snapYTight).hcr (decode snapYTight).vcr ≠ 0 ∧
      probe_timing snapYTight = some (decode snapYTight)) ∧
    (classify (decode snap320x200at24) = .XYDoubled ∧
      probe_timing snap320x200at24 = some (decode snap320x200at24)) ∧
    (classify (decode snapWide16) = .XYDoubled ∧
      (probe_timing snapWide16).map ProbeVars.dx = some 1) :=
  ⟨⟨by decide, by decide, by decide,
    ((blanking_check_ydouble_only snapYTight (by decide)).1 (by decide) (by decide)).1⟩,
   ⟨by decide,
    ((blanking_check_ydouble_only snap320x200at24 (by decide)).2 (by decide)).1.mpr
      (by decide)⟩,
   ⟨by decide, by decide⟩⟩

/-- C6, counterexample: 600 x 250 at 16MHz with line period 800 is classified
XYDoubled and its `new_total_width`, 600, is below the output `xres` 1200 (and below
the source `xres` plus `xres/32`), yet `video_probe_mode` does not pass it through:
it writes `xres = 1200` with both doubling flags, and a back porch that has wrapped
below zero.  Its frame-rate divisor is not zero. -/
theorem xydoubled_blanking_counterexample :
    classify (decode snapWide16) = .XYDoubled ∧
    (decode snapWide16).xres = 600 ∧ (decode snapWide16).pix_rate = 16 ∧
    new_total_width (decode snapWide16) = 600 ∧
    new_total_width (decode snapWide16) <
      (decode snapWide16).xres + (decode snapWide16).xres / 32 ∧
    new_total_width (decode snapWide16) <
      2 * (decode snapWide16).xres + 2 * (decode snapWide16).xres / 32 ∧
    mul32 (decode snapWide16).hcr (decode snapWide16).vcr ≠ 0 ∧
    probe_timing snapWide16 ≠ some (decode snapWide16) ∧
    (probe_timing snapWide16).map ProbeVars.xres = some 1200 ∧
    (probe_timing snapWide16).map ProbeVars.dx = some 1 ∧
    (probe_timing snapWide16).map ProbeVars.dy = some 1 ∧
    (probe_timing snapWide16).map ProbeVars.xbp = some 4294966651 ∧
    (probe_writes snapWide16).lookup VIDO_REG_HS_BP = some 4294966651 := by
  decide

/-! ## The frame-rate divisor and the decoded control fields -/

/-- C11 (refuted): the frame-rate computation of `video_probe_mode` can divide by
zero.  For every snapshot `hcr >= 2` and `vcr >= 1`, but the divisor is their 32-bit
product, which is 0 exactly when `2^32` divides `hcr * vcr`; the source divides
without a test.  With the H_CYC field `2^18 - 1` and the V_CYC field `2^13 - 1`
(`snapWrapPeriod`) the periods decode to `2^19` and `2^13`, the divisor is 0, and the
call stops at the division with no register stored.  A product that wraps to a
non-zero value (`snapWrapNonZero`) does not fault; the 640x480 mode prints 57Hz. -/
theorem frame_rate_divides_by_zero :
    (∀ regs : Nat → Nat,
      2 ≤ (decode regs).hcr ∧ 1 ≤ (decode regs).vcr ∧
      (mul32 (decode regs).hcr (decode regs).vcr = 0 ↔
        4294967296 ∣ (decode regs).hcr * (decode regs).vcr) ∧
      (frame_rate (decode regs) = none ↔
        4294967296 ∣ (decode regs).hcr * (decode regs).vcr) ∧
      (¬ 4294967296 ∣ (decode regs).hcr * (decode regs).vcr →
        frame_rate (decode regs) =
          some ((decode regs).pix_rate * 1000000 /
            ((decode regs).hcr * (decode regs).vcr % 4294967296)))) ∧
    (vidc_reg snapWrapPeriod VIDC_H_CYC = 262143 * 16384 ∧
      vidc_reg snapWrapPeriod VIDC_V_CYC = 8191 * 16384 ∧
      (decode snapWrapPeriod).hcr = 524288 ∧ (decode snapWrapPeriod).vcr = 8192 ∧
      mul32 (decode snapWrapPeriod).hcr (decode snapWrapPeriod).vcr = 0 ∧
      frame_rate (decode snapWrapPeriod) = none ∧
      probe_writes snapWrapPeriod = []) ∧
    (∀ (sync : Nat → Nat) (fuel i : Nat),
      (video_probe_mode snapWrapPeriod sync fuel i).finished = false ∧
      (video_probe_mode snapWrapPeriod sync fuel i).writes = []) ∧
    (4294967296 ≤ (decode snapWrapNonZero).hcr * (decode snapWrapNonZero).vcr ∧
      mul32 (decode snapWrapNonZero).hcr (decode snapWrapNonZero).vcr = 524288 ∧
      frame_rate (decode snapWrapNonZero) = some 45) ∧
    ((decode snapVga).hcr = 800 ∧ (decode snapVga).vcr = 525 ∧
      frame_rate (decode snapVga) = some 57) := by
  refine ⟨fun regs => ?_, by decide, fun sync fuel i => ?_, by decide, by decide⟩
  · have hh := decode_hcr_range regs
    have hv := decode_vcr_range regs
    have hp : mul32 (decode regs).pix_rate 1000000 = (decode regs).pix_rate * 1000000 := by
      apply mul32_of_lt
      rcases decode_pix_rate regs with e | e | e | e <;> rw [e] <;> norm_num
    have hz : mul32 (decode regs).hcr (decode regs).vcr = 0 ↔
        4294967296 ∣ (decode regs).hcr * (decode regs).vcr :=
      (Nat.dvd_iff_mod_eq_zero ..).symm
    refine ⟨hh.1, hv.1, hz, ?_, ?_⟩
    · rw [← hz]
      unfold frame_rate
      split <;> simp_all
    · intro hnd
      have hne : mul32 (decode regs).hcr (decode regs).vcr ≠ 0 := fun e => hnd (hz.1 e)
      unfold frame_rate
      rw [if_neg hne, hp]
      rfl
  · have h := video_probe_mode_faults snapWrapPeriod sync fuel i (by decide)
    exact ⟨h.1, h.2.1⟩

/-- C12: for every value of the control register the pixel-rate index `cr & 3` is
inside the four-entry table, `pix_rate` is 8, 12, 16 or 24 for codes 0, 1, 2, 3,
`bpp = (cr >> 2) & 3` is at most 3, and `vidc_bpp_to_hdsr_offset` returns 19, 11, 7
or 5 for it, never its default 0. -/
theorem control_fields_in_range (regs : Nat → Nat) :
    (vidc_reg regs VIDC_CONTROL &&& 3) < pix_rates.length ∧
    pix_rates.length = 4 ∧
    pix_rates.get? (vidc_reg regs VIDC_CONTROL &&& 3) = some (decode regs).pix_rate ∧
    ((vidc_reg regs VIDC_CONTROL &&& 3 = 0 ∧ (decode regs).pix_rate = 8) ∨
      (vidc_reg regs VIDC_CONTROL &&& 3 = 1 ∧ (decode regs).pix_rate = 12) ∨
      (vidc_reg regs VIDC_CONTROL &&& 3 = 2 ∧ (decode regs).pix_rate = 16) ∨
      (vidc_reg regs VIDC_CONTROL &&& 3 = 3 ∧ (decode regs).pix_rate = 24)) ∧
    (decode regs).bpp = (vidc_reg regs VIDC_CONTROL >>> 2) &&& 3 ∧
    (decode regs).bpp ≤ 3 ∧
    (((decode regs).bpp = 0 ∧ vidc_bpp_to_hdsr_offset (decode regs).bpp = 19) ∨
      ((decode regs).bpp = 1 ∧ vidc_bpp_to_hdsr_offset (decode regs).bpp = 11) ∨
      ((decode regs).bpp = 2 ∧ vidc_bpp_to_hdsr_offset (decode regs).bpp = 7) ∨
      ((decode regs).bpp = 3 ∧ vidc_bpp_to_hdsr_offset (decode regs).bpp = 5)) ∧
    vidc_bpp_to_hdsr_offset (decode regs).bpp ≠ 0 := by
  have hi : vidc_reg regs VIDC_CONTROL % 4 < 4 := Nat.mod_lt _ (by norm_num)
  have hb : (vidc_reg regs VIDC_CONTROL >>> 2) % 4 < 4 := Nat.mod_lt _ (by norm_num)
  have e1 : (decode regs).pix_rate = pix_rates.getD (vidc_reg regs VIDC_CONTROL &&& 3) 0 := rfl
  have e2 : (decode regs).bpp = (vidc_reg regs VIDC_CONTROL >>> 2) &&& 3 := rfl
  rw [e1, e2, and3_eq, and3_eq]
  generalize vidc_reg regs VIDC_CONTROL % 4 = i at hi
  generalize (vidc_reg regs VIDC_CONTROL >>> 2) % 4 = b at hb
  interval_cases i <;> interval_cases b <;>
    simp [pix_rates, vidc_bpp_to_hdsr_offset]

/-! ## The control word and the words-per-line value -/

theorem decode_bpp_le (regs : Nat → Nat) : (decode regs).bpp ≤ 3 := by
  have hb : (vidc_reg regs VIDC_CONTROL >>> 2) % 4 < 4 := Nat.mod_lt _ (by norm_num)
  show (vidc_reg regs VIDC_CONTROL >>> 2) &&& 3 ≤ 3
  rw [and3_eq]
  omega

/-- The three fields of the control word after the chain: the hires branch sets
them to `0x12c`, 0 and 1, every other branch leaves them as decoded. -/
theorem probe_ctrl_fields (regs : Nat → Nat) :
    (classify (decode regs) = .HiresMono ∧ ((retime (decode regs)).1).cx = 0x12c ∧
      ((retime (decode regs)).1).bpp = 0 ∧ ((retime (decode regs)).1).hires = 1) ∨
    (classify (decode regs) ≠ .HiresMono ∧
      ((retime (decode regs)).1).cx = sub32 (decode regs).hdsr 6 ∧
      ((retime (decode regs)).1).bpp = (decode regs).bpp ∧ ((retime (decode regs)).1).hires = 0) := by
  unfold retime
  cases hcl : classify (decode regs) with
  | HiresMono => exact Or.inl ⟨rfl, rfl, rfl, rfl⟩
  | DirectVga => exact Or.inr ⟨by simp, rfl, rfl, rfl⟩
  | Unsupported => exact Or.inr ⟨by simp, rfl, rfl, rfl⟩
  | YDoubled =>
    refine Or.inr ⟨by simp, ?_⟩
    show (retime_ydouble (decode regs)).1.cx = _ ∧ (retime_ydouble (decode regs)).1.bpp = _ ∧
      (retime_ydouble (decode regs)).1.hires = 0
    unfold retime_ydouble
    split <;> exact ⟨rfl, rfl, rfl⟩
  | XYDoubled =>
    refine Or.inr ⟨by simp, ?_⟩
    show (retime_xydouble (decode regs)).1.cx = _ ∧
      (retime_xydouble (decode regs)).1.bpp = _ ∧
      (retime_xydouble (decode regs)).1.hires = 0
    unfold retime_xydouble
    split <;> exact ⟨rfl, rfl, rfl⟩

/-- A cursor offset below `2^28` ORed with a hires flag and a bpp field of at most
7 is their sum: the three fields do not overlap. -/
theorem ctrl_pack (cx h b : Nat) (hcx : cx < 268435456) (hh : h ≤ 1) (hb : b ≤ 7) :
    (cx ||| (if h ≠ 0 then 0x80000000 else 0)) ||| shl32 b 28 =
      268435456 * (8 * h + b) + cx := by
  have e : ∀ a : Nat, 268435456 * a + cx = 268435456 * a ||| cx := fun a =>
    Nat.mul_add_lt_is_or (show cx < 2 ^ 28 by norm_num; exact hcx) a
  rw [e, Nat.or_assoc, Nat.or_comm cx, Nat.or_assoc, ← Nat.or_assoc]
  congr 1
  interval_cases h <;> interval_cases b <;> decide

/-- The store to the control register is the last of the ten stores. -/
theorem output_writes_ctrl (l : ProbeVars) :
    (output_writes l).lookup VIDO_REG_CTRL = some (ctrl_word l) := by
  simp [output_writes, ctrl_word, List.lookup, VIDO_REG_RES_X, VIDO_REG_HS_FP,
    VIDO_REG_HS_WIDTH, VIDO_REG_HS_BP, VIDO_REG_RES_Y, VIDO_REG_VS_FP, VIDO_REG_VS_WIDTH,
    VIDO_REG_VS_BP, VIDO_REG_WPLM1, VIDO_REG_CTRL]

theorem and1_eq (a : Nat) : a &&& 1 = a % 2 :=
  Nat.and_one_is_mod a

theorem and7_eq (a : Nat) : a &&& 7 = a % 8 := by
  have h := Nat.and_pow_two_sub_one_eq_mod a 3
  simpa using h

theorem and7ff_eq (a : Nat) : a &&& 0x7ff = a % 2048 := by
  have h := Nat.and_pow_two_sub_one_eq_mod a 11
  simpa using h

theorem shr28_eq (a : Nat) : a >>> 28 = a / 268435456 := by
  rw [Nat.shiftRight_eq_div_pow]

theorem shr31_eq (a : Nat) : a >>> 31 = a / 2147483648 := by
  rw [Nat.shiftRight_eq_div_pow]

/-- C13 (amended): for every snapshot that is classified HiresMono, or whose
decoded `hdsr` lies in 6..2053 (so that `hdsr - 6` neither wraps nor exceeds
`0x7ff`), and whose 32-bit frame-rate divisor `hcr * vcr` is not zero (so that the
call gets past the division of line 226 and holds the locals `retime` gives), the
word `video_probe_mode` stores to the control register has bit 31
equal to the hires flag, bits 30:28 equal to the output `bpp`, bits 10:0 equal to
the cursor offset and nothing in between; the cursor offset is `0x12c` in hires and
`hdsr - 6` otherwise, and lies in 0..0x7ff. -/
theorem ctrl_word_fields (regs : Nat → Nat)
    (h : classify (decode regs) = .HiresMono ∨
      (6 ≤ (decode regs).hdsr ∧ (decode regs).hdsr ≤ 2053))
    (hq : mul32 (decode regs).hcr (decode regs).vcr ≠ 0) :
    probe_timing regs = some (retime (decode regs)).1 ∧
    (probe_writes regs).lookup VIDO_REG_CTRL = some (ctrl_word ((retime (decode regs)).1)) ∧
    (ctrl_word ((retime (decode regs)).1) >>> 31) &&& 1 = ((retime (decode regs)).1).hires ∧
    (ctrl_word ((retime (decode regs)).1) >>> 28) &&& 7 = ((retime (decode regs)).1).bpp ∧
    ctrl_word ((retime (decode regs)).1) &&& 0x7ff = ((retime (decode regs)).1).cx ∧
    ctrl_word ((retime (decode regs)).1) =
      2147483648 * ((retime (decode regs)).1).hires + 268435456 * ((retime (decode regs)).1).bpp
        + ((retime (decode regs)).1).cx ∧
    ((retime (decode regs)).1).cx ≤ 0x7ff ∧ ((retime (decode regs)).1).bpp ≤ 3 ∧
    ((retime (decode regs)).1).hires ≤ 1 ∧
    ((classify (decode regs) = .HiresMono ∧ ((retime (decode regs)).1).cx = 0x12c) ∨
      (classify (decode regs) ≠ .HiresMono ∧
        ((retime (decode regs)).1).cx = (decode regs).hdsr - 6)) := by
  have hb := decode_bpp_le regs
  have hf : ((retime (decode regs)).1).cx ≤ 2047 ∧ ((retime (decode regs)).1).bpp ≤ 3 ∧
      ((retime (decode regs)).1).hires ≤ 1 ∧
      ((classify (decode regs) = .HiresMono ∧ ((retime (decode regs)).1).cx = 0x12c) ∨
        (classify (decode regs) ≠ .HiresMono ∧
          ((retime (decode regs)).1).cx = (decode regs).hdsr - 6)) := by
    rcases probe_ctrl_fields regs with ⟨hc, e1, e2, e3⟩ | ⟨hc, e1, e2, e3⟩
    · rw [e1, e2, e3]
      exact ⟨by norm_num, by norm_num, by norm_num, Or.inl ⟨hc, rfl⟩⟩
    · have hr : 6 ≤ (decode regs).hdsr ∧ (decode regs).hdsr ≤ 2053 := by
        rcases h with h | h
        · exact absurd h hc
        · exact h
      have e4 : sub32 (decode regs).hdsr 6 = (decode regs).hdsr - 6 := by
        unfold sub32
        omega
      rw [e1, e2, e3, e4]
      exact ⟨by omega, hb, by norm_num, Or.inr ⟨hc, rfl⟩⟩
  have hp := ctrl_pack ((retime (decode regs)).1).cx ((retime (decode regs)).1).hires ((retime (decode regs)).1).bpp
    (by omega) hf.2.2.1 (by omega)
  have hw : ctrl_word ((retime (decode regs)).1) =
      268435456 * (8 * ((retime (decode regs)).1).hires + ((retime (decode regs)).1).bpp)
        + ((retime (decode regs)).1).cx := hp
  refine ⟨probe_timing_some regs hq, by rw [probe_writes_some regs hq]; exact output_writes_ctrl _,
    ?_, ?_, ?_, ?_, hf.1, hf.2.1, hf.2.2.1, hf.2.2.2⟩
  · rw [shr31_eq, and1_eq, hw]
    omega
  · rw [shr28_eq, and7_eq, hw]
    omega
  · rw [and7ff_eq, hw]
    omega
  · rw [hw]
    omega

/-- C13, witness: the 640x480 mode (`hdsr = 141`, 8bpp) stores `0x30000087`, and the
hires 160 x 400 timing stores `0x8000012c`. -/
theorem ctrl_word_fields_witness :
    ((decode snapVga).hdsr = 141 ∧
      mul32 (decode snapVga).hcr (decode snapVga).vcr ≠ 0 ∧
      (probe_timing snapVga).map ctrl_word = some 0x30000087 ∧
      (probe_writes snapVga).lookup VIDO_REG_CTRL =
        some (ctrl_word (retime (decode snapVga)).1)) ∧
    ((probe_timing snapHires400).map ctrl_word = some 0x8000012c ∧
      (ctrl_word (retime (decode snapHires400)).1 >>> 31) &&& 1 =
        (retime (decode snapHires400)).1.hires) :=
  ⟨⟨by decide, by decide, by decide,
    (ctrl_word_fields snapVga (Or.inr (by decide)) (by decide)).2.1⟩,
   ⟨by decide, (ctrl_word_fields snapHires400 (Or.inl (by decide)) (by decide)).2.2.1⟩⟩

/-- C13, counterexample: with all timing registers zero and 8bpp selected, `hdsr` is
5, `hdsr - 6` wraps to `0xffffffff` and the control word stored is `0xffffffff`: bit
31 is set although the hires flag is 0, and bits 30:28 read 7 although `bpp` is 3.
With `hdsr = 2059` the cursor offset is 2053, above `0x7ff`, and bits 10:0 of the
word read 5.  Neither snapshot has a zero frame-rate divisor. -/
theorem ctrl_word_fields_counterexample :
    ((decode snapBlank8bpp).hdsr = 5 ∧
      mul32 (decode snapBlank8bpp).hcr (decode snapBlank8bpp).vcr ≠ 0 ∧
      (probe_timing snapBlank8bpp).map ProbeVars.cx = some 4294967295 ∧
      (probe_timing snapBlank8bpp).map ProbeVars.hires = some 0 ∧
      (probe_timing snapBlank8bpp).map ProbeVars.bpp = some 3 ∧
      (probe_writes snapBlank8bpp).lookup VIDO_REG_CTRL = some 4294967295 ∧
      (4294967295 >>> 31) &&& 1 = 1 ∧ (4294967295 >>> 28) &&& 7 = 7) ∧
    ((decode snapLateStart).hdsr = 2059 ∧
      mul32 (decode snapLateStart).hcr (decode snapLateStart).vcr ≠ 0 ∧
      (probe_timing snapLateStart).map ProbeVars.cx = some 2053 ∧
      ¬ (2053 ≤ 0x7ff) ∧
      (probe_writes snapLateStart).lookup VIDO_REG_CTRL = some 2053 ∧
      2053 &&& 0x7ff = 5) := by
  decide

/-- In every branch the words-per-line value stored is the one computed from the
decoded `xres` and `bpp`: the hires branch recomputes it as `(4*xres)/32 - 1` with the
decoded `bpp` equal to 2, the XY-doubling branch before it doubles `xres`. -/
theorem probe_wpl (regs : Nat → Nat) :
    ((retime (decode regs)).1).wpl =
      sub32 ((decode regs).xres / (32 >>> (decode regs).bpp)) 1 := by
  cases hcl : classify (decode regs) with
  | HiresMono =>
    have hh := (classify_hires_iff _).mp hcl
    have hyl := decode_yres_lt regs
    have hxr := decode_xres_range regs
    have e3 : mul32 (decode regs).xres 4 = 4 * (decode regs).xres := by
      rw [mul32_of_lt _ 4 (by omega)]
      omega
    rw [probe_timing_hires regs hcl, hh.2.1]
    show sub32 (mul32 (decode regs).xres 4 / 32) 1 = sub32 ((decode regs).xres / (32 >>> 2)) 1
    rw [e3]
    congr 1
    show 4 * (decode regs).xres / 32 = (decode regs).xres / 8
    omega
  | DirectVga => simp [retime_directVga _ hcl]; rfl
  | Unsupported => simp [retime_unsupported _ hcl]; rfl
  | YDoubled =>
    rw [retime_yDoubled _ hcl]
    unfold retime_ydouble
    split <;> rfl
  | XYDoubled =>
    rw [retime_xyDoubled _ hcl]
    unfold retime_xydouble
    split <;> rfl

/-- The store to the words-per-line register. -/
theorem output_writes_wpl (l : ProbeVars) :
    (output_writes l).lookup VIDO_REG_WPLM1 = some l.wpl := by
  simp [output_writes, List.lookup, VIDO_REG_RES_X, VIDO_REG_HS_FP,
    VIDO_REG_HS_WIDTH, VIDO_REG_HS_BP, VIDO_REG_RES_Y, VIDO_REG_VS_FP, VIDO_REG_VS_WIDTH,
    VIDO_REG_VS_BP, VIDO_REG_WPLM1, VIDO_REG_CTRL]

/-- C14 (amended): for every snapshot whose decoded `xres` is at least one word
(`32 >> bpp` pixels) and less than 257 words, and whose 32-bit frame-rate divisor
`hcr * vcr` is not zero (so that the call gets past the division of line 226 and
holds the locals `retime` gives), the words-per-line-minus-1 value that
`video_probe_mode` stores is `xres/(32 >> bpp) - 1` and lies in 0..255. -/
theorem wpl_fits_field (regs : Nat → Nat)
    (hlo : 32 >>> (decode regs).bpp ≤ (decode regs).xres)
    (hhi : (decode regs).xres < 257 * (32 >>> (decode regs).bpp))
    (hq : mul32 (decode regs).hcr (decode regs).vcr ≠ 0) :
    probe_timing regs = some (retime (decode regs)).1 ∧
    (probe_writes regs).lookup VIDO_REG_WPLM1 = some ((retime (decode regs)).1).wpl ∧
    ((retime (decode regs)).1).wpl = (decode regs).xres / (32 >>> (decode regs).bpp) - 1 ∧
    ((retime (decode regs)).1).wpl ≤ 255 := by
  have hb := decode_bpp_le regs
  have hd : 4 ≤ 32 >>> (decode regs).bpp := by
    generalize (decode regs).bpp = b at hb
    interval_cases b <;> decide
  have hq1 : 1 ≤ (decode regs).xres / (32 >>> (decode regs).bpp) :=
    (Nat.one_le_div_iff (by omega)).mpr hlo
  have hq2 : (decode regs).xres / (32 >>> (decode regs).bpp) < 257 :=
    (Nat.div_lt_iff_lt_mul (by omega)).mpr hhi
  have e : sub32 ((decode regs).xres / (32 >>> (decode regs).bpp)) 1 =
      (decode regs).xres / (32 >>> (decode regs).bpp) - 1 := by
    generalize (decode regs).xres / (32 >>> (decode regs).bpp) = q at hq1 hq2
    unfold sub32
    omega
  refine ⟨probe_timing_some regs hq,
    by rw [probe_writes_some regs hq]; exact output_writes_wpl _, ?_, ?_⟩
  · rw [probe_wpl, e]
  · rw [probe_wpl, e]
    omega

/-- C14, witness: the 640x480 mode at 8bpp stores 159, and 1024 pixels at 8bpp
would be the last width that fits. -/
theorem wpl_fits_field_witness :
    (decode snapVga).xres = 640 ∧ (decode snapVga).bpp = 3 ∧
    mul32 (decode snapVga).hcr (decode snapVga).vcr ≠ 0 ∧
    (probe_timing snapVga).map ProbeVars.wpl = some 159 ∧
    (probe_writes snapVga).lookup VIDO_REG_WPLM1 = some (retime (decode snapVga)).1.wpl :=
  ⟨by decide, by decide, by decide, by decide,
   (wpl_fits_field snapVga (by decide) (by decide) (by decide)).2.1⟩

/-- C14, counterexample: a 16-pixel line at 1bpp is less than one word, and
`16/32 - 1` wraps to `0xffffffff`; a 1280-pixel line at 8bpp is 320 words, and 319
is stored.  Neither value is in 0..255, and neither snapshot has a zero frame-rate
divisor. -/
theorem wpl_fits_field_counterexample :
    ((decode snapSliver).xres = 16 ∧ (decode snapSliver).bpp = 0 ∧
      mul32 (decode snapSliver).hcr (decode snapSliver).vcr ≠ 0 ∧
      (probe_writes snapSliver).lookup VIDO_REG_WPLM1 = some 4294967295) ∧
    ((decode snapWide8bpp).xres = 1280 ∧ (decode snapWide8bpp).bpp = 3 ∧
      mul32 (decode snapWide8bpp).hcr (decode snapWide8bpp).vcr ≠ 0 ∧
      (probe_writes snapWide8bpp).lookup VIDO_REG_WPLM1 = some 319) ∧
    ¬ (4294967295 ≤ 255) ∧ ¬ (319 ≤ 255) := by
  decide

/-- C15: the 640 x 250 mode at 16MHz with line period 880 is classified YDoubled and
passes the feasibility check (`new_total_width = 660 >= 640 + 640/32`), yet
`xres + new_total_width/20 + new_total_width/40 = 689` exceeds 660, and the back
porch `video_probe_mode` stores is `660 - 640 - 33 - 16` wrapped below zero.  The
frame-rate divisor of this mode is `880 * 312`, not zero, so the call reaches the
branch. -/
theorem ydouble_back_porch_wraps :
    classify (decode snapYSkimpy) = .YDoubled ∧
    (decode snapYSkimpy).pix_rate = 16 ∧ (decode snapYSkimpy).xres = 640 ∧
    new_total_width (decode snapYSkimpy) = 660 ∧
    (decode snapYSkimpy).xres + (decode snapYSkimpy).xres / 32 ≤
      new_total_width (decode snapYSkimpy) ∧
    cant_line_double (decode snapYSkimpy) = false ∧
    mul32 (decode snapYSkimpy).hcr (decode snapYSkimpy).vcr = 880 * 312 ∧
    (probe_timing snapYSkimpy).map ProbeVars.dy = some 1 ∧
    (probe_timing snapYSkimpy).map ProbeVars.xfp = some 33 ∧
    (probe_timing snapYSkimpy).map ProbeVars.xsw = some 16 ∧
    ¬ ((decode snapYSkimpy).xres + new_total_width (decode snapYSkimpy) / 20
        + new_total_width (decode snapYSkimpy) / 40 ≤
      new_total_width (decode snapYSkimpy)) ∧
    (probe_timing snapYSkimpy).map ProbeVars.xbp = some 4294967267 ∧
    (probe_writes snapYSkimpy).lookup VIDO_REG_HS_BP = some 4294967267 := by
  decide

/-! ## The sync register: bits -/

/-- The test `x & 2^k` of the source reads bit `k`. -/
theorem and_two_pow_ne_zero (s k : Nat) : decide (s &&& 2 ^ k ≠ 0) = s.testBit k := by
  by_cases h : s.testBit k = true
  · have h1 : (s &&& 2 ^ k).testBit k = true := by
      rw [Nat.testBit_and, h, Nat.testBit_two_pow_self]
      rfl
    have h2 : s &&& 2 ^ k ≠ 0 := by
      intro e
      rw [e, Nat.zero_testBit] at h1
      exact Bool.false_ne_true h1
    rw [h]
    exact decide_eq_true h2
  · have hf : s.testBit k = false := by simpa using h
    have h1 : s &&& 2 ^ k = 0 := by
      apply Nat.eq_of_testBit_eq
      intro i
      rw [Nat.testBit_and, Nat.zero_testBit, Nat.testBit_two_pow]
      by_cases hi : k = i
      · subst hi
        rw [hf]
        rfl
      · simp [hi]
    rw [hf, h1]
    rfl

/-- Toggling with `2^k` flips bit `k` and no other. -/
theorem testBit_xor_two_pow (s k i : Nat) :
    (s ^^^ 2 ^ k).testBit i = (if i = k then !s.testBit i else s.testBit i) := by
  rw [Nat.testBit_xor, Nat.testBit_two_pow]
  by_cases hi : i = k
  · subst hi
    simp
  · have hk : ¬ k = i := fun e => hi e.symm
    simp [hi, hk]

/-- The test of `video_sync` compares bit 0 (request) with bit 1 (ack). -/
theorem sync_acked_bits (s : Nat) : sync_acked s = (s.testBit 0 == s.testBit 1) := by
  unfold sync_acked
  rw [Nat.and_one_is_mod, Nat.and_one_is_mod, Nat.testBit_zero,
    Nat.testBit_to_div_mod, Nat.shiftRight_eq_div_pow, Nat.pow_one]
  rcases Nat.mod_two_eq_zero_or_one s with h0 | h0 <;>
    rcases Nat.mod_two_eq_zero_or_one (s / 2) with h1 | h1 <;>
    simp [h0, h1]

/-- The test of `vidc_config_poll` compares bit 3 (status) with bit 2 (ack). -/
theorem timing_changed_bits (s : Nat) :
    timing_changed s = (s.testBit 3 != s.testBit 2) := by
  unfold timing_changed
  rw [show (8 : Nat) = 2 ^ 3 from rfl, show (4 : Nat) = 2 ^ 2 from rfl,
    and_two_pow_ne_zero, and_two_pow_ne_zero]

theorem sync_read_lt (sync : Nat → Nat) (i : Nat) : sync_read sync i < 4294967296 :=
  Nat.mod_lt _ (by norm_num)

/-! ## The polling loop of `video_sync` -/

/-- If none of the next `t` polling reads shows request equal to ack, the loop
entered with counter `t >= 1` makes exactly `t` more reads and times out. -/
theorem sync_poll_timeout (sync : Nat → Nat) (n : Nat) :
    ∀ (t k : Nat), 1 ≤ t →
      (∀ j, k ≤ j → j < k + t → sync_acked (sync_read sync (n + j)) = false) →
      sync_poll sync n t k = (k + t, sync_read sync (n + (k + t - 1)), .timeout) := by
  intro t
  induction t with
  | zero => intro k h; omega
  | succ t ih =>
    intro k _ hno
    have h0 : sync_acked (sync_read sync (n + k)) = false := hno k (le_refl k) (by omega)
    unfold sync_poll
    rw [h0]
    by_cases ht : t > 0
    · simp only [Bool.false_eq_true, if_false, ht, if_true]
      rw [ih (k + 1) (by omega) (fun j hj1 hj2 => hno j (by omega) (by omega))]
      have e1 : k + 1 + t = k + (t + 1) := by omega
      rw [e1]
    · have e : t = 0 := by omega
      subst e
      simp

/-- If the polling read `m` places on (with `m` less than the counter) is the first
to show request equal to ack, the loop returns there. -/
theorem sync_poll_found (sync : Nat → Nat) (n : Nat) :
    ∀ (t k m : Nat), m < t →
      (∀ j, k ≤ j → j < k + m → sync_acked (sync_read sync (n + j)) = false) →
      sync_acked (sync_read sync (n + (k + m))) = true →
      sync_poll sync n t k = (k + m + 1, sync_read sync (n + (k + m)), .synchronised) := by
  intro t
  induction t with
  | zero => intro k m h; omega
  | succ t ih =>
    intro k m hm hno hyes
    unfold sync_poll
    cases m with
    | zero =>
      have hy : sync_acked (sync_read sync (n + k)) = true := hyes
      rw [hy]
      simp
    | succ m =>
      have h0 : sync_acked (sync_read sync (n + k)) = false :=
        hno k (le_refl k) (by omega)
      have ht : t > 0 := by omega
      rw [h0]
      simp only [Bool.false_eq_true, if_false, ht, if_true]
      have e : k + 1 + m = k + (m + 1) := by omega
      rw [ih (k + 1) m (by omega) (fun j hj1 hj2 => hno j (by omega) (by omega))
        (by rw [e]; exact hyes), e]

/-- The record `video_sync` returns, with the polling loop left folded. -/
theorem video_sync_eq (sync : Nat → Nat) (n : Nat) :
    video_sync sync n =
      { writes := [(VIDO_REG_SYNC, sync_read sync n ^^^ 1)],
        polls := (sync_poll sync (n + 1) 10000000 0).1,
        last := (sync_poll sync (n + 1) 10000000 0).2.1,
        outcome := (sync_poll sync (n + 1) 10000000 0).2.2 } :=
  rfl

theorem video_sync_writes (sync : Nat → Nat) (n : Nat) :
    (video_sync sync n).writes = [(VIDO_REG_SYNC, sync_read sync n ^^^ 1)] := by
  rw [video_sync_eq]

/-- C16: if none of the first 10,000,000 values polled after the store shows
SYNC_REQUEST equal to SYNC_ACK, `video_sync` ends with the timeout message after
exactly 10,000,000 polling reads (the read before the store not counted), and its
only store is the one that toggled the request. -/
theorem video_sync_timeout (sync : Nat → Nat) (n : Nat)
    (h : ∀ j, 1 ≤ j → j ≤ 10000000 → sync_acked (sync_read sync (n + j)) = false) :
    (video_sync sync n).outcome = .timeout ∧
    (video_sync sync n).polls = 10000000 ∧
    (video_sync sync n).last = sync_read sync (n + 10000000) ∧
    (video_sync sync n).writes = [(VIDO_REG_SYNC, sync_read sync n ^^^ 1)] := by
  have hp := sync_poll_timeout sync (n + 1) 10000000 0 (by norm_num)
    (fun j _ hj => by
      have e : n + 1 + j = n + (j + 1) := by omega
      rw [e]
      exact h (j + 1) (by omega) (by omega))
  have e : n + 1 + (0 + 10000000 - 1) = n + 10000000 := by omega
  have hv := video_sync_eq sync n
  have ho : (video_sync sync n).outcome = .timeout := by rw [hv, hp]
  have hq : (video_sync sync n).polls = 0 + 10000000 := by rw [hv, hp]
  have hl : (video_sync sync n).last = sync_read sync (n + 1 + (0 + 10000000 - 1)) := by
    rw [hv, hp]
  exact ⟨ho, by rw [hq], hl.trans (congrArg (sync_read sync) e), video_sync_writes sync n⟩

/-- C16, witness: a register that always reads 1 (request set, ack clear). -/
theorem video_sync_timeout_witness :
    (video_sync (fun _ => 1) 0).outcome = .timeout ∧
    (video_sync (fun _ => 1) 0).polls = 10000000 ∧
    (video_sync (fun _ => 1) 0).writes = [(8, 0)] :=
  ⟨(video_sync_timeout (fun _ => 1) 0 (fun _ _ _ => by show sync_acked (1 % 4294967296) = false; decide)).1,
   (video_sync_timeout (fun _ => 1) 0 (fun _ _ _ => by show sync_acked (1 % 4294967296) = false; decide)).2.1,
   (video_sync_timeout (fun _ => 1) 0 (fun _ _ _ => by show sync_acked (1 % 4294967296) = false; decide)).2.2.2⟩

/-- C17: if the `k`-th polling read, `1 <= k <= 10000000`, is the first in which bit 0
equals bit 1, `video_sync` returns from inside the loop ("Synchronised") after
exactly `k` polling reads, with that value as the last one read, and does not time
out.  Nothing is assumed about the value read before the store. -/
theorem video_sync_synchronised (sync : Nat → Nat) (n k : Nat)
    (hk1 : 1 ≤ k) (hk2 : k ≤ 10000000)
    (hfirst : ∀ j, 1 ≤ j → j < k → sync_acked (sync_read sync (n + j)) = false)
    (hk : sync_acked (sync_read sync (n + k)) = true) :
    (video_sync sync n).outcome = .synchronised ∧
    (video_sync sync n).outcome ≠ .timeout ∧
    (video_sync sync n).polls = k ∧
    (video_sync sync n).last = sync_read sync (n + k) ∧
    (sync_read sync (n + k)).testBit 0 = (sync_read sync (n + k)).testBit 1 := by
  have e0 : n + 1 + (0 + (k - 1)) = n + k := by omega
  have hp := sync_poll_found sync (n + 1) 10000000 0 (k - 1) (by omega)
    (fun j _ hj => by
      have e : n + 1 + j = n + (j + 1) := by omega
      rw [e]
      exact hfirst (j + 1) (by omega) (by omega))
    (by rw [e0]; exact hk)
  have hb : (sync_read sync (n + k)).testBit 0 = (sync_read sync (n + k)).testBit 1 := by
    have h2 := hk
    rw [sync_acked_bits] at h2
    exact eq_of_beq h2
  have hv := video_sync_eq sync n
  have ho : (video_sync sync n).outcome = .synchronised := by rw [hv, hp]
  have hq : (video_sync sync n).polls = 0 + (k - 1) + 1 := by rw [hv, hp]
  have hl : (video_sync sync n).last = sync_read sync (n + 1 + (0 + (k - 1))) := by
    rw [hv, hp]
  refine ⟨ho, ?_, ?_, ?_, hb⟩
  · rw [ho]
    exact fun e => SyncOutcome.noConfusion e
  · rw [hq]
    omega
  · exact hl.trans (congrArg (sync_read sync) e0)

/-- C17, witness: the register reads 0 (request equal to ack), then 1, 1 and 3;
the third polling read is the first with bit 0 equal to bit 1. -/
theorem video_sync_synchronised_witness :
    sync_acked (sync_read (sync_of_list [0, 1, 1, 3] 3) 0) = true ∧
    (video_sync (sync_of_list [0, 1, 1, 3] 3) 0).outcome = .synchronised ∧
    (video_sync (sync_of_list [0, 1, 1, 3] 3) 0).polls = 3 :=
  ⟨by decide,
   (video_sync_synchronised (sync_of_list [0, 1, 1, 3] 3) 0 3 (by decide) (by decide)
      (fun j h1 h2 => by interval_cases j <;> decide) (by decide)).1,
   (video_sync_synchronised (sync_of_list [0, 1, 1, 3] 3) 0 3 (by decide) (by decide)
      (fun j h1 h2 => by interval_cases j <;> decide) (by decide)).2.2.1⟩

/-- C18: whatever the register does, `video_sync` makes exactly one store, to the
sync register, of the value it first read with bit 0 toggled: bit 0 of the value
stored is the negation of the bit read, and every bit from 1 up (SYNC_ACK,
TIMING_ACK and TIMING_STATUS among them) is stored as read. -/
theorem video_sync_single_write (sync : Nat → Nat) (n : Nat) :
    (video_sync sync n).writes = [(VIDO_REG_SYNC, sync_read sync n ^^^ 1)] ∧
    (video_sync sync n).writes.length = 1 ∧
    (∀ w ∈ (video_sync sync n).writes, w.1 = VIDO_REG_SYNC) ∧
    (sync_read sync n ^^^ 1).testBit 0 = !(sync_read sync n).testBit 0 ∧
    (∀ i, 1 ≤ i → (sync_read sync n ^^^ 1).testBit i = (sync_read sync n).testBit i) ∧
    sync_read sync n ^^^ 1 < 4294967296 := by
  have hw := video_sync_writes sync n
  have hx := testBit_xor_two_pow (sync_read sync n) 0
  rw [Nat.pow_zero] at hx
  refine ⟨hw, by rw [hw]; rfl, ?_, ?_, ?_, ?_⟩
  · intro w hin
    rw [hw] at hin
    rw [List.mem_singleton.mp hin]
  · rw [hx 0]
    simp
  · intro i hi
    rw [hx i, if_neg (by omega)]
  · exact Nat.xor_lt_two_pow (show sync_read sync n < 2 ^ 32 from sync_read_lt sync n)
      (by norm_num)

/-! ## `vidc_config_poll` and the probe it starts -/

/-- The flyback loop returns as soon as a read shows the level it waits for, if one
does within the fuel. -/
theorem wait_flybk_finds (sync : Nat → Nat) (level : Bool) :
    ∀ (fuel i a : Nat), i ≤ a → a < i + fuel →
      decide (sync_read sync a &&& 0x10 ≠ 0) = level →
      ∃ j, wait_flybk sync level fuel i = some j ∧ i < j ∧ j ≤ a + 1 := by
  intro fuel
  induction fuel with
  | zero => intro i a h1 h2; omega
  | succ fuel ih =>
    intro i a h1 h2 hl
    unfold wait_flybk
    by_cases hi : decide (sync_read sync i &&& 0x10 ≠ 0) = level
    · rw [if_pos hi]
      exact ⟨i + 1, rfl, by omega, by omega⟩
    · rw [if_neg hi]
      have hne : i ≠ a := by
        intro e
        rw [e] at hi
        exact hi hl
      obtain ⟨j, hj, h3, h4⟩ := ih (i + 1) a (by omega) (by omega) hl
      exact ⟨j, hj, by omega, h4⟩

/-- If the flyback bit reads 1 at read `a` and 0 at a later read `b`, both within the
fuel, `video_wait_flybk` returns. -/
theorem video_wait_flybk_returns (sync : Nat → Nat) (fuel i a b : Nat)
    (ha : i ≤ a) (hab : a < b) (hfuel : b < i + fuel)
    (hhigh : sync_read sync a &&& 0x10 ≠ 0) (hlow : sync_read sync b &&& 0x10 = 0) :
    ∃ j, video_wait_flybk sync fuel i = some j ∧ i + 2 ≤ j ∧ j ≤ b + 1 := by
  obtain ⟨j1, e1, h1, h2⟩ := wait_flybk_finds sync true fuel i a ha (by omega)
    (decide_eq_true hhigh)
  obtain ⟨j2, e2, h3, h4⟩ := wait_flybk_finds sync false fuel j1 b (by omega) (by omega)
    (by simp [hlow])
  refine ⟨j2, ?_, by omega, h4⟩
  unfold video_wait_flybk
  rw [e1]
  exact e2

/-- The stores of a probe that returns: the ten output registers, then the one
store of `video_sync`.  It returns when the flyback wait ends and the divisor of
line 226 is not zero. -/
theorem video_probe_mode_returns (regs sync : Nat → Nat) (fuel i j : Nat)
    (h : video_wait_flybk sync fuel i = some j)
    (hq : mul32 (decode regs).hcr (decode regs).vcr ≠ 0) :
    (video_probe_mode regs sync fuel i).finished = true ∧
    (video_probe_mode regs sync fuel i).writes =
      probe_writes regs ++ [(VIDO_REG_SYNC, sync_read sync j ^^^ 1)] := by
  unfold video_probe_mode
  rw [h, probe_writes_some regs hq, probe_timing_some regs hq]
  refine ⟨rfl, ?_⟩
  show output_writes (retime (decode regs)).1 ++ (video_sync sync j).writes = _
  rw [video_sync_writes]

/-- The record of a probe whose flyback wait ends at read `j`. -/
theorem video_probe_mode_eq (regs sync : Nat → Nat) (fuel i j : Nat)
    (h : video_wait_flybk sync fuel i = some j)
    (hq : mul32 (decode regs).hcr (decode regs).vcr ≠ 0) :
    video_probe_mode regs sync fuel i =
      { writes := probe_writes regs ++ (video_sync sync j).writes,
        finished := true,
        next := j + 1 + (video_sync sync j).polls,
        probes := 1,
        commit := some (video_sync sync j).outcome } := by
  unfold video_probe_mode
  rw [h, probe_writes_some regs hq, probe_timing_some regs hq]

/-- The record `vidc_config_poll` returns when it detects a change. -/
theorem vidc_config_poll_changed (flag : Nat) (regs sync : Nat → Nat) (fuel i : Nat)
    (hc : timing_changed (sync_read sync i) = true) :
    (vidc_config_poll flag regs sync fuel i).writes =
      (VIDO_REG_SYNC, sync_read sync i ^^^ 4) ::
        (if flag ≠ 0 then (video_probe_mode regs sync fuel (i + 1)).writes else []) ∧
    (vidc_config_poll flag regs sync fuel i).probes = (if flag ≠ 0 then 1 else 0) ∧
    (vidc_config_poll flag regs sync fuel i).finished =
      (if flag ≠ 0 then (video_probe_mode regs sync fuel (i + 1)).finished else true) := by
  unfold vidc_config_poll
  simp only [hc, if_true]
  by_cases hf : flag ≠ 0
  · simp only [hf, if_true, ne_eq, not_false_eq_true]
    refine ⟨trivial, ?_, trivial⟩
    unfold video_probe_mode
    split
    · rfl
    · split <;> rfl
  · simp only [hf, if_false]
    exact ⟨trivial, trivial, trivial⟩

/-- The record `vidc_config_poll` returns when status equals ack. -/
theorem vidc_config_poll_idle (flag : Nat) (regs sync : Nat → Nat) (fuel i : Nat)
    (hc : timing_changed (sync_read sync i) = false) :
    vidc_config_poll flag regs sync fuel i =
      { writes := [], finished := true, next := i + 1, probes := 0, commit := none } := by
  unfold vidc_config_poll
  simp [hc]

/-- C19: `vidc_config_poll` fires exactly when bit 3 (TIMING_STATUS) differs from bit 2
(TIMING_ACK) in the value it reads.  When they are equal it stores nothing, starts no
probe and returns after its one read.  When they differ its first store is the value
read with bit 2 toggled, to the sync register (followed by the stores of the probe
when `flag_autoprobe_mode` is set): in the value stored bit 2 equals bit 3, and every
bit other than bit 2, SYNC_REQUEST and SYNC_ACK among them, is as read. -/
theorem config_poll_fires (flag : Nat) (regs sync : Nat → Nat) (fuel i : Nat) :
    timing_changed (sync_read sync i) =
      ((sync_read sync i).testBit 3 != (sync_read sync i).testBit 2) ∧
    ((vidc_config_poll flag regs sync fuel i).writes ≠ [] ↔
      (sync_read sync i).testBit 3 ≠ (sync_read sync i).testBit 2) ∧
    (((sync_read sync i).testBit 3 = (sync_read sync i).testBit 2 ∧
        (vidc_config_poll flag regs sync fuel i).writes = [] ∧
        (vidc_config_poll flag regs sync fuel i).probes = 0 ∧
        (vidc_config_poll flag regs sync fuel i).finished = true ∧
        (vidc_config_poll flag regs sync fuel i).next = i + 1) ∨
      ((sync_read sync i).testBit 3 ≠ (sync_read sync i).testBit 2 ∧
        (vidc_config_poll flag regs sync fuel i).writes =
          (VIDO_REG_SYNC, sync_read sync i ^^^ 4) ::
            (if flag ≠ 0 then (video_probe_mode regs sync fuel (i + 1)).writes else []) ∧
        (sync_read sync i ^^^ 4).testBit 2 = (sync_read sync i ^^^ 4).testBit 3 ∧
        (sync_read sync i ^^^ 4).testBit 2 = !(sync_read sync i).testBit 2 ∧
        (sync_read sync i ^^^ 4).testBit 0 = (sync_read sync i).testBit 0 ∧
        (sync_read sync i ^^^ 4).testBit 1 = (sync_read sync i).testBit 1 ∧
        (∀ b, b ≠ 2 → (sync_read sync i ^^^ 4).testBit b = (sync_read sync i).testBit b))) := by
  have hb := timing_changed_bits (sync_read sync i)
  have hx : ∀ b, (sync_read sync i ^^^ 4).testBit b =
      (if b = 2 then !(sync_read sync i).testBit b else (sync_read sync i).testBit b) :=
    fun b => testBit_xor_two_pow (sync_read sync i) 2 b
  cases hc : timing_changed (sync_read sync i) with
  | false =>
    have heq : (sync_read sync i).testBit 3 = (sync_read sync i).testBit 2 := by
      rw [hc] at hb
      cases h3 : (sync_read sync i).testBit 3 <;>
        cases h2 : (sync_read sync i).testBit 2 <;> simp [h3, h2] at hb ⊢
    have hr := vidc_config_poll_idle flag regs sync fuel i hc
    refine ⟨?_, ?_, Or.inl ⟨heq, ?_, ?_, ?_, ?_⟩⟩
    · rw [heq]; simp
    · rw [hr]; simp [heq]
    · rw [hr]
    · rw [hr]
    · rw [hr]
    · rw [hr]
  | true =>
    have hne : (sync_read sync i).testBit 3 ≠ (sync_read sync i).testBit 2 := by
      rw [hc] at hb
      cases h3 : (sync_read sync i).testBit 3 <;>
        cases h2 : (sync_read sync i).testBit 2 <;> simp [h3, h2] at hb ⊢
    have hr := (vidc_config_poll_changed flag regs sync fuel i hc).1
    refine ⟨?_, ?_, Or.inr ⟨hne, hr, ?_, ?_, ?_, ?_, ?_⟩⟩
    · cases h3 : (sync_read sync i).testBit 3 <;>
        cases h2 : (sync_read sync i).testBit 2 <;> simp [h3, h2] at hne ⊢
    · rw [hr]; simp [hne]
    · rw [hx 2, hx 3]
      cases h3 : (sync_read sync i).testBit 3 <;>
        cases h2 : (sync_read sync i).testBit 2 <;> simp [h3, h2] at hne ⊢
    · rw [hx 2]; simp
    · rw [hx 0]; simp
    · rw [hx 1]; simp
    · intro b hb2
      rw [hx b, if_neg hb2]

theorem probe_writes_length (regs : Nat → Nat)
    (hq : mul32 (decode regs).hcr (decode regs).vcr ≠ 0) :
    (probe_writes regs).length = 10 := by
  simp [probe_writes_some regs hq, output_writes]

/-- C20 (amended): when a timing change is detected and `flag_autoprobe_mode` is set,
the store that toggles TIMING_ACK is the first store of the `vidc_config_poll` call:
it comes before the probe, whose ten output-timing stores and commit store follow it
in that order.  The call returns, with exactly these twelve stores, whenever the
flyback bit reads 1 and later 0 (enough fuel for the two wait loops) and the 32-bit
frame-rate divisor `hcr * vcr` of the snapshot is not zero, so that the probe gets
past the division of line 226. -/
theorem ack_flip_precedes_probe (flag : Nat) (regs sync : Nat → Nat) (fuel i a b : Nat)
    (hc : timing_changed (sync_read sync i) = true) (hf : flag ≠ 0)
    (ha : i < a) (hab : a < b) (hfuel : b ≤ i + fuel)
    (hhigh : sync_read sync a &&& 0x10 ≠ 0) (hlow : sync_read sync b &&& 0x10 = 0)
    (hq : mul32 (decode regs).hcr (decode regs).vcr ≠ 0) :
    (vidc_config_poll flag regs sync fuel i).finished = true ∧
    (vidc_config_poll flag regs sync fuel i).writes.head? =
      some (VIDO_REG_SYNC, sync_read sync i ^^^ 4) ∧
    (∃ j, i + 3 ≤ j ∧ j ≤ b + 1 ∧
      (vidc_config_poll flag regs sync fuel i).writes =
        (VIDO_REG_SYNC, sync_read sync i ^^^ 4) ::
          (probe_writes regs ++ [(VIDO_REG_SYNC, sync_read sync j ^^^ 1)])) ∧
    (probe_writes regs).length = 10 ∧
    (vidc_config_poll flag regs sync fuel i).writes.length = 12 := by
  obtain ⟨j, hj, h1, h2⟩ := video_wait_flybk_returns sync fuel (i + 1) a b (by omega) hab
    (by omega) hhigh hlow
  have hp := video_probe_mode_returns regs sync fuel (i + 1) j hj hq
  have hr := vidc_config_poll_changed flag regs sync fuel i hc
  rw [if_pos hf, hp.2] at hr
  have hfin : (vidc_config_poll flag regs sync fuel i).finished = true := by
    rw [hr.2.2, if_pos hf, hp.1]
  refine ⟨hfin, ?_, ⟨j, by omega, h2, hr.1⟩, probe_writes_length regs hq, ?_⟩
  · rw [hr.1]
    rfl
  · rw [hr.1]
    simp [probe_writes_length regs hq]

/-- C20, witness: the register reads 8 (status set, ack clear), then `0x1c` (flyback),
`0xc`, `0xc` and `0xf`; the probe of the 640x480 mode returns and the call has made
twelve stores. -/
theorem ack_flip_precedes_probe_witness :
    (vidc_config_poll 1 snapVga (sync_of_list [8, 0x1c, 0xc, 0xc, 0xf] 0xf) 10 0).finished
      = true ∧
    (vidc_config_poll 1 snapVga (sync_of_list [8, 0x1c, 0xc, 0xc, 0xf] 0xf) 10 0).writes.head?
      = some (8, 12) :=
  ⟨(ack_flip_precedes_probe 1 snapVga (sync_of_list [8, 0x1c, 0xc, 0xc, 0xf] 0xf) 10 0 1 2
      (by decide) (by decide) (by decide) (by decide) (by decide) (by decide) (by decide)
      (by decide)).1,
   (ack_flip_precedes_probe 1 snapVga (sync_of_list [8, 0x1c, 0xc, 0xc, 0xf] 0xf) 10 0 1 2
      (by decide) (by decide) (by decide) (by decide) (by decide) (by decide) (by decide)
      (by decide)).2.1⟩

/-- C20, counterexample: in that call the first store is `(VIDO_REG_SYNC, 12)`, the
value read with TIMING_ACK toggled; the ten output-timing stores and the commit
store `(VIDO_REG_SYNC, 13)` come after it, not before. -/
theorem ack_flip_after_probe_counterexample :
    timing_changed (sync_read (sync_of_list [8, 0x1c, 0xc, 0xc, 0xf] 0xf) 0) = true ∧
    8 ^^^ 4 = 12 ∧
    (vidc_config_poll 1 snapVga (sync_of_list [8, 0x1c, 0xc, 0xc, 0xf] 0xf) 10 0).writes =
      [(8, 12), (0, 640), (1, 19), (2, 96), (3, 45), (4, 480), (5, 11), (6, 2), (7, 32),
       (9, 159), (10, 805306503), (8, 13)] ∧
    (vidc_config_poll 1 snapVga (sync_of_list [8, 0x1c, 0xc, 0xc, 0xf] 0xf) 10 0).commit =
      some .synchronised := by
  decide

/-! ## `video_setmode` -/

theorem setmode_vars_none (mode : Int) (h : mode ∉ accepted_modes) :
    setmode_vars mode = none := by
  simp only [accepted_modes, List.mem_cons, List.mem_singleton, List.mem_nil_iff,
    not_or, or_false] at h
  obtain ⟨h23, h25, h26, h27, h28, h21, h20, h19, h18, h0, h8, h12, h15, h4, h1, h9,
    h13, hcc⟩ := h
  simp [setmode_vars, h23, h25, h26, h27, h28, h21, h20, h19, h18, h0, h8, h12, h15, h4,
    h1, h9, h13, hcc]

theorem setmode_vars_some (mode : Int) (hm : mode ∈ accepted_modes) :
    (setmode_vars mode).isSome = true := by
  revert mode
  decide

theorem accepted_modes_sorted (mode : Int) :
    mode ∈ accepted_modes ↔
      mode ∈ ([0, 1, 4, 8, 9, 12, 13, 15, 18, 19, 20, 21, 23, 25, 26, 27, 28, 0xcc] :
        List Int) := by
  simp only [accepted_modes, List.mem_cons, List.mem_singleton, List.mem_nil_iff, or_false]
  omega

theorem setmode_writes_regs (v : ModeVars) :
    (setmode_writes v).map Prod.fst = [0, 1, 2, 3, 4, 5, 6, 7, 9, 10] := by
  rfl

theorem output_writes_regs (l : ProbeVars) :
    (output_writes l).map Prod.fst = [0, 1, 2, 3, 4, 5, 6, 7, 9, 10] := by
  rfl

/-- The run of `video_setmode` for a mode the switch knows. -/
theorem video_setmode_some (mode : Int) (v : ModeVars) (sync : Nat → Nat) (n : Nat)
    (h : setmode_vars mode = some v) :
    (video_setmode mode sync n).writes =
      setmode_writes v ++ [(VIDO_REG_SYNC, sync_read sync n ^^^ 1)] ∧
    (video_setmode mode sync n).commit = some (video_sync sync n).outcome ∧
    (video_setmode mode sync n).finished = true := by
  unfold video_setmode
  rw [h]
  refine ⟨?_, rfl, rfl⟩
  show setmode_writes v ++ (video_sync sync n).writes = _
  rw [video_sync_writes]

/-- The run of `video_setmode` for a mode the switch does not know. -/
theorem video_setmode_none (mode : Int) (sync : Nat → Nat) (n : Nat)
    (h : setmode_vars mode = none) :
    video_setmode mode sync n =
      { writes := [], finished := true, next := n, probes := 0, commit := none } := by
  unfold video_setmode
  rw [h]

/-- C21: a call of `video_probe_mode` that returns, and a call of `video_setmode` with
a mode it knows, store to the output registers 0-7, 9 and 10 once each, in that
order, and then make the one store to the sync register (offset 8), the value read
with SYNC_REQUEST toggled; nothing is stored to the sync register before the ten.
A probe that has not returned (still waiting for flyback, or stopped at the division
of line 226) has stored nothing. -/
theorem ten_writes_then_sync (regs sync : Nat → Nat) (fuel i : Nat) (mode : Int) (n : Nat) :
    (((video_probe_mode regs sync fuel i).finished = false ∧
        (video_probe_mode regs sync fuel i).writes = []) ∨
      ((video_probe_mode regs sync fuel i).finished = true ∧
        (video_probe_mode regs sync fuel i).writes.map Prod.fst =
          [0, 1, 2, 3, 4, 5, 6, 7, 9, 10, 8] ∧
        ∃ j, (video_probe_mode regs sync fuel i).writes =
          probe_writes regs ++ [(VIDO_REG_SYNC, sync_read sync j ^^^ 1)])) ∧
    (mode ∉ accepted_modes ∨
      ((video_setmode mode sync n).writes.map Prod.fst =
          [0, 1, 2, 3, 4, 5, 6, 7, 9, 10, 8] ∧
        ∃ v ∈ setmode_vars mode, (video_setmode mode sync n).writes =
          setmode_writes v ++ [(VIDO_REG_SYNC, sync_read sync n ^^^ 1)])) := by
  constructor
  · cases hw : video_wait_flybk sync fuel i with
    | none =>
      left
      unfold video_probe_mode
      rw [hw]
      exact ⟨rfl, rfl⟩
    | some j =>
      by_cases hq : mul32 (decode regs).hcr (decode regs).vcr = 0
      · left
        have h := video_probe_mode_faults regs sync fuel i hq
        exact ⟨h.1, h.2.1⟩
      · right
        have hp := video_probe_mode_returns regs sync fuel i j hw hq
        refine ⟨hp.1, ?_, j, hp.2⟩
        rw [hp.2, List.map_append, probe_writes_some regs hq]
        show (output_writes (retime (decode regs)).1).map Prod.fst ++ [8] = _
        rw [output_writes_regs]
        rfl
  · by_cases hm : mode ∈ accepted_modes
    · right
      cases hv : setmode_vars mode with
      | none =>
        have h := setmode_vars_some mode hm
        rw [hv] at h
        exact absurd h (by decide)
      | some v =>
        have hs := video_setmode_some mode v sync n hv
        refine ⟨?_, v, rfl, hs.1⟩
        rw [hs.1, List.map_append, setmode_writes_regs]
        rfl
    · exact Or.inl hm

/-- C21, witness: a probe of the 640x480 mode that returns after flyback, and
`video_setmode 23`. -/
theorem ten_writes_then_sync_witness :
    (video_probe_mode snapVga (sync_of_list [0x1c, 0xc, 0xc, 0xf] 0xf) 10 0).finished = true ∧
    (video_probe_mode snapVga (sync_of_list [0x1c, 0xc, 0xc, 0xf] 0xf) 10 0).writes =
      [(0, 640), (1, 19), (2, 96), (3, 45), (4, 480), (5, 11), (6, 2), (7, 32), (9, 159),
       (10, 805306503), (8, 13)] ∧
    (video_setmode 23 (sync_of_list [0, 1, 3] 3) 0).writes =
      [(0, 1152), (1, 40), (2, 20), (3, 62), (4, 896), (5, 4), (6, 3), (7, 47), (9, 35),
       (10, 2147483948), (8, 1)] ∧
    (23 : Int) ∈ accepted_modes ∧
    ((23 : Int) ∉ accepted_modes ∨
      ((video_setmode 23 (sync_of_list [0, 1, 3] 3) 0).writes.map Prod.fst =
          [0, 1, 2, 3, 4, 5, 6, 7, 9, 10, 8] ∧
        ∃ v ∈ setmode_vars 23, (video_setmode 23 (sync_of_list [0, 1, 3] 3) 0).writes =
          setmode_writes v ++
            [(VIDO_REG_SYNC, sync_read (sync_of_list [0, 1, 3] 3) 0 ^^^ 1)])) :=
  ⟨by decide, by decide, by decide, by decide,
   (ten_writes_then_sync snapVga (sync_of_list [0, 1, 3] 3) 10 0 23 0).2⟩

/-- C22: `video_setmode` knows exactly the modes 0, 1, 4, 8, 9, 12, 13, 15, 18, 19,
20, 21, 23, 25, 26, 27, 28 and 0xcc.  For every other number it makes no store and
does not call `video_sync`; for each of these it stores the ten timing registers once
each and calls `video_sync` once, which makes the only store to the sync register. -/
theorem setmode_accepts (mode : Int) (sync : Nat → Nat) (n : Nat) :
    ((setmode_vars mode).isSome = true ↔
      mode ∈ ([0, 1, 4, 8, 9, 12, 13, 15, 18, 19, 20, 21, 23, 25, 26, 27, 28, 0xcc] :
        List Int)) ∧
    ((mode ∉ ([0, 1, 4, 8, 9, 12, 13, 15, 18, 19, 20, 21, 23, 25, 26, 27, 28, 0xcc] :
          List Int) ∧
        (video_setmode mode sync n).writes = [] ∧
        (video_setmode mode sync n).commit = none ∧
        (video_setmode mode sync n).next = n) ∨
      (mode ∈ ([0, 1, 4, 8, 9, 12, 13, 15, 18, 19, 20, 21, 23, 25, 26, 27, 28, 0xcc] :
          List Int) ∧
        (∃ v ∈ setmode_vars mode, (video_setmode mode sync n).writes =
          setmode_writes v ++ [(VIDO_REG_SYNC, sync_read sync n ^^^ 1)]) ∧
        (video_setmode mode sync n).writes.map Prod.fst =
          [0, 1, 2, 3, 4, 5, 6, 7, 9, 10, 8] ∧
        (video_setmode mode sync n).writes.length = 11 ∧
        (video_setmode mode sync n).commit = some (video_sync sync n).outcome)) := by
  rw [← accepted_modes_sorted]
  by_cases hm : mode ∈ accepted_modes
  · have hsome := setmode_vars_some mode hm
    refine ⟨⟨fun _ => hm, fun _ => hsome⟩, Or.inr ⟨hm, ?_⟩⟩
    cases hv : setmode_vars mode with
    | none =>
      rw [hv] at hsome
      exact absurd hsome (by decide)
    | some v =>
      have hs := video_setmode_some mode v sync n hv
      have hr : (video_setmode mode sync n).writes.map Prod.fst =
          [0, 1, 2, 3, 4, 5, 6, 7, 9, 10, 8] := by
        rw [hs.1, List.map_append, setmode_writes_regs]
        rfl
      refine ⟨⟨v, rfl, hs.1⟩, hr, ?_, hs.2.1⟩
      rw [← List.length_map (video_setmode mode sync n).writes Prod.fst, hr]
      rfl
  · have hnone := setmode_vars_none mode hm
    have hr := video_setmode_none mode sync n hnone
    refine ⟨⟨fun h => ?_, fun h => absurd h hm⟩, Or.inl ⟨hm, ?_, ?_, ?_⟩⟩
    · rw [hnone] at h
      exact absurd h (by decide)
    · rw [hr]
    · rw [hr]
    · rw [hr]

/-- C23: for every mode `video_setmode` knows, the back-porch subtractions do not
wrap and the four parts add up to the total written in the source: horizontally 1274
for mode 23, 800 for modes 25-28, 896 for modes 18-21 and 768 for the others;
vertically 950, 525, 534 and 624. -/
theorem setmode_partition (mode : Int) (hm : mode ∈ accepted_modes) :
    ∃ v ∈ setmode_vars mode,
      ((mode = 23 ∧
          v.xres + v.xfp + v.xwidth ≤ 1274 ∧ v.xbp = 1274 - v.xres - v.xfp - v.xwidth ∧
          v.xres + v.xfp + v.xwidth + v.xbp = 1274 ∧
          v.yres + v.yfp + v.ywidth ≤ 950 ∧ v.ybp = 950 - v.yres - v.yfp - v.ywidth ∧
          v.yres + v.yfp + v.ywidth + v.ybp = 950) ∨
        (25 ≤ mode ∧ mode ≤ 28 ∧
          v.xres + v.xfp + v.xwidth ≤ 800 ∧ v.xbp = 800 - v.xres - v.xfp - v.xwidth ∧
          v.xres + v.xfp + v.xwidth + v.xbp = 800 ∧
          v.yres + v.yfp + v.ywidth ≤ 525 ∧ v.ybp = 525 - v.yres - v.yfp - v.ywidth ∧
          v.yres + v.yfp + v.ywidth + v.ybp = 525) ∨
        (18 ≤ mode ∧ mode ≤ 21 ∧
          v.xres + v.xfp + v.xwidth ≤ 896 ∧ v.xbp = 896 - v.xres - v.xfp - v.xwidth ∧
          v.xres + v.xfp + v.xwidth + v.xbp = 896 ∧
          v.yres + v.yfp + v.ywidth ≤ 534 ∧ v.ybp = 534 - v.yres - v.yfp - v.ywidth ∧
          v.yres + v.yfp + v.ywidth + v.ybp = 534) ∨
        (mode ∈ ([0, 8, 12, 15, 4, 1, 9, 13, 0xcc] : List Int) ∧
          v.xres + v.xfp + v.xwidth ≤ 768 ∧ v.xbp = 768 - v.xres - v.xfp - v.xwidth ∧
          v.xres + v.xfp + v.xwidth + v.xbp = 768 ∧
          v.yres + v.yfp + v.ywidth ≤ 624 ∧ v.ybp = 624 - v.yres - v.yfp - v.ywidth ∧
          v.yres + v.yfp + v.ywidth + v.ybp = 624)) := by
  revert mode
  decide

/-- C23, witness: mode 23 is 1152 + 40 + 20 + 62 by 896 + 4 + 3 + 47. -/
theorem setmode_partition_witness :
    (setmode_vars 23).map (fun v => (v.xres, v.xfp, v.xwidth, v.xbp)) =
      some (1152, 40, 20, 62) ∧
    (setmode_vars 23).map (fun v => (v.yres, v.yfp, v.ywidth, v.ybp)) =
      some (896, 4, 3, 47) ∧
    ∃ v ∈ setmode_vars 23,
      v.xres + v.xfp + v.xwidth + v.xbp = 1274 ∧ v.yres + v.yfp + v.ywidth + v.ybp = 950 := by
  refine ⟨by decide, by decide, ?_⟩
  obtain ⟨v, hv, h⟩ := setmode_partition 23 (by decide)
  rcases h with h | h | h | h
  · exact ⟨v, hv, h.2.2.2.1, h.2.2.2.2.2.2⟩
  · exact absurd h.1 (by decide)
  · exact absurd h.2.1 (by decide)
  · exact absurd h.1 (by decide)

/-- C24: for every mode `video_setmode` knows, each value stored fits its field: the
eight geometry values are below `2^11`, `wpl` is at most 255 (it is
`640/(32 >> bpp) - 1`, `320/(32 >> bpp) - 1` or 35), the cursor offset is at most
`0x7ff`, `bpp` at most 4, and the three packed words are the field plus the flag in
bit 31 (and, for the control word, `bpp` in bits 30:28). -/
theorem setmode_fields_fit (mode : Int) (hm : mode ∈ accepted_modes) :
    ∃ v ∈ setmode_vars mode,
      (v.xres < 2048 ∧ v.xfp < 2048 ∧ v.xwidth < 2048 ∧ v.xbp < 2048 ∧
        v.yres < 2048 ∧ v.yfp < 2048 ∧ v.ywidth < 2048 ∧ v.ybp < 2048) ∧
      v.wpl ≤ 255 ∧
      (v.wpl = 640 / (32 >>> v.bpp) - 1 ∨ v.wpl = 320 / (32 >>> v.bpp) - 1 ∨ v.wpl = 35) ∧
      v.cx ≤ 0x7ff ∧ v.bpp ≤ 4 ∧ v.hires ≤ 1 ∧ v.dx ≤ 1 ∧ v.dy ≤ 1 ∧
      (∃ w ∈ (setmode_writes v).lookup VIDO_REG_RES_X,
        w = 2147483648 * v.dx + v.xres ∧ w &&& 0x7ff = v.xres ∧ w >>> 31 = v.dx ∧
        (w >>> 11) &&& 0xfffff = 0) ∧
      (∃ w ∈ (setmode_writes v).lookup VIDO_REG_RES_Y,
        w = 2147483648 * v.dy + v.yres ∧ w &&& 0x7ff = v.yres ∧ w >>> 31 = v.dy ∧
        (w >>> 11) &&& 0xfffff = 0) ∧
      (∃ w ∈ (setmode_writes v).lookup VIDO_REG_CTRL,
        w = 2147483648 * v.hires + 268435456 * v.bpp + v.cx ∧ w &&& 0x7ff = v.cx ∧
        (w >>> 28) &&& 7 = v.bpp ∧ w >>> 31 = v.hires ∧ (w >>> 11) &&& 0x1ffff = 0) ∧
      (setmode_writes v).lookup VIDO_REG_WPLM1 = some v.wpl ∧
      (setmode_writes v).lookup VIDO_REG_HS_FP = some v.xfp ∧
      (setmode_writes v).lookup VIDO_REG_HS_WIDTH = some v.xwidth ∧
      (setmode_writes v).lookup VIDO_REG_HS_BP = some v.xbp ∧
      (setmode_writes v).lookup VIDO_REG_VS_FP = some v.yfp ∧
      (setmode_writes v).lookup VIDO_REG_VS_WIDTH = some v.ywidth ∧
      (setmode_writes v).lookup VIDO_REG_VS_BP = some v.ybp := by
  revert mode
  decide

/-- C24, witness: mode 0xcc (bpp 4) stores `wpl = 159` and the control word
`0x40000068`. -/
theorem setmode_fields_fit_witness :
    (setmode_vars 0xcc).map (fun v => (v.bpp, v.wpl, v.cx)) = some (4, 159, 0x68) ∧
    ((setmode_vars 0xcc).map setmode_writes).map (fun ws => ws.lookup VIDO_REG_CTRL) =
      some (some 0x40000068) ∧
    ∃ v ∈ setmode_vars 0xcc, v.wpl ≤ 255 ∧ v.bpp ≤ 4 := by
  refine ⟨by decide, by decide, ?_⟩
  obtain ⟨v, hv, h⟩ := setmode_fields_fit 0xcc (by decide)
  exact ⟨v, hv, h.2.1, h.2.2.2.2.1⟩

/-! ## `video_set_cursor_x` -/

/-- The bits of the mask `~0x7ff`, as a `uint32_t`: bits 11 to 31. -/
theorem testBit_mask_hi (i : Nat) :
    (0xfffff800 : Nat).testBit i = (decide (11 ≤ i) && decide (i < 32)) := by
  have e : (0xfffff800 : Nat) = (2 ^ 21 - 1) <<< 11 := by decide
  rw [e, Nat.testBit_shiftLeft, Nat.testBit_two_pow_sub_one]
  by_cases h1 : 11 ≤ i
  · by_cases h2 : i < 32
    · have h3 : i - 11 < 21 := by omega
      simp [h1, h2, h3]
    · have h3 : ¬ i - 11 < 21 := by omega
      simp [h1, h2, h3]
  · simp [h1]

/-- The bits of the mask `0x7ff`: bits 0 to 10. -/
theorem testBit_mask_lo (i : Nat) : (0x7ff : Nat).testBit i = decide (i < 11) := by
  have e : (0x7ff : Nat) = 2 ^ 11 - 1 := by decide
  rw [e, Nat.testBit_two_pow_sub_one]

/-- Bit by bit, the word `video_set_cursor_x` stores is the offset in bits 10:0 and
the control register as read in every other bit. -/
theorem cursor_x_word_bits (c o : Nat) (hc : c < 4294967296) (i : Nat) :
    (cursor_x_word c o).testBit i = (if i < 11 then o.testBit i else c.testBit i) := by
  unfold cursor_x_word
  rw [Nat.testBit_or, Nat.testBit_and, Nat.testBit_and, testBit_mask_hi, testBit_mask_lo]
  by_cases h1 : i < 11
  · have h2 : ¬ 11 ≤ i := by omega
    simp [h1, h2]
  · have h2 : 11 ≤ i := by omega
    by_cases h3 : i < 32
    · simp [h1, h2, h3]
    · have h4 : c.testBit i = false := by
        apply Nat.testBit_lt_two_pow
        calc c < 2 ^ 32 := hc
          _ ≤ 2 ^ i := Nat.pow_le_pow_right (by norm_num) (by omega)
      simp [h1, h3, h4]

theorem cursor_x_word_lt (c o : Nat) (hc : c < 4294967296) :
    cursor_x_word c o < 4294967296 := by
  unfold cursor_x_word
  apply Nat.or_lt_two_pow (n := 32)
  · exact Nat.lt_of_le_of_lt Nat.and_le_left hc
  · exact Nat.lt_of_le_of_lt Nat.and_le_right (by norm_num)

/-- Storing the same offset into the word just stored changes nothing. -/
theorem cursor_x_word_idem (c o : Nat) (hc : c < 4294967296) :
    cursor_x_word (cursor_x_word c o) o = cursor_x_word c o := by
  apply Nat.eq_of_testBit_eq
  intro i
  rw [cursor_x_word_bits _ o (cursor_x_word_lt c o hc) i, cursor_x_word_bits c o hc i]
  by_cases h : i < 11 <;> simp [h]

theorem set_cursor_x_ctrl (vr : Nat → Nat) (o : Nat) :
    (video_set_cursor_x vr o).1 VIDO_REG_CTRL =
      cursor_x_word (vr VIDO_REG_CTRL % 4294967296) o := by
  simp [video_set_cursor_x]

theorem set_cursor_x_other (vr : Nat → Nat) (o r : Nat) (hr : r ≠ VIDO_REG_CTRL) :
    (video_set_cursor_x vr o).1 r = vr r := by
  simp [video_set_cursor_x, hr]

/-- C25: for every prior value `c` of the control register and every argument `o`,
`video_set_cursor_x` stores to the control register, and to no other register, the
word whose bits 10:0 are those of `o` (that is `o mod 2048`) and whose bits 31:11,
the bpp field and the hires bit among them, are those of `c`; the sync register is not
touched; a second call with the same `o` leaves the register file as the first
left it. -/
theorem set_cursor_x_effect (vr : Nat → Nat) (o : Nat) :
    (video_set_cursor_x vr o).2 =
      [(VIDO_REG_CTRL, cursor_x_word (vr VIDO_REG_CTRL % 4294967296) o)] ∧
    (video_set_cursor_x vr o).1 VIDO_REG_CTRL =
      cursor_x_word (vr VIDO_REG_CTRL % 4294967296) o ∧
    (∀ r, r ≠ VIDO_REG_CTRL → (video_set_cursor_x vr o).1 r = vr r) ∧
    (video_set_cursor_x vr o).1 VIDO_REG_SYNC = vr VIDO_REG_SYNC ∧
    (∀ i, (cursor_x_word (vr VIDO_REG_CTRL % 4294967296) o).testBit i =
      (if i < 11 then o.testBit i else (vr VIDO_REG_CTRL % 4294967296).testBit i)) ∧
    cursor_x_word (vr VIDO_REG_CTRL % 4294967296) o &&& 0x7ff = o % 2048 ∧
    cursor_x_word (vr VIDO_REG_CTRL % 4294967296) o >>> 11 =
      (vr VIDO_REG_CTRL % 4294967296) >>> 11 ∧
    cursor_x_word (vr VIDO_REG_CTRL % 4294967296) o < 4294967296 ∧
    (video_set_cursor_x (video_set_cursor_x vr o).1 o).1 = (video_set_cursor_x vr o).1 := by
  have hc : vr VIDO_REG_CTRL % 4294967296 < 4294967296 := Nat.mod_lt _ (by norm_num)
  have hb := cursor_x_word_bits (vr VIDO_REG_CTRL % 4294967296) o hc
  have hlt := cursor_x_word_lt (vr VIDO_REG_CTRL % 4294967296) o hc
  refine ⟨rfl, set_cursor_x_ctrl vr o, fun r hr => set_cursor_x_other vr o r hr,
    set_cursor_x_other vr o VIDO_REG_SYNC (by decide), hb, ?_, ?_, hlt, ?_⟩
  · rw [and7ff_eq]
    apply Nat.eq_of_testBit_eq
    intro i
    have e : (2048 : Nat) = 2 ^ 11 := by decide
    rw [e, Nat.testBit_mod_two_pow, Nat.testBit_mod_two_pow, hb i]
    by_cases h : i < 11 <;> simp [h]
  · apply Nat.eq_of_testBit_eq
    intro i
    rw [Nat.testBit_shiftRight, Nat.testBit_shiftRight, hb (11 + i), if_neg (by omega)]
  · funext r
    by_cases hr : r = VIDO_REG_CTRL
    · rw [hr, set_cursor_x_ctrl, set_cursor_x_ctrl, Nat.mod_eq_of_lt hlt,
        cursor_x_word_idem _ o hc]
    · rw [set_cursor_x_other _ o r hr]

/-! ## Termination of the probe -/

/-- The polling loop entered with counter `t >= 1` makes at least one and at most
`t` reads. -/
theorem sync_poll_bound (sync : Nat → Nat) (n : Nat) :
    ∀ (t k : Nat), 1 ≤ t →
      k < (sync_poll sync n t k).1 ∧ (sync_poll sync n t k).1 ≤ k + t := by
  intro t
  induction t with
  | zero => intro k h; omega
  | succ t ih =>
    intro k _
    unfold sync_poll
    by_cases h0 : sync_acked (sync_read sync (n + k)) = true
    · rw [if_pos h0]
      exact ⟨by show k < k + 1; omega, by show k + 1 ≤ k + (t + 1); omega⟩
    · rw [if_neg h0]
      by_cases ht : t > 0
      · rw [if_pos ht]
        have h := ih (k + 1) (by omega)
        exact ⟨by omega, by omega⟩
      · rw [if_neg ht]
        exact ⟨by show k < k + 1; omega, by show k + 1 ≤ k + (t + 1); omega⟩

theorem video_sync_polls_le (sync : Nat → Nat) (n : Nat) :
    1 ≤ (video_sync sync n).polls ∧ (video_sync sync n).polls ≤ 10000000 := by
  have h := sync_poll_bound sync (n + 1) 10000000 0 (by norm_num)
  rw [video_sync_eq]
  show 1 ≤ (sync_poll sync (n + 1) 10000000 0).1 ∧
    (sync_poll sync (n + 1) 10000000 0).1 ≤ 10000000
  omega

/-- A flyback loop whose level never shows does not return, whatever the fuel. -/
theorem wait_flybk_never (sync : Nat → Nat) (level : Bool)
    (h : ∀ j, decide (sync_read sync j &&& 0x10 ≠ 0) ≠ level) :
    ∀ (fuel i : Nat), wait_flybk sync level fuel i = none := by
  intro fuel
  induction fuel with
  | zero => intro i; rfl
  | succ fuel ih =>
    intro i
    unfold wait_flybk
    rw [if_neg (h i)]
    exact ih (i + 1)

/-- C26 (amended): `video_probe_mode` returns whenever the flyback bit reads 1 at some
read of the sync register and 0 at a later one (the model's fuel covering both) and
the 32-bit frame-rate divisor `hcr * vcr` of the snapshot is not zero.  After the read
that showed the 0 it then makes the nine `vidc_reg` reads of the decode, the read of
`video_sync` and at most 10,000,000 polling reads.  The flyback wait itself has no
bound. -/
theorem probe_returns_after_flyback (regs sync : Nat → Nat) (fuel i a b : Nat)
    (ha : i ≤ a) (hab : a < b) (hfuel : b < i + fuel)
    (hhigh : sync_read sync a &&& 0x10 ≠ 0) (hlow : sync_read sync b &&& 0x10 = 0)
    (hq : mul32 (decode regs).hcr (decode regs).vcr ≠ 0) :
    (video_probe_mode regs sync fuel i).finished = true ∧
    i + 4 ≤ (video_probe_mode regs sync fuel i).next ∧
    (video_probe_mode regs sync fuel i).next ≤ b + 2 + 10000000 ∧
    probe_reads i (video_probe_mode regs sync fuel i) ≤ (b + 1 - i) + 9 + 1 + 10000000 ∧
    probe_source_regs.length = 9 ∧
    (video_probe_mode regs sync fuel i).commit.isSome = true := by
  obtain ⟨j, hj, h1, h2⟩ := video_wait_flybk_returns sync fuel i a b ha hab hfuel hhigh hlow
  have hp := video_sync_polls_le sync j
  rw [video_probe_mode_eq regs sync fuel i j hj hq]
  refine ⟨rfl, ?_, ?_, ?_, rfl, rfl⟩
  · show i + 4 ≤ j + 1 + (video_sync sync j).polls
    omega
  · show j + 1 + (video_sync sync j).polls ≤ b + 2 + 10000000
    omega
  · show j + 1 + (video_sync sync j).polls - i + 9 ≤ (b + 1 - i) + 9 + 1 + 10000000
    omega

/-- C26, witness: flyback reads 1 at the first read and 0 at the second; the probe of
the 640x480 mode returns after four reads of the sync register and nine source
register reads. -/
theorem probe_returns_after_flyback_witness :
    (video_probe_mode snapVga (sync_of_list [0x1c, 0xc, 0xc, 0xf] 0xf) 10 0).finished = true ∧
    (video_probe_mode snapVga (sync_of_list [0x1c, 0xc, 0xc, 0xf] 0xf) 10 0).next = 4 ∧
    probe_reads 0 (video_probe_mode snapVga (sync_of_list [0x1c, 0xc, 0xc, 0xf] 0xf) 10 0)
      = 13 :=
  ⟨(probe_returns_after_flyback snapVga (sync_of_list [0x1c, 0xc, 0xc, 0xf] 0xf) 10 0 0 1
      (by decide) (by decide) (by decide) (by decide) (by decide) (by decide)).1,
   by decide, by decide⟩

/-- C26, counterexample: when every read of the sync register returns 0 the flyback
bit never changes, and `video_probe_mode` is still in its first wait loop after any
number of reads: no amount of fuel lets it return, and it has stored nothing. -/
theorem probe_never_returns_counterexample :
    (video_probe_mode snapVga (fun _ => 0) 1000 0).finished = false ∧
    (¬ ∃ fuel, (video_probe_mode snapVga (fun _ => 0) fuel 0).finished = true) ∧
    (¬ ∃ fuel, (video_probe_mode snapVga (fun _ => 0) fuel 0).writes ≠ []) := by
  have hz : ∀ j : Nat, decide (sync_read (fun _ => 0) j &&& 0x10 ≠ 0) ≠ true := by
    intro j
    show decide ((0 : Nat) % 4294967296 &&& 0x10 ≠ 0) ≠ true
    decide
  have hn : ∀ fuel, video_wait_flybk (fun _ => 0) fuel 0 = none := by
    intro fuel
    unfold video_wait_flybk
    rw [wait_flybk_never (fun _ => 0) true hz fuel 0]
    rfl
  have hr : ∀ fuel, video_probe_mode snapVga (fun _ => 0) fuel 0 =
      { writes := [], finished := false, next := 0, probes := 1, commit := none } := by
    intro fuel
    unfold video_probe_mode
    rw [hn fuel]
  refine ⟨by rw [hr], ?_, ?_⟩
  · rintro ⟨fuel, h⟩
    rw [hr fuel] at h
    exact absurd h (by decide)
  · rintro ⟨fuel, h⟩
    rw [hr fuel] at h
    exact h rfl

/-! ## What the stored timing depends on -/

/-- The decoder reads nine source registers and nothing else. -/
theorem decode_congr (regs1 regs2 : Nat → Nat)
    (h : ∀ r ∈ [VIDC_H_CYC, VIDC_H_SYNC, VIDC_H_DISP_START, VIDC_H_DISP_END, VIDC_V_CYC,
      VIDC_V_SYNC, VIDC_V_DISP_START, VIDC_V_DISP_END, VIDC_CONTROL],
      vidc_reg regs1 r = vidc_reg regs2 r) :
    decode regs1 = decode regs2 := by
  have e1 := h VIDC_H_CYC (by simp)
  have e2 := h VIDC_H_SYNC (by simp)
  have e3 := h VIDC_H_DISP_START (by simp)
  have e4 := h VIDC_H_DISP_END (by simp)
  have e5 := h VIDC_V_CYC (by simp)
  have e6 := h VIDC_V_SYNC (by simp)
  have e7 := h VIDC_V_DISP_START (by simp)
  have e8 := h VIDC_V_DISP_END (by simp)
  have e9 := h VIDC_CONTROL (by simp)
  unfold decode
  rw [e1, e2, e3, e4, e5, e6, e7, e8, e9]

/-- The ten stores of a probe go to the timing registers, none to the sync register. -/
theorem output_writes_filter (l : ProbeVars) :
    (output_writes l).filter (fun w => w.1 != VIDO_REG_SYNC) = output_writes l := by
  simp [output_writes, VIDO_REG_RES_X, VIDO_REG_HS_FP, VIDO_REG_HS_WIDTH, VIDO_REG_HS_BP,
    VIDO_REG_RES_Y, VIDO_REG_VS_FP, VIDO_REG_VS_WIDTH, VIDO_REG_VS_BP, VIDO_REG_WPLM1,
    VIDO_REG_CTRL, VIDO_REG_SYNC]

/-- A poll in which a probe was entered saw a timing change with the flag set. -/
theorem vidc_config_poll_probed (flag : Nat) (regs sync : Nat → Nat) (fuel i : Nat)
    (hp : (vidc_config_poll flag regs sync fuel i).probes = 1) :
    timing_changed (sync_read sync i) = true ∧ flag ≠ 0 := by
  cases hc : timing_changed (sync_read sync i) with
  | false =>
    rw [vidc_config_poll_idle flag regs sync fuel i hc] at hp
    exact absurd hp Nat.zero_ne_one
  | true =>
    refine ⟨rfl, fun hf => ?_⟩
    have h := (vidc_config_poll_changed flag regs sync fuel i hc).2.1
    rw [hp, if_neg (by simpa using hf)] at h
    exact absurd h (by decide)

/-- The stores of a poll whose probe got past the flyback wait: the ack flip, then the
stores of the probe, which are the ten timing stores and the commit store, or none
when the probe stops at the division of line 226. -/
theorem vidc_config_poll_stores (flag : Nat) (regs sync : Nat → Nat) (fuel i j : Nat)
    (hp : (vidc_config_poll flag regs sync fuel i).probes = 1)
    (hw : video_wait_flybk sync fuel (i + 1) = some j) :
    (vidc_config_poll flag regs sync fuel i).writes =
      (VIDO_REG_SYNC, sync_read sync i ^^^ 4) ::
        (if mul32 (decode regs).hcr (decode regs).vcr = 0 then []
          else output_writes (retime (decode regs)).1 ++
            [(VIDO_REG_SYNC, sync_read sync j ^^^ 1)]) := by
  obtain ⟨hc, hf⟩ := vidc_config_poll_probed flag regs sync fuel i hp
  rw [(vidc_config_poll_changed flag regs sync fuel i hc).1, if_pos hf]
  by_cases hq : mul32 (decode regs).hcr (decode regs).vcr = 0
  · rw [if_pos hq, (video_probe_mode_faults regs sync fuel (i + 1) hq).2.1]
  · rw [if_neg hq, (video_probe_mode_returns regs sync fuel (i + 1) j hw hq).2,
      probe_writes_some regs hq]

/-- C27: the output timing is recomputed from the source registers on every probe.
Take two calls of `vidc_config_poll` in which `video_probe_mode` was entered and got
past its flyback wait, with any two values of the autoprobe flag, any two behaviours
of the sync register, any two prior contents `vr1`, `vr2` of the output register file,
and snapshots that agree on the nine source registers (and may differ elsewhere).
Then the stores the two calls make to registers other than the sync register are the
same list, the stores `probe_writes` gives for the snapshot; and when the divisor of
line 226 is not zero these are stores to the ten timing registers, each of which holds
afterwards the same value in both register files, the value stored. -/
theorem probe_writes_fresh (flag1 flag2 : Nat) (regs1 regs2 sync1 sync2 vr1 vr2 : Nat → Nat)
    (fuel1 fuel2 i1 i2 : Nat)
    (h : ∀ r ∈ [VIDC_H_CYC, VIDC_H_SYNC, VIDC_H_DISP_START, VIDC_H_DISP_END, VIDC_V_CYC,
      VIDC_V_SYNC, VIDC_V_DISP_START, VIDC_V_DISP_END, VIDC_CONTROL],
      vidc_reg regs1 r = vidc_reg regs2 r)
    (hp1 : (vidc_config_poll flag1 regs1 sync1 fuel1 i1).probes = 1)
    (hp2 : (vidc_config_poll flag2 regs2 sync2 fuel2 i2).probes = 1)
    (hw1 : (video_wait_flybk sync1 fuel1 (i1 + 1)).isSome = true)
    (hw2 : (video_wait_flybk sync2 fuel2 (i2 + 1)).isSome = true) :
    (vidc_config_poll flag1 regs1 sync1 fuel1 i1).writes.filter
        (fun w => w.1 != VIDO_REG_SYNC) =
      (vidc_config_poll flag2 regs2 sync2 fuel2 i2).writes.filter
        (fun w => w.1 != VIDO_REG_SYNC) ∧
    (vidc_config_poll flag1 regs1 sync1 fuel1 i1).writes.filter
        (fun w => w.1 != VIDO_REG_SYNC) = probe_writes regs1 ∧
    probe_writes regs1 = probe_writes regs2 ∧
    (mul32 (decode regs1).hcr (decode regs1).vcr ≠ 0 →
      (probe_writes regs1).map Prod.fst = [0, 1, 2, 3, 4, 5, 6, 7, 9, 10] ∧
      ∀ r ∈ [VIDO_REG_RES_X, VIDO_REG_HS_FP, VIDO_REG_HS_WIDTH, VIDO_REG_HS_BP,
          VIDO_REG_RES_Y, VIDO_REG_VS_FP, VIDO_REG_VS_WIDTH, VIDO_REG_VS_BP,
          VIDO_REG_WPLM1, VIDO_REG_CTRL],
        apply_writes vr1 (vidc_config_poll flag1 regs1 sync1 fuel1 i1).writes r =
          apply_writes vr2 (vidc_config_poll flag2 regs2 sync2 fuel2 i2).writes r ∧
        (probe_writes regs1).lookup r =
          some (apply_writes vr1 (vidc_config_poll flag1 regs1 sync1 fuel1 i1).writes r)) := by
  have hd := decode_congr regs1 regs2 h
  obtain ⟨j1, hj1⟩ := Option.isSome_iff_exists.1 hw1
  obtain ⟨j2, hj2⟩ := Option.isSome_iff_exists.1 hw2
  have hs1 := vidc_config_poll_stores flag1 regs1 sync1 fuel1 i1 j1 hp1 hj1
  have hs2 := vidc_config_poll_stores flag2 regs2 sync2 fuel2 i2 j2 hp2 hj2
  rw [← hd] at hs2
  have hpw : probe_writes regs1 = probe_writes regs2 := by
    unfold probe_writes probe_timing
    rw [hd]
  have key : ∀ (s1 s2 : Nat),
      ((VIDO_REG_SYNC, s1) ::
        (if mul32 (decode regs1).hcr (decode regs1).vcr = 0 then []
          else output_writes (retime (decode regs1)).1 ++ [(VIDO_REG_SYNC, s2)])).filter
        (fun w => w.1 != VIDO_REG_SYNC) = probe_writes regs1 := by
    intro s1 s2
    by_cases hq : mul32 (decode regs1).hcr (decode regs1).vcr = 0
    · rw [if_pos hq, probe_writes_none regs1 hq]
      simp
    · rw [if_neg hq, probe_writes_some regs1 hq]
      simp [List.filter_append, output_writes_filter]
  refine ⟨?_, ?_, hpw, ?_⟩
  · rw [hs1, hs2, key, key]
  · rw [hs1, key]
  · intro hq
    refine ⟨?_, ?_⟩
    · rw [probe_writes_some regs1 hq]
      exact output_writes_regs _
    · intro r hr
      rw [if_neg hq] at hs1 hs2
      rw [hs1, hs2, probe_writes_some regs1 hq]
      simp only [List.mem_cons, List.mem_singleton, List.not_mem_nil, or_false] at hr
      rcases hr with e | e | e | e | e | e | e | e | e | e <;> subst e <;>
        simp [apply_writes, output_writes, List.lookup, VIDO_REG_RES_X, VIDO_REG_HS_FP,
          VIDO_REG_HS_WIDTH, VIDO_REG_HS_BP, VIDO_REG_RES_Y, VIDO_REG_VS_FP,
          VIDO_REG_VS_WIDTH, VIDO_REG_VS_BP, VIDO_REG_WPLM1, VIDO_REG_CTRL, VIDO_REG_SYNC]

/-- C27, witness: the 640x480 snapshot probed with flag 1 on a zeroed register file,
and the same timing with different palette registers probed with flag 255 on a
register file full of ones under another behaviour of the sync register, make the
same ten timing stores. -/
theorem probe_writes_fresh_witness :
    vidc_reg snapVga 0 ≠ vidc_reg snapVgaOtherPalette 0 ∧
    (vidc_config_poll 1 snapVga (sync_of_list [8, 0x1c, 0xc, 0xc, 0xf] 0xf) 10 0).probes = 1 ∧
    (vidc_config_poll 255 snapVgaOtherPalette
      (sync_of_list [4, 0, 0x10, 0x10, 0, 2, 0] 0) 10 0).probes = 1 ∧
    (vidc_config_poll 1 snapVga (sync_of_list [8, 0x1c, 0xc, 0xc, 0xf] 0xf) 10 0).writes.filter
        (fun w => w.1 != VIDO_REG_SYNC) =
      (vidc_config_poll 255 snapVgaOtherPalette
        (sync_of_list [4, 0, 0x10, 0x10, 0, 2, 0] 0) 10 0).writes.filter
        (fun w => w.1 != VIDO_REG_SYNC) ∧
    apply_writes (fun _ => 0)
        (vidc_config_poll 1 snapVga (sync_of_list [8, 0x1c, 0xc, 0xc, 0xf] 0xf) 10 0).writes
        VIDO_REG_RES_X = 640 ∧
    apply_writes (fun _ => 4294967295)
        (vidc_config_poll 255 snapVgaOtherPalette
          (sync_of_list [4, 0, 0x10, 0x10, 0, 2, 0] 0) 10 0).writes
        VIDO_REG_RES_X = 640 :=
  ⟨by decide, by decide, by decide,
   (probe_writes_fresh 1 255 snapVga snapVgaOtherPalette
      (sync_of_list [8, 0x1c, 0xc, 0xc, 0xf] 0xf) (sync_of_list [4, 0, 0x10, 0x10, 0, 2, 0] 0)
      (fun _ => 0) (fun _ => 4294967295) 10 10 0 0 (by decide) (by decide) (by decide)
      (by decide) (by decide)).1,
   by decide, by decide⟩

/-! ## The half line period -/

theorem half_period_arith (hcr p : Nat) (he : hcr % 2 = 0)
    (hp : p = 8 ∨ p = 12 ∨ p = 16 ∨ p = 24) :
    (hcr * 24 / p / 2 * 2 * p = hcr * 24 ↔ (p ≠ 16 ∨ hcr % 4 = 0)) ∧
    (hcr * 24 / p / 2 * 2 * p = hcr * 24 ∨
      (p = 16 ∧ hcr % 4 = 2 ∧ hcr * 24 / p / 2 * 2 * p + 16 = hcr * 24)) := by
  rcases hp with e | e | e | e <;> subst e
  · have e1 : hcr * 24 / 8 = 3 * hcr := by omega
    rw [e1]
    constructor
    · constructor
      · intro _; left; decide
      · intro _; omega
    · left; omega
  · have e1 : hcr * 24 / 12 = 2 * hcr := by omega
    rw [e1]
    constructor
    · constructor
      · intro _; left; decide
      · intro _; omega
    · left; omega
  · have e1 : hcr * 24 / 16 = 3 * (hcr / 2) := by omega
    rw [e1]
    constructor
    · constructor
      · intro h; right; omega
      · intro h
        rcases h with h | h
        · exact absurd rfl h
        · omega
    · omega
  · have e1 : hcr * 24 / 24 = hcr := by omega
    rw [e1]
    constructor
    · constructor
      · intro _; left; decide
      · intro _; omega
    · left; omega

/-- C28 (amended): for every decoded `hcr`, `new_total_width = hcr*24/pix_rate/2`
satisfies `new_total_width * 2 * pix_rate == hcr * 24` when `pix_rate` is 8 or 12 (or
24), and when it is 16 exactly if `hcr` is a multiple of 4; for `pix_rate = 16` and
`hcr` congruent to 2 modulo 4 the division by 2 rounds down and
`new_total_width * 2 * 16 = hcr * 24 - 16`. -/
theorem half_period_exact_iff (regs : Nat → Nat) :
    (new_total_width (decode regs) * 2 * (decode regs).pix_rate = (decode regs).hcr * 24 ↔
      ((decode regs).pix_rate ≠ 16 ∨ (decode regs).hcr % 4 = 0)) ∧
    (new_total_width (decode regs) * 2 * (decode regs).pix_rate = (decode regs).hcr * 24 ∨
      ((decode regs).pix_rate = 16 ∧ (decode regs).hcr % 4 = 2 ∧
        new_total_width (decode regs) * 2 * (decode regs).pix_rate + 16 =
          (decode regs).hcr * 24)) ∧
    new_total_width (decode regs) = (decode regs).hcr * 24 / (decode regs).pix_rate / 2 := by
  have hn := (new_total_width_exact regs).1
  have hr := decode_hcr_range regs
  have ha := half_period_arith (decode regs).hcr (decode regs).pix_rate hr.2.2
    (decode_pix_rate regs)
  rw [hn]
  exact ⟨ha.1, ha.2, rfl⟩

/-- C28, counterexample: with `pix_rate = 16` and `hcr = 1026` the new total width is
769, and `769 * 2 * 16 = 24608` is not `1026 * 24 = 24624`. -/
theorem half_period_counterexample :
    (decode snapOddLine).hcr = 1026 ∧ (decode snapOddLine).pix_rate = 16 ∧
    classify (decode snapOddLine) = .YDoubled ∧
    new_total_width (decode snapOddLine) = 769 ∧
    new_total_width (decode snapOddLine) * 2 * (decode snapOddLine).pix_rate = 24608 ∧
    (decode snapOddLine).hcr * 24 = 24624 ∧
    new_total_width (decode snapOddLine) * 2 * (decode snapOddLine).pix_rate ≠
      (decode snapOddLine).hcr * 24 := by
  decide

/-- C29: for every source register snapshot (a bound on `xres` is not needed) every
words-per-line-minus-1 value `video_probe_mode` stores is `xres/(32 >> bpp) - 1` of the
decoded `xres` and `bpp`, the value computed before the chain: whenever the call
reaches the chain, the local `wpl` after it is that value, in the hires branch, where
`bpp` was decoded as 2 and it is recomputed as `(4*xres)/32 - 1`, which is the same
number, and in the XY-doubling branch, where it is recomputed from `xres` before `xres`
is doubled.  The store is made when the divisor of line 226 is not zero; otherwise
the call stops at that division and stores nothing. -/
theorem wpl_unchanged (regs : Nat → Nat) :
    (∀ t, probe_timing regs = some t →
      t.wpl = sub32 ((decode regs).xres / (32 >>> (decode regs).bpp)) 1 ∧
      t.wpl = (decode regs).wpl ∧
      (classify (decode regs) ≠ .HiresMono ∨
        ((decode regs).bpp = 2 ∧ t.xres = 4 * (decode regs).xres ∧
          t.wpl = sub32 (4 * (decode regs).xres / 32) 1 ∧
          4 * (decode regs).xres / 32 = (decode regs).xres / (32 >>> (decode regs).bpp))) ∧
      (classify (decode regs) ≠ .XYDoubled ∨ (decode regs).pix_rate = 24 ∨
        (t.xres = 2 * (decode regs).xres ∧
          t.wpl = sub32 ((decode regs).xres / (32 >>> (decode regs).bpp)) 1))) ∧
    (∀ v, (probe_writes regs).lookup VIDO_REG_WPLM1 = some v →
      v = sub32 ((decode regs).xres / (32 >>> (decode regs).bpp)) 1) ∧
    (mul32 (decode regs).hcr (decode regs).vcr ≠ 0 →
      (probe_timing regs).isSome = true ∧
      (probe_writes regs).lookup VIDO_REG_WPLM1 =
        some (sub32 ((decode regs).xres / (32 >>> (decode regs).bpp)) 1)) ∧
    (mul32 (decode regs).hcr (decode regs).vcr = 0 →
      probe_timing regs = none ∧ probe_writes regs = []) := by
  have hw := probe_wpl regs
  have hst : mul32 (decode regs).hcr (decode regs).vcr ≠ 0 →
      (probe_writes regs).lookup VIDO_REG_WPLM1 =
        some (sub32 ((decode regs).xres / (32 >>> (decode regs).bpp)) 1) := by
    intro hq
    rw [probe_writes_some regs hq, ← hw]
    exact output_writes_wpl _
  refine ⟨?_, ?_, fun hq => ⟨by rw [probe_timing_some regs hq]; rfl, hst hq⟩,
    fun hq => ⟨probe_timing_none regs hq, probe_writes_none regs hq⟩⟩
  · intro t ht
    by_cases hq : mul32 (decode regs).hcr (decode regs).vcr = 0
    · rw [probe_timing_none regs hq] at ht
      exact absurd ht (by simp)
    rw [probe_timing_some regs hq] at ht
    have et : (retime (decode regs)).1 = t := Option.some.inj ht
    rw [← et]
    refine ⟨hw, hw, ?_, ?_⟩
    · by_cases hc : classify (decode regs) = .HiresMono
      · right
        have hh := (classify_hires_iff _).mp hc
        have hyl := decode_yres_lt regs
        have hxr := decode_xres_range regs
        have e3 : mul32 (decode regs).xres 4 = 4 * (decode regs).xres := by
          rw [mul32_of_lt _ 4 (by omega)]
          omega
        have ht := probe_timing_hires regs hc
        rw [e3] at ht
        have e4 : 4 * (decode regs).xres / 32 =
            (decode regs).xres / (32 >>> (decode regs).bpp) := by
          rw [hh.2.1]
          show 4 * (decode regs).xres / 32 = (decode regs).xres / 8
          omega
        refine ⟨hh.2.1, ?_, ?_, e4⟩
        · rw [ht]
        · rw [ht]
      · exact Or.inl hc
    · by_cases hc : classify (decode regs) = .XYDoubled
      · by_cases hp : (decode regs).pix_rate = 24
        · exact Or.inr (Or.inl hp)
        · right; right
          have ht := probe_timing_xydouble regs hc hp
          have e3 := double_xres regs ((classify_xydouble_iff _).mp hc).2.1
          exact ⟨by rw [ht]; exact e3, hw⟩
      · exact Or.inl hc
  · intro v hv
    by_cases hq : mul32 (decode regs).hcr (decode regs).vcr = 0
    · rw [probe_writes_none regs hq] at hv
      simp [List.lookup] at hv
    · rw [hst hq] at hv
      exact (Option.some.inj hv).symm

/-- C29, witness: the hires 160 x 400 timing and the doubled 320 x 200 timing both
store the decoded words per line (160/8 - 1 and 320/4 - 1). -/
theorem wpl_unchanged_witness :
    ((decode snapHires400).wpl = 19 ∧
      (probe_timing snapHires400).map ProbeVars.wpl = some 19 ∧
      (probe_timing snapHires400).map ProbeVars.xres = some 640) ∧
    ((decode snap320x200at16).wpl = 79 ∧
      (probe_timing snap320x200at16).map ProbeVars.xres = some 640 ∧
      (probe_writes snap320x200at16).lookup VIDO_REG_WPLM1 =
        some (sub32 ((decode snap320x200at16).xres / (32 >>> (decode snap320x200at16).bpp)) 1)) :=
  ⟨by decide, by decide, by decide, ((wpl_unchanged snap320x200at16).2.2.1 (by decide)).2⟩

/-- Toggling the request of a value whose request differs from its ack makes the
two equal. -/
theorem sync_acked_toggle (s : Nat) (h : sync_acked s = false) :
    sync_acked (s ^^^ 1) = true := by
  have hx := testBit_xor_two_pow s 0
  rw [Nat.pow_zero] at hx
  rw [sync_acked_bits] at h ⊢
  rw [hx 0, hx 1, if_pos rfl, if_neg (by decide)]
  cases h0 : s.testBit 0 <;> cases h1 : s.testBit 1 <;> simp [h0, h1] at h ⊢

/-- C30: for every value first read with SYNC_REQUEST different from SYNC_ACK (an
earlier request still pending), if the first polling read returns the register
exactly as `video_sync` stored it, that value has bit 0 equal to bit 1 and
`video_sync` returns "synchronised" on this first polling read, although the ack bit
has not moved. -/
theorem video_sync_pending_request (sync : Nat → Nat) (n : Nat)
    (h0 : sync_acked (sync_read sync n) = false)
    (h1 : sync_read sync (n + 1) = sync_read sync n ^^^ 1) :
    (video_sync sync n).outcome = .synchronised ∧
    (video_sync sync n).polls = 1 ∧
    (video_sync sync n).last = sync_read sync n ^^^ 1 ∧
    (video_sync sync n).writes = [(VIDO_REG_SYNC, sync_read sync n ^^^ 1)] ∧
    sync_acked (sync_read sync n ^^^ 1) = true ∧
    (sync_read sync n ^^^ 1).testBit 1 = (sync_read sync n).testBit 1 := by
  have ht := sync_acked_toggle (sync_read sync n) h0
  have e0 : n + 1 + (0 + 0) = n + 1 := by omega
  have hp := sync_poll_found sync (n + 1) 10000000 0 0 (by norm_num)
    (fun j hj1 hj2 => by omega)
    (by rw [e0, h1]; exact ht)
  have hv := video_sync_eq sync n
  have ho : (video_sync sync n).outcome = .synchronised := by rw [hv, hp]
  have hq : (video_sync sync n).polls = 0 + 0 + 1 := by rw [hv, hp]
  have hl : (video_sync sync n).last = sync_read sync (n + 1 + (0 + 0)) := by rw [hv, hp]
  have hx := testBit_xor_two_pow (sync_read sync n) 0
  rw [Nat.pow_zero] at hx
  refine ⟨ho, hq, ?_, video_sync_writes sync n, ht, ?_⟩
  · rw [hl, e0, h1]
  · rw [hx 1, if_neg (by decide)]

/-- C30, witness: the register first reads 1 (request pending), `video_sync` stores
0, and the register reads back 0. -/
theorem video_sync_pending_request_witness :
    sync_acked (sync_read (sync_of_list [1, 0] 0) 0) = false ∧
    (video_sync (sync_of_list [1, 0] 0) 0).outcome = .synchronised ∧
    (video_sync (sync_of_list [1, 0] 0) 0).polls = 1 :=
  ⟨by decide,
   (video_sync_pending_request (sync_of_list [1, 0] 0) 0 (by decide) (by decide)).1,
   (video_sync_pending_request (sync_of_list [1, 0] 0) 0 (by decide) (by decide)).2.1⟩

/-! ## `vidc_config_poll` with autoprobing switched off -/

/-- C31: with `flag_autoprobe_mode` cleared (one `a` command after reset clears it) a
detected timing change is acknowledged and nothing is retimed: the call makes exactly
one store, to the sync register, of the value read with bit 2 (TIMING_ACK) flipped and
every other bit, SYNC_REQUEST (bit 0) among them, as read; none of the ten output
timing registers is stored to, no probe runs and the call returns. -/
theorem config_poll_autoprobe_off (regs sync : Nat → Nat) (fuel i : Nat)
    (hc : timing_changed (sync_read sync i) = true) :
    cmd_autoprobe 1 = 0 ∧
    (vidc_config_poll 0 regs sync fuel i).writes =
      [(VIDO_REG_SYNC, sync_read sync i ^^^ 4)] ∧
    (∀ w ∈ (vidc_config_poll 0 regs sync fuel i).writes,
      w.1 ∉ [VIDO_REG_RES_X, VIDO_REG_HS_FP, VIDO_REG_HS_WIDTH, VIDO_REG_HS_BP,
        VIDO_REG_RES_Y, VIDO_REG_VS_FP, VIDO_REG_VS_WIDTH, VIDO_REG_VS_BP,
        VIDO_REG_WPLM1, VIDO_REG_CTRL]) ∧
    (sync_read sync i ^^^ 4).testBit 2 = !(sync_read sync i).testBit 2 ∧
    (sync_read sync i ^^^ 4).testBit 0 = (sync_read sync i).testBit 0 ∧
    (∀ j, j ≠ 2 → (sync_read sync i ^^^ 4).testBit j = (sync_read sync i).testBit j) ∧
    (vidc_config_poll 0 regs sync fuel i).probes = 0 ∧
    (vidc_config_poll 0 regs sync fuel i).commit = none ∧
    (vidc_config_poll 0 regs sync fuel i).finished = true ∧
    (vidc_config_poll 0 regs sync fuel i).next = i + 1 := by
  have hw : vidc_config_poll 0 regs sync fuel i =
      { writes := [(VIDO_REG_SYNC, sync_read sync i ^^^ 4)], finished := true,
        next := i + 1, probes := 0, commit := none } := by
    unfold vidc_config_poll
    simp [hc]
  have hb := testBit_xor_two_pow (sync_read sync i) 2
  have e4 : (4 : Nat) = 2 ^ 2 := rfl
  rw [hw]
  refine ⟨rfl, rfl, ?_, ?_, ?_, ?_, rfl, rfl, rfl, rfl⟩
  · intro w hwm
    have e : w = (VIDO_REG_SYNC, sync_read sync i ^^^ 4) := by simpa using hwm
    rw [e]
    show VIDO_REG_SYNC ∉ [VIDO_REG_RES_X, VIDO_REG_HS_FP, VIDO_REG_HS_WIDTH, VIDO_REG_HS_BP,
      VIDO_REG_RES_Y, VIDO_REG_VS_FP, VIDO_REG_VS_WIDTH, VIDO_REG_VS_BP,
      VIDO_REG_WPLM1, VIDO_REG_CTRL]
    decide
  · rw [e4, hb 2]
    simp
  · rw [e4, hb 0]
    simp
  · intro j hj
    rw [e4, hb j]
    simp [hj]

theorem config_poll_autoprobe_off_witness :
    timing_changed (sync_read (fun _ => 8) 0) = true ∧
    (vidc_config_poll 0 snapVga (fun _ => 8) 0 0).writes = [(VIDO_REG_SYNC, 8 % 4294967296 ^^^ 4)] :=
  ⟨by decide, (config_poll_autoprobe_off snapVga (fun _ => 8) 0 0 (by decide)).2.1⟩

/-! ## `atoh` -/

/-- Setting bit 5 touches the low six bits only. -/
theorem tolower_split (d : Nat) : tolower d = 64 * (d / 64) + tolower (d % 64) := by
  have hr : d % 64 < 64 := Nat.mod_lt _ (by norm_num)
  have hl : tolower (d % 64) < 2 ^ 6 := by
    have key : ∀ r < 64, tolower r < 2 ^ 6 := by decide
    exact key _ hr
  have e1 : 2 ^ 6 * (d / 64) + d % 64 = 2 ^ 6 * (d / 64) ||| d % 64 :=
    Nat.mul_add_lt_is_or (by simpa using hr) _
  have e2 : 2 ^ 6 * (d / 64) + tolower (d % 64) = 2 ^ 6 * (d / 64) ||| tolower (d % 64) :=
    Nat.mul_add_lt_is_or hl _
  have e3 : d = 2 ^ 6 * (d / 64) + d % 64 := by
    norm_num
    omega
  calc tolower d = (2 ^ 6 * (d / 64) + d % 64) ||| 0x20 := by rw [← e3]; rfl
    _ = 2 ^ 6 * (d / 64) ||| (d % 64 ||| 0x20) := by rw [e1, Nat.or_assoc]
    _ = 64 * (d / 64) + tolower (d % 64) := by
      rw [show d % 64 ||| 0x20 = tolower (d % 64) from rfl, ← e2]
      norm_num

theorem le_tolower (d : Nat) : d ≤ tolower d := by
  have key : ∀ r < 64, r ≤ tolower r := by decide
  have h := key (d % 64) (Nat.mod_lt _ (by norm_num))
  rw [tolower_split d]
  omega

/-- The loop condition of `atoh` holds exactly for the characters `0-9`, `a-f`, `A-F`. -/
theorem atoh_cond_iff (d : Nat) : atoh_cond d = true ↔ spec_is_hex_digit d := by
  by_cases h : d < 103
  · revert d
    decide
  · have hle : d ≤ tolower d := le_tolower d
    have h1 : ¬ spec_is_hex_digit d := by
      unfold spec_is_hex_digit
      omega
    have h2 : atoh_cond d = false := by
      unfold atoh_cond
      have ha : ¬ d ≤ 0x39 := by omega
      have hb : ¬ tolower d ≤ 0x66 := by omega
      simp [ha, hb]
    simp [h1, h2]

/-- On a hex digit the value computed by `atoh` is the digit value, below 16. -/
theorem atoh_digit_eq (d : Nat) (h : spec_is_hex_digit d) :
    atoh_digit d = spec_hex_digit_value d ∧ spec_hex_digit_value d < 16 := by
  have hd : d < 103 := by
    unfold spec_is_hex_digit at h
    omega
  have key : ∀ d < 103, spec_is_hex_digit d →
      atoh_digit d = spec_hex_digit_value d ∧ spec_hex_digit_value d < 16 := by decide
  exact key d hd h

/-- One iteration of `atoh` appends a digit: no bit is lost while `r` has at most
seven digits. -/
theorem atoh_shift_or (r v : Nat) (hr : r < 268435456) (hv : v < 16) :
    shl32 r 4 ||| v = 16 * r + v := by
  unfold shl32
  rw [Nat.shiftLeft_eq, Nat.mod_eq_of_lt (by omega), Nat.mul_comm]
  exact (Nat.mul_add_lt_is_or (show v < 2 ^ 4 by simpa using hv) r).symm

/-- Once `ok` is 1 it stays 1. -/
theorem atoh_loop_ok (l : List Nat) : ∀ (r c : Nat), (atoh_loop l r c 1).2.2 = 1 := by
  induction l with
  | nil => intro r c; rfl
  | cons d rest ih =>
    intro r c
    unfold atoh_loop
    split
    · exact ih _ _
    · rfl

/-- The loop of `atoh` on a run of hex digits followed by the terminator or by a
character that is not a hex digit. -/
theorem atoh_loop_digits (rest : List Nat) (hrest : ∀ x ∈ rest.head?, ¬ spec_is_hex_digit x) :
    ∀ (ds : List Nat) (r c ok : Nat), (∀ d ∈ ds, spec_is_hex_digit d) →
      atoh_loop (ds ++ rest) r c ok =
        (ds.foldl (fun acc d => shl32 acc 4 ||| atoh_digit d) r, c + ds.length,
          if ds = [] then ok else 1) := by
  intro ds
  induction ds with
  | nil =>
    intro r c ok _
    cases rest with
    | nil => rfl
    | cons x xs =>
      have hx : atoh_cond x = false := by
        have := hrest x (by simp)
        rw [← atoh_cond_iff] at this
        simpa using this
      simp [atoh_loop, hx]
  | cons d ds ih =>
    intro r c ok hds
    have hd : atoh_cond d = true := (atoh_cond_iff d).2 (hds d (by simp))
    have h := ih (shl32 r 4 ||| atoh_digit d) (c + 1) 1 (fun x hx => hds x (by simp [hx]))
    have e : c + 1 + ds.length = c + (ds.length + 1) := by omega
    simp only [List.cons_append, atoh_loop, hd, if_true, List.foldl_cons, List.length_cons]
    refine h.trans ?_
    simp [e]

/-- Up to eight digits the accumulator of `atoh` is the base-16 value. -/
theorem atoh_fold_value : ∀ (ds : List Nat) (r j : Nat), r < 16 ^ j → j + ds.length ≤ 8 →
    (∀ d ∈ ds, spec_is_hex_digit d) →
    ds.foldl (fun acc d => shl32 acc 4 ||| atoh_digit d) r =
      ds.foldl (fun acc d => 16 * acc + spec_hex_digit_value d) r ∧
    ds.foldl (fun acc d => 16 * acc + spec_hex_digit_value d) r < 16 ^ (j + ds.length) := by
  intro ds
  induction ds with
  | nil => intro r j hr _ _; exact ⟨rfl, by simpa using hr⟩
  | cons d ds ih =>
    intro r j hr hj hds
    have hd := atoh_digit_eq d (hds d (by simp))
    simp only [List.length_cons] at hj
    have hj7 : j ≤ 7 := by omega
    have hr7 : r < 268435456 := by
      have : (16 : Nat) ^ j ≤ 16 ^ 7 := Nat.pow_le_pow_right (by norm_num) hj7
      norm_num at this
      omega
    have hstep : shl32 r 4 ||| atoh_digit d = 16 * r + spec_hex_digit_value d := by
      rw [hd.1]
      exact atoh_shift_or r _ hr7 hd.2
    have hlt : 16 * r + spec_hex_digit_value d < 16 ^ (j + 1) := by
      rw [Nat.pow_succ]
      omega
    have h := ih (16 * r + spec_hex_digit_value d) (j + 1) hlt (by omega)
      (fun x hx => hds x (by simp [hx]))
    simp only [List.foldl_cons, List.length_cons, hstep]
    have e : j + 1 + ds.length = j + (ds.length + 1) := by omega
    rw [← e]
    exact h
/-- The character at a pointer is the head of the rest of the string, NUL at the end. -/
theorem char_at_drop (s : List Nat) (c : Nat) : char_at s c = (s.drop c).headD 0 := by
  unfold char_at
  rw [List.headD_eq_head?_getD, List.head?_drop, List.getD_eq_getElem?_getD]

/-- What `atoh` does when the first character fails the loop condition. -/
theorem atoh_first_fails (s : List Nat) (c endp : Nat)
    (h : atoh_cond (char_at s c) = false) :
    atoh s c endp = { ret := 0, endp := endp, success := 0 } := by
  rw [char_at_drop] at h
  unfold atoh
  cases hl : s.drop c with
  | nil => rfl
  | cons x xs =>
    rw [hl] at h
    have hx : atoh_cond x = false := h
    simp [atoh_loop, hx]

/-- After at least one digit `atoh` reports success. -/
theorem atoh_first_ok (s : List Nat) (c endp : Nat)
    (h : atoh_cond (char_at s c) = true) :
    (atoh s c endp).success = 1 := by
  rw [char_at_drop] at h
  unfold atoh
  cases hl : s.drop c with
  | nil =>
    rw [hl] at h
    exact absurd h (by decide)
  | cons x xs =>
    rw [hl] at h
    have hx : atoh_cond x = true := h
    simp only [atoh_loop, hx, if_true]
    exact atoh_loop_ok xs _ _

/-- C35: for a string with `k` hex digits at the pointer, `1 <= k <= 8`, upper or lower
case, followed by the terminating NUL or by a character that is not a hex digit,
`atoh` returns the base-16 value of the digits, which fits a 32-bit word, sets
`*success` to 1 and `*end` to the pointer plus `k`, where the first character after
the digits stands. -/
theorem atoh_hex_value (pre ds rest : List Nat) (endp : Nat)
    (hk1 : 1 ≤ ds.length) (hk8 : ds.length ≤ 8)
    (hds : ∀ d ∈ ds, spec_is_hex_digit d)
    (hrest : ∀ x ∈ rest.head?, ¬ spec_is_hex_digit x) :
    atoh (pre ++ ds ++ rest) pre.length endp =
      { ret := spec_hex_value ds, endp := pre.length + ds.length, success := 1 } ∧
    spec_hex_value ds < 4294967296 ∧
    char_at (pre ++ ds ++ rest) (pre.length + ds.length) = rest.headD 0 := by
  have hne : ds ≠ [] := by
    intro e
    rw [e] at hk1
    simp at hk1
  have hloop := atoh_loop_digits rest hrest ds 0 pre.length 0 hds
  have hval := atoh_fold_value ds 0 0 (by norm_num) (by omega) hds
  have hdrop : (pre ++ ds ++ rest).drop pre.length = ds ++ rest := by
    rw [List.append_assoc]
    exact List.drop_left _ _
  refine ⟨?_, ?_, ?_⟩
  · unfold atoh
    rw [hdrop, hloop]
    simp only [hne, if_false]
    rw [hval.1]
    rfl
  · have h := hval.2
    have h8 : (16 : Nat) ^ (0 + ds.length) ≤ 16 ^ 8 :=
      Nat.pow_le_pow_right (by norm_num) (by omega)
    unfold spec_hex_value
    exact Nat.lt_of_lt_of_le h (by simpa using h8)
  · rw [char_at_drop]
    have e : (pre ++ ds ++ rest).drop (pre.length + ds.length) = rest := by
      rw [← List.length_append]
      exact List.drop_left _ _
    rw [e]

theorem atoh_hex_value_witness :
    atoh (cstr "m " ++ cstr "1aF" ++ cstr " z") (cstr "m ").length 77 =
      { ret := spec_hex_value (cstr "1aF"), endp := (cstr "m ").length + (cstr "1aF").length,
        success := 1 } ∧
    spec_hex_value (cstr "1aF") = 0x1af ∧
    cstr "m " ++ cstr "1aF" ++ cstr " z" = cstr "m 1aF z" :=
  ⟨(atoh_hex_value (cstr "m ") (cstr "1aF") (cstr " z") 77 (by decide) (by decide)
      (by decide) (by decide)).1, by decide, by decide⟩

/-- C36: `atoh` sets `*success` to 0 exactly when the character at the pointer is NUL
or not one of `0-9`, `a-f`, `A-F`; it then returns 0 and leaves `*end` as it was.
Otherwise `*success` is 1. -/
theorem atoh_failure_iff (s : List Nat) (c endp : Nat) :
    ((atoh s c endp).success = 0 ↔
      (char_at s c = 0 ∨ ¬ spec_is_hex_digit (char_at s c))) ∧
    ((atoh s c endp).success = 0 →
      (atoh s c endp).ret = 0 ∧ (atoh s c endp).endp = endp) ∧
    ((atoh s c endp).success = 0 ∨ (atoh s c endp).success = 1) := by
  cases hc : atoh_cond (char_at s c) with
  | false =>
    have hn : ¬ spec_is_hex_digit (char_at s c) := by
      rw [← atoh_cond_iff, hc]
      exact Bool.false_ne_true
    rw [atoh_first_fails s c endp hc]
    exact ⟨⟨fun _ => Or.inr hn, fun _ => rfl⟩, fun _ => ⟨rfl, rfl⟩, Or.inl rfl⟩
  | true =>
    have hs : spec_is_hex_digit (char_at s c) := (atoh_cond_iff _).1 hc
    have h0 : char_at s c ≠ 0 := by
      unfold spec_is_hex_digit at hs
      omega
    have h1 := atoh_first_ok s c endp hc
    rw [h1]
    refine ⟨⟨fun h => absurd h (by norm_num), fun h => ?_⟩, fun h => absurd h (by norm_num),
      Or.inr rfl⟩
    rcases h with h | h
    · exact absurd h h0
    · exact absurd hs h

/-! ## The line editor of `serial_poll` -/

/-- The `switch` of `serial_poll` keeps `len` at most 99 and stores inside `buf`. -/
theorem serial_switch_inv (st : LineEditor) (c : Nat) (h : st.len ≤ 99)
    (hb : st.buf.length = 100) :
    (serial_switch st c).1.len ≤ 99 ∧ (serial_switch st c).1.buf.length = 100 ∧
    (∀ i ∈ (serial_switch st c).2, i < 100) ∧
    ((serial_switch st c).1.line_done ≠ st.line_done →
      char_at (serial_switch st c).1.buf (serial_switch st c).1.len = 0) := by
  unfold serial_switch
  by_cases h1 : c = 13 ∨ c = 10
  · simp only [h1, if_true]
    refine ⟨h, by simpa using hb, ?_, ?_⟩
    · intro i hi
      have e : i = st.len := by simpa using hi
      omega
    · intro _
      unfold char_at
      have hl : st.len < st.buf.length := by omega
      simp [List.getD_eq_getElem?_getD, hl]
  · simp only [h1, if_false]
    by_cases h2 : c = 8
    · simp only [h2, if_true]
      by_cases h3 : st.len > 0
      · simp only [h3, if_true]
        exact ⟨by show st.len - 1 ≤ 99; omega, hb, by simp, fun hne => absurd rfl hne⟩
      · simp only [h3, if_false]
        exact ⟨h, hb, by simp, fun hne => absurd rfl hne⟩
    · simp only [h2, if_false]
      by_cases h4 : st.len < 100 - 1
      · simp only [h4, if_true]
        refine ⟨by show st.len + 1 ≤ 99; omega, by simpa using hb, ?_, fun hne => absurd rfl hne⟩
        intro i hi
        have e : i = st.len := by simpa using hi
        omega
      · simp only [h4, if_false]
        exact ⟨h, hb, by simp, fun hne => absurd rfl hne⟩

/-- One call of `serial_poll` from variables with `len <= 99` and `line_done = 0`. -/
theorem serial_poll_inv (st : LineEditor) (rx : Option Nat) (h : st.len ≤ 99)
    (hb : st.buf.length = 100) (hd : st.line_done = 0) :
    (serial_poll st rx).state.len ≤ 99 ∧ (serial_poll st rx).state.buf.length = 100 ∧
    (serial_poll st rx).state.line_done = 0 ∧
    (∀ i ∈ (serial_poll st rx).stores, i < 100) ∧
    (∀ a ∈ (serial_poll st rx).dispatched,
      (serial_poll st rx).state.len = 0 ∧ a.1 = (serial_poll st rx).state.buf ∧
      a.2 ≤ 99 ∧ char_at a.1 a.2 = 0) := by
  cases rx with
  | none => exact ⟨h, hb, hd, by simp [serial_poll], by simp [serial_poll]⟩
  | some c =>
    have hs := serial_switch_inv st c h hb
    by_cases hl : (serial_switch st c).1.line_done ≠ 0
    · have e : serial_poll st (some c) =
          { state := { (serial_switch st c).1 with line_done := 0, len := 0 },
            stores := (serial_switch st c).2,
            dispatched := some ((serial_switch st c).1.buf, (serial_switch st c).1.len) } :=
        if_pos hl
      rw [e]
      refine ⟨Nat.zero_le _, hs.2.1, rfl, hs.2.2.1, ?_⟩
      intro a ha
      have e2 : a = ((serial_switch st c).1.buf, (serial_switch st c).1.len) := by
        simpa using ha.symm
      rw [e2]
      exact ⟨rfl, rfl, hs.1, hs.2.2.2 (by rw [hd]; exact hl)⟩
    · have e : serial_poll st (some c) =
          { state := (serial_switch st c).1, stores := (serial_switch st c).2,
            dispatched := none } :=
        if_neg hl
      rw [e]
      refine ⟨hs.1, hs.2.1, by simpa using hl, hs.2.2.1, ?_⟩
      intro a ha
      simp at ha

/-- Every call in a run of `serial_poll` from such variables. -/
theorem serial_run_inv : ∀ (rxs : List (Option Nat)) (st : LineEditor), st.len ≤ 99 →
    st.buf.length = 100 → st.line_done = 0 →
    ∀ p ∈ serial_run st rxs, p.state.len ≤ 99 ∧ p.state.buf.length = 100 ∧
      (∀ i ∈ p.stores, i < 100) ∧
      (∀ a ∈ p.dispatched, p.state.len = 0 ∧ a.1 = p.state.buf ∧ a.2 ≤ 99 ∧
        char_at a.1 a.2 = 0) := by
  intro rxs
  induction rxs with
  | nil => intro st _ _ _ p hp; simp [serial_run] at hp
  | cons rx rest ih =>
    intro st h hb hd p hp
    have hs := serial_poll_inv st rx h hb hd
    simp only [serial_run, List.mem_cons] at hp
    rcases hp with hp | hp
    · rw [hp]
      exact ⟨hs.1, hs.2.1, hs.2.2.2.1, hs.2.2.2.2⟩
    · exact ih _ hs.1 hs.2.1 hs.2.2.1 p hp

/-- C34: the line editor never leaves its 100-byte buffer.  For every sequence of UART
reads after reset (characters of any value, backspaces on an empty line and lines
longer than the buffer included), after every call of `serial_poll` the length is at
most 99 and `buf` still has 100 bytes, every store of the call (a character or the
terminating NUL) has its index inside `buf`, and whenever the call dispatched a line
to `cmd_parse` the length is 0 afterwards; the line handed over is NUL-terminated at
its length, at most 99. -/
theorem serial_poll_within_buffer (rxs : List (Option Nat)) (p : PollStep)
    (hp : p ∈ serial_run serial_start rxs) :
    p.state.len ≤ 99 ∧ p.state.buf.length = 100 ∧
    (∀ i ∈ p.stores, i < p.state.buf.length) ∧
    (p.dispatched.isSome = true → p.state.len = 0) ∧
    (∀ a ∈ p.dispatched, a.1.length = 100 ∧ a.2 ≤ 99 ∧ char_at a.1 a.2 = 0) := by
  have h := serial_run_inv rxs serial_start (by decide) (by decide) (by decide) p hp
  refine ⟨h.1, h.2.1, ?_, ?_, ?_⟩
  · rw [h.2.1]
    exact h.2.2.1
  · intro hsome
    obtain ⟨a, ha⟩ := Option.isSome_iff_exists.1 hsome
    exact (h.2.2.2 a ha).1
  · intro a ha
    have := h.2.2.2 a ha
    exact ⟨by rw [this.2.1]; exact h.2.1, this.2.2.1, this.2.2.2⟩

set_option maxRecDepth 100000 in
theorem serial_poll_within_buffer_witness :
    (serial_run serial_start (some 8 :: List.replicate 150 (some 0x61) ++ [some 10])).map
        (fun p => (p.state.len, p.stores, p.dispatched.map Prod.snd)) =
      (0, [], none) :: (List.range 99).map (fun k => (k + 1, [k], none)) ++
        List.replicate 51 (99, [], none) ++ [(0, [99], some 99)] ∧
    (serial_poll { buf := List.replicate 99 0x61 ++ [0], len := 99, line_done := 0 }
        (some 10)).stores = [99] ∧
    (serial_poll { buf := List.replicate 99 0x61 ++ [0], len := 99, line_done := 0 }
        (some 10)).state.len ≤ 99 :=
  ⟨by decide, by decide,
    (serial_poll_within_buffer (some 8 :: List.replicate 150 (some 0x61) ++ [some 10])
      (serial_poll { buf := List.replicate 99 0x61 ++ [0], len := 99, line_done := 0 }
        (some 10)) (by decide)).1⟩

/-! ## The commands `vty`, `vtx` and `m` -/

/-- C33 (refuted): `cmd_vty` is not atomic on a syntax error.  Whatever the line, it
ends in the call of `video_set_y_timing` and stores the four vertical timing
registers: on the line `vty 100 1 2 zz`, whose fourth argument fails to parse, it
stores 0x100, 1, 2 and the 0 that the failed `atoh` returned; on `vty zz` it stores 0
and the unassigned locals.  `cmd_vtx` on `vtx 100 1 2 zz 3` stores nothing. -/
theorem cmd_vty_stores_after_syntax_error :
    (∀ (s : List Nat) (args fp0 width0 bp0 : Nat),
      (cmd_vty s args fp0 width0 bp0).map Prod.fst =
        [VIDO_REG_RES_Y, VIDO_REG_VS_FP, VIDO_REG_VS_WIDTH, VIDO_REG_VS_BP]) ∧
    cmd_parse (cstr "vty 100 1 2 zz") 14 = some (.cmd_vty, 4) ∧
    (atoh (cstr "vty 100 1 2 zz") 12 12).success = 0 ∧
    (∀ (fp0 width0 bp0 : Nat), cmd_vty (cstr "vty 100 1 2 zz") 4 fp0 width0 bp0 =
      [(VIDO_REG_RES_Y, 0x100), (VIDO_REG_VS_FP, 1), (VIDO_REG_VS_WIDTH, 2),
        (VIDO_REG_VS_BP, 0)]) ∧
    (∀ (fp0 width0 bp0 : Nat), cmd_vty (cstr "vty zz") 4 fp0 width0 bp0 =
      [(VIDO_REG_RES_Y, 0), (VIDO_REG_VS_FP, fp0), (VIDO_REG_VS_WIDTH, width0),
        (VIDO_REG_VS_BP, bp0)]) ∧
    cmd_parse (cstr "vtx 100 1 2 zz 3") 16 = some (.cmd_vtx, 4) ∧
    cmd_vtx (cstr "vtx 100 1 2 zz 3") 4 = [] := by
  refine ⟨?_, by decide, by decide, fun _ _ _ => rfl, fun _ _ _ => rfl, by decide, by decide⟩
  intro s args fp0 width0 bp0
  unfold cmd_vty
  simp only []
  split
  · rfl
  · split
    · rfl
    · split
      · rfl
      · split <;> rfl

/-- C32 (as claimed, refuted): the line `m 23`, the mode number 23 written in decimal,
is dispatched to `cmd_setmode`, which calls `video_setmode` with mode 35 (0x23), not
a preset; `m 12` applies preset 18 and `m 19` preset 25. -/
theorem setmode_command_decimal_counterexample :
    cstr "m 23" = cstr "m " ++ (Nat.toDigits 10 23).map Char.toNat ∧
    (23 : Int) ∈ accepted_modes ∧
    cmd_parse (cstr "m 23") 4 = some (.cmd_setmode, 2) ∧
    cmd_setmode (cstr "m 23") 2 = some 35 ∧
    setmode_vars 35 = none ∧
    cmd_setmode (cstr "m 12") 2 = some 18 ∧
    cmd_setmode (cstr "m 19") 2 = some 25 := by
  decide

/-- C32 (amended): the `m <mode>` command takes the mode number in hex, as every
numeric argument of the console.  For every mode `n` accepted by `video_setmode`, the
line `m ` followed by `n` written in hex (lower or upper case) is dispatched by
`cmd_parse` to `cmd_setmode`, which calls `video_setmode` with mode `n`; followed by
`n` written in decimal it reaches `video_setmode` as `n` only when `n < 10`. -/
theorem setmode_command_hex (n : Int) (hn : n ∈ accepted_modes) :
    cmd_parse (cstr "m " ++ (Nat.toDigits 16 n.toNat).map Char.toNat)
        (2 + (Nat.toDigits 16 n.toNat).length) = some (.cmd_setmode, 2) ∧
    cmd_setmode (cstr "m " ++ (Nat.toDigits 16 n.toNat).map Char.toNat) 2 = some n ∧
    cmd_setmode (cstr "m " ++ (Nat.toDigits 16 n.toNat).map (fun ch => ch.toUpper.toNat)) 2 =
      some n ∧
    (cmd_setmode (cstr "m " ++ (Nat.toDigits 10 n.toNat).map Char.toNat) 2 = some n ↔
      n < 10) := by
  revert n
  decide

theorem setmode_command_hex_witness :
    (23 : Int) ∈ accepted_modes ∧
    cstr "m 17" = cstr "m " ++ (Nat.toDigits 16 (23 : Int).toNat).map Char.toNat ∧
    cmd_setmode (cstr "m " ++ (Nat.toDigits 16 (23 : Int).toNat).map Char.toNat) 2 = some 23 :=
  ⟨by decide, by decide, (setmode_command_hex 23 (by decide)).2.1⟩

end ArcDVI
